import Mathlib

/-!
# LinShot screenshot tool: capture overlay, screen capture and export

A shallow embedding of the parts of the C sources that the properties below talk about:

* `src/src/capture_overlay.c`: the selection overlay's event handlers and `capture_overlay_init`,
* `src/src/screen_capture.c`: `capture_screen` and its channel-mask extraction, `capture_init`
  and `capture_cleanup`,
* `src/src/editor_tools.c`: `annotation_create` and, of `annotation_draw`, the arrow and ellipse
  geometry and the bounds written back for a text,
* `src/src/main_window.c`: `save_image_with_annotations`, `copy_to_clipboard`,
  `add_border_to_surface`, `generate_screenshot_filename`, `show_text_dialog`,
  `find_text_at_coords`, `undo_last_annotation`, the canvas handlers and `on_draw`,
  `on_settings_changed`, `key_filter_func` and the capture flow of `on_capture_button_clicked`,
* `src/src/screenshot_history.c`: `screenshot_history_add`.

C `int` values are mathematical integers; every arithmetic result of type `int` goes through
`wrap32` (two's-complement wrap-around), the index and offset products of the pixel loops
included.  `unsigned long` pixel words and masks are naturals, `unsigned char` stores reduce
modulo 256.  Sums of a pointer and an `int` are not wrapped.  A C `double` is a rational number.
-/

namespace LinShot

/-! ## Machine integers -/

/-- Wrap a mathematical integer into the range of a 32-bit two's-complement `int`. -/
def wrap32 (z : Int) : Int :=
  (z + 2147483648) % 4294967296 - 2147483648

/-- The value is representable as a 32-bit `int`. -/
def isInt32 (z : Int) : Prop :=
  -2147483648 ≤ z ∧ z ≤ 2147483647

instance (z : Int) : Decidable (isInt32 z) := by
  unfold isInt32; infer_instance

/-! ## `include/screen_capture.h` -/

/-- The struct `CaptureArea`: `int x, y; int width, height;`. -/
structure CaptureArea where
  x : Int
  y : Int
  width : Int
  height : Int
deriving DecidableEq, Repr

/-- The enum `CaptureMode`. -/
inductive CaptureMode where
  | CAPTURE_FULLSCREEN
  | CAPTURE_AREA
  | CAPTURE_WINDOW
deriving DecidableEq, Repr

/-! ## `capture_overlay.c` -/

/-- The struct `CaptureOverlay`.  The two widget pointers and the background surface are kept as
the facts the handlers use: whether the window is shown, and whether `gtk_main_quit` has been
called for the nested main loop. -/
structure CaptureOverlay where
  selection : CaptureArea
  selecting : Bool
  start_x : Int
  start_y : Int
  mouse_x : Int
  mouse_y : Int
  window_shown : Bool
  main_quit : Bool
deriving DecidableEq, Repr

/-- Key value `GDK_KEY_Escape` of `gdk/gdkkeysyms.h`. -/
def GDK_KEY_Escape : Nat := 0xff1b

/-- Key value `GDK_KEY_Return` of `gdk/gdkkeysyms.h`. -/
def GDK_KEY_Return : Nat := 0xff0d

/-- The overlay as `on_capture_button_clicked` and `capture_overlay_init` leave it before the
main loop starts: `CaptureOverlay overlay = {0}`, then `selecting = false`, the selection zeroed,
and the window shown. -/
def capture_overlay_init_state : CaptureOverlay :=
  { selection := { x := 0, y := 0, width := 0, height := 0 }
    selecting := false
    start_x := 0
    start_y := 0
    mouse_x := 0
    mouse_y := 0
    window_shown := true
    main_quit := false }

/-- The function `capture_overlay_get_selection`. -/
def capture_overlay_get_selection (overlay : CaptureOverlay) : CaptureArea :=
  overlay.selection

/-- The handler `on_button_press`; `x` and `y` are the values of `(int)event->x` and
`(int)event->y`. -/
def on_button_press (overlay : CaptureOverlay) (button : Nat) (x y : Int) : CaptureOverlay :=
  if button = 1 then
    { overlay with
      selecting := true
      start_x := x
      start_y := y
      selection := { x := x, y := y, width := 0, height := 0 } }
  else overlay

/-- The normalisation block of `on_button_release`: flip a negative extent and shift the origin,
then zero both dimensions when either is below 5. -/
def normalize_selection (sel : CaptureArea) : CaptureArea :=
  let sel :=
    if sel.width < 0 then
      { sel with x := wrap32 (sel.x + sel.width), width := wrap32 (-sel.width) }
    else sel
  let sel :=
    if sel.height < 0 then
      { sel with y := wrap32 (sel.y + sel.height), height := wrap32 (-sel.height) }
    else sel
  if sel.width < 5 ∨ sel.height < 5 then
    { sel with width := 0, height := 0 }
  else sel

/-- The handler `on_button_release`: for the primary button, stop selecting, normalise, hide the
window and quit the main loop. -/
def on_button_release (overlay : CaptureOverlay) (button : Nat) : CaptureOverlay :=
  if button = 1 then
    { overlay with
      selecting := false
      selection := normalize_selection overlay.selection
      window_shown := false
      main_quit := true }
  else overlay

/-- The handler `on_motion_notify`; `x` and `y` are the values of `(int)event->x` and
`(int)event->y`. -/
def on_motion_notify (overlay : CaptureOverlay) (x y : Int) : CaptureOverlay :=
  let overlay := { overlay with mouse_x := x, mouse_y := y }
  if overlay.selecting then
    { overlay with
      selection :=
        { overlay.selection with
          width := wrap32 (x - overlay.start_x)
          height := wrap32 (y - overlay.start_y) } }
  else overlay

/-- The handler `on_key_press`. -/
def on_key_press (overlay : CaptureOverlay) (keyval : Nat) : CaptureOverlay :=
  if keyval = GDK_KEY_Escape then
    { overlay with
      selection := { overlay.selection with width := 0, height := 0 }
      main_quit := true }
  else if keyval = GDK_KEY_Return then
    { overlay with main_quit := true }
  else overlay

/-- The events the overlay window is connected to. -/
inductive OverlayEvent where
  | button_press (button : Nat) (x y : Int)
  | button_release (button : Nat) (x y : Int)
  | motion (x y : Int)
  | key_press (keyval : Nat)
deriving DecidableEq, Repr

/-- Dispatch one event to its handler. -/
def overlay_handle (overlay : CaptureOverlay) : OverlayEvent → CaptureOverlay
  | .button_press b x y => on_button_press overlay b x y
  | .button_release b _ _ => on_button_release overlay b
  | .motion x y => on_motion_notify overlay x y
  | .key_press k => on_key_press overlay k

/-- The nested `gtk_main()` of `on_capture_button_clicked`: events are handled in order until a
handler has called `gtk_main_quit`. -/
def overlay_main : CaptureOverlay → List OverlayEvent → CaptureOverlay
  | overlay, [] => overlay
  | overlay, e :: es =>
    if overlay.main_quit then overlay
    else overlay_main (overlay_handle overlay e) es

/-- A drag: primary-button press at the origin followed by pointer moves. -/
def drag (overlay : CaptureOverlay) (ox oy : Int) (moves : List (Int × Int)) : CaptureOverlay :=
  moves.foldl (fun o m => on_motion_notify o m.1 m.2) (on_button_press overlay 1 ox oy)

/-! ## `screen_capture.c` -/

/-- The fields of an `XImage` that `capture_screen` reads: the three channel masks and the pixel
words `XGetPixel(img, i, j)`, all of C type `unsigned long`. -/
structure XImage where
  red_mask : Nat
  green_mask : Nat
  blue_mask : Nat
  get_pixel : Int → Int → Nat

/-- The library calls of `capture_screen`, taken as parameters: the root window's size from
`XGetWindowAttributes`, the result of `XGetImage` on the root window for `x y width height`
(`none` for `NULL`), and, for a `width height` that Cairo accepts, whether the image surface
gets created (`none` when its status is not `CAIRO_STATUS_SUCCESS`) and its row stride in
bytes. -/
structure CaptureEnv where
  root_width : Int
  root_height : Int
  XGetImage : Int → Int → Int → Int → Option XImage
  surface_stride : Int → Int → Option Int

/-- Cairo's `cairo_image_surface_create` followed by the test of `cairo_surface_status`: for a
negative width or height Cairo returns an error surface (`CAIRO_STATUS_INVALID_SIZE`), shown as
`none`; for another size the environment says whether the surface is created, and gives the row
stride in bytes. -/
def cairo_image_surface_create (env : CaptureEnv) (width height : Int) : Option Int :=
  if width < 0 ∨ height < 0 then none else env.surface_stride width height

/-- An image surface: its size, its row stride in bytes and its bytes by offset. -/
structure Surface where
  width : Int
  height : Int
  stride : Int
  data : Int → Nat

/-- The loop `while (mask && !(mask & 1)) { mask >>= 1; shift++; }`.  The fuel is the number of
iterations still allowed. -/
def shift_loop : Nat → Nat → Nat → Nat
  | 0, _, shift => shift
  | fuel + 1, mask, shift =>
    if mask ≠ 0 ∧ mask &&& 1 = 0 then shift_loop fuel (mask >>> 1) (shift + 1) else shift

/-- The shift computed for a channel mask, starting from `shift = 0`.  An `unsigned long` has 64
bits, so 64 iterations are enough for the loop to reach its exit (`mask_shift_exit`). -/
def mask_shift (mask : Nat) : Nat :=
  shift_loop 64 mask 0

/-- The body of the copy loop: the four `unsigned char` stores at `p`. -/
def store_pixel (img : XImage) (red_shift green_shift blue_shift : Nat) (data : Int → Nat)
    (p : Int) (pixel : Nat) : Int → Nat :=
  let data := Function.update data (p + 0) (((pixel &&& img.blue_mask) >>> blue_shift) % 256)
  let data := Function.update data (p + 1) (((pixel &&& img.green_mask) >>> green_shift) % 256)
  let data := Function.update data (p + 2) (((pixel &&& img.red_mask) >>> red_shift) % 256)
  Function.update data (p + 3) 0xFF

/-- The inner loop `for (int i = 0; i < width; i++)` of row `j`.  The pointer `p` is
`cairo_data + j * cairo_stride + i * 4`: the two products are `int` products. -/
def copy_row (img : XImage) (red_shift green_shift blue_shift : Nat) (cairo_stride width : Int)
    (data : Int → Nat) (j : Int) : Int → Nat :=
  (List.range width.toNat).foldl
    (fun (data : Int → Nat) (i : Nat) =>
      store_pixel img red_shift green_shift blue_shift data
        (wrap32 (j * cairo_stride) + wrap32 ((i : Int) * 4)) (img.get_pixel (i : Int) j))
    data

/-- The outer loop `for (int j = 0; j < height; j++)`. -/
def copy_rows (img : XImage) (red_shift green_shift blue_shift : Nat)
    (cairo_stride width height : Int) (data : Int → Nat) : Int → Nat :=
  (List.range height.toNat).foldl
    (fun (data : Int → Nat) (j : Nat) =>
      copy_row img red_shift green_shift blue_shift cairo_stride width data (j : Int))
    data

/-- The first block of `capture_screen`: the rectangle `x, y, width, height` asked of `XGetImage`,
or `none` where the function returns `NULL` at once. -/
def capture_request (env : CaptureEnv) (mode : CaptureMode) (area : Option CaptureArea) :
    Option (Int × Int × Int × Int) :=
  match mode, area with
  | .CAPTURE_FULLSCREEN, _ => some (0, 0, env.root_width, env.root_height)
  | .CAPTURE_AREA, some area => some (area.x, area.y, area.width, area.height)
  | _, _ => none

/-- The function `capture_screen`.  A fresh image surface is zero-filled. -/
def capture_screen (env : CaptureEnv) (mode : CaptureMode) (area : Option CaptureArea) :
    Option Surface :=
  match capture_request env mode area with
  | none => none
  | some (x, y, width, height) =>
    match env.XGetImage x y width height with
    | none => none
    | some img =>
      match cairo_image_surface_create env width height with
      | none => none
      | some cairo_stride =>
        let red_shift := mask_shift img.red_mask
        let green_shift := mask_shift img.green_mask
        let blue_shift := mask_shift img.blue_mask
        some
          { width := width
            height := height
            stride := cairo_stride
            data :=
              copy_rows img red_shift green_shift blue_shift cairo_stride width height
                (fun _ => 0) }

/-- The four bytes of the destination pixel at column `i` of row `j`, in memory order. -/
def Surface.pixel_bytes (s : Surface) (i j : Int) : List Nat :=
  [s.data (j * s.stride + i * 4 + 0), s.data (j * s.stride + i * 4 + 1),
   s.data (j * s.stride + i * 4 + 2), s.data (j * s.stride + i * 4 + 3)]

/-- A source pixel word built from channel values `r`, `g`, `b`: each value is shifted to the
position of its mask, as found by `mask_shift`, and the three are combined. -/
def synthetic_pixel (red_mask green_mask blue_mask r g b : Nat) : Nat :=
  (r <<< mask_shift red_mask) ||| (g <<< mask_shift green_mask) ||| (b <<< mask_shift blue_mask)

/-- The channel value lies under its mask: shifted into place it has no bit outside the mask. -/
def fits_mask (mask v : Nat) : Prop :=
  (v <<< mask_shift mask) &&& mask = v <<< mask_shift mask

instance (mask v : Nat) : Decidable (fits_mask mask v) := by
  unfold fits_mask; infer_instance

/-- The three channel masks share no bit. -/
def disjoint_masks (red_mask green_mask blue_mask : Nat) : Prop :=
  red_mask &&& green_mask = 0 ∧ red_mask &&& blue_mask = 0 ∧ green_mask &&& blue_mask = 0

instance (r g b : Nat) : Decidable (disjoint_masks r g b) := by
  unfold disjoint_masks; infer_instance

/-- A display with a 30-bit visual: ten bits per channel, red in bits 20 to 29, green in bits 10
to 19 and blue in bits 0 to 9.  Every pixel of every image is the word built from the channel
values `r`, `g`, `b`; surfaces are created with a stride of `4 * width`. -/
def deep_color_env (r g b : Nat) : CaptureEnv :=
  { root_width := 1
    root_height := 1
    XGetImage := fun _ _ _ _ =>
      some
        { red_mask := 0x3FF00000
          green_mask := 0xFFC00
          blue_mask := 0x3FF
          get_pixel := fun _ _ => synthetic_pixel 0x3FF00000 0xFFC00 0x3FF r g b }
    surface_stride := fun width _ => some (4 * width) }

/-- A display with a 24-bit visual whose channels are in the order blue, green, red from the
top: red in bits 0 to 7.  The pixel at `(i, j)` carries the channel values `r + i`, `g + j`,
`b`; surfaces are created with a stride of `4 * width + 4`, one pixel of padding per row. -/
def bgr_env (r g b : Nat) : CaptureEnv :=
  { root_width := 4
    root_height := 4
    XGetImage := fun _ _ _ _ =>
      some
        { red_mask := 0xFF
          green_mask := 0xFF00
          blue_mask := 0xFF0000
          get_pixel := fun i j =>
            synthetic_pixel 0xFF 0xFF00 0xFF0000 (r + i.toNat) (g + j.toNat) b }
    surface_stride := fun width _ => some (4 * width + 4) }

/-- An environment in which the image request succeeds for every rectangle and the surface
creation for every size that Cairo accepts. -/
def accepting_env : CaptureEnv :=
  { root_width := 4
    root_height := 4
    XGetImage := fun _ _ _ _ =>
      some
        { red_mask := 0xFF0000
          green_mask := 0xFF00
          blue_mask := 0xFF
          get_pixel := fun _ _ => 0 }
    surface_stride := fun width _ => some (4 * width) }

/-! ## `screenshot_history.c` -/

/-- The struct `ScreenshotEntry`; the thumbnail pixbuf carries no information used here. -/
structure ScreenshotEntry where
  filepath : List Char
  timestamp : Int
deriving DecidableEq, Repr

/-- The struct `ScreenshotHistory`. -/
structure ScreenshotHistory where
  entries : List ScreenshotEntry
  screenshot_path : Option (List Char)
deriving DecidableEq, Repr

/-- What `screenshot_history_add` asks of the file system for a path: whether `access(R_OK)`
succeeds, the modification time when `stat` succeeds, and whether `create_thumbnail` gives a
pixbuf. -/
structure FileSystem where
  access_R_OK : List Char → Bool
  stat_mtime : List Char → Option Int
  create_thumbnail : List Char → Bool

/-- The comparison `compare_entries_by_time`: the `time_t` difference is returned as an
`int`. -/
def compare_entries_by_time (a b : ScreenshotEntry) : Int :=
  wrap32 (b.timestamp - a.timestamp)

/-- GLib's `g_list_insert_sorted`: the new element goes before the first element for which the
comparison of the new element with it is not positive, or at the end. -/
def g_list_insert_sorted {α : Type} (list : List α) (data : α) (func : α → α → Int) : List α :=
  match list with
  | [] => [data]
  | e :: rest =>
    if func data e > 0 then e :: g_list_insert_sorted rest data func
    else data :: e :: rest

/-- The function `screenshot_history_add` for a non-null history and path. -/
def screenshot_history_add (fs : FileSystem) (history : ScreenshotHistory)
    (filepath : List Char) : ScreenshotHistory :=
  if ¬ fs.access_R_OK filepath then history
  else
    match fs.stat_mtime filepath with
    | none => history
    | some mtime =>
      let entry : ScreenshotEntry := { filepath := filepath, timestamp := mtime }
      if ¬ fs.create_thumbnail filepath then history
      else
        { history with entries := g_list_insert_sorted history.entries entry compare_entries_by_time }

/-- The function `screenshot_history_get_sorted` for a non-null history. -/
def screenshot_history_get_sorted (history : ScreenshotHistory) : List ScreenshotEntry :=
  history.entries

/-! ## `main_window.c`: export -/

/-- C's `strrchr`: the suffix of the string that starts at the last occurrence of `c`. -/
def strrchr : List Char → Char → Option (List Char)
  | [], _ => none
  | a :: s, c =>
    match strrchr s c with
    | some r => some r
    | none => if a = c then some (a :: s) else none

/-- GLib's `g_ascii_tolower`. -/
def g_ascii_tolower (c : Char) : Char :=
  if 'A' ≤ c ∧ c ≤ 'Z' then Char.ofNat (c.toNat - 'A'.toNat + 'a'.toNat) else c

/-- GLib's `g_ascii_toupper`. -/
def g_ascii_toupper (c : Char) : Char :=
  if 'a' ≤ c ∧ c ≤ 'z' then Char.ofNat (c.toNat - 'a'.toNat + 'A'.toNat) else c

/-- GLib's `g_ascii_strcasecmp`: compare the lower-cased characters while both strings last,
then the two characters at which the loop stopped (the terminating NUL counts as 0). -/
def g_ascii_strcasecmp : List Char → List Char → Int
  | c1 :: s1, c2 :: s2 =>
    if g_ascii_tolower c1 ≠ g_ascii_tolower c2 then
      ((g_ascii_tolower c1).toNat : Int) - ((g_ascii_tolower c2).toNat : Int)
    else g_ascii_strcasecmp s1 s2
  | [], [] => 0
  | [], c2 :: _ => 0 - (c2.toNat : Int)
  | c1 :: _, [] => (c1.toNat : Int) - 0

/-- One drawing step of the flattening that precedes an export. -/
inductive DrawOp (α : Type) where
  | image_surface_create (width height : Int)
  | paint_surface (x y : Int)
  | annotation_draw (a : α)
deriving DecidableEq, Repr

/-- One call of `gdk_pixbuf_save`: the file name, the type string and the option pairs. -/
structure EncoderCall where
  filename : List Char
  type : List Char
  options : List (List Char × List Char)
deriving DecidableEq, Repr

/-- The library calls of `save_image_with_annotations`, taken as parameters: whether
`gdk_pixbuf_get_from_surface` gives a pixbuf, the error message `gdk_pixbuf_save` sets for a call
(`none` when it sets no error), and the file system as `screenshot_history_add` finds it
afterwards. -/
structure SaveEnv where
  pixbuf_get_from_surface : Bool
  gdk_pixbuf_save : EncoderCall → Option (List Char)
  fs : FileSystem

/-- The parts of `MainWindow` the export touches: the messages pushed on the status bar (oldest
first), the history, and the file paths of the item widgets in the history flow box. -/
structure MainWindow where
  statusbar : List (List Char)
  screenshot_history : ScreenshotHistory
  history_flow_box : List (List Char)
deriving DecidableEq, Repr

/-- The call `gtk_statusbar_push`. -/
def gtk_statusbar_push (win : MainWindow) (message : List Char) : MainWindow :=
  { win with statusbar := win.statusbar ++ [message] }

/-- What one call of `save_image_with_annotations` did: the window afterwards, the drawing steps
on the combined surface, and the encoder calls made. -/
structure SaveOutcome (α : Type) where
  win : MainWindow
  drawn : List (DrawOp α)
  encoder_calls : List EncoderCall

/-- A branch of the extension dispatch that calls `gdk_pixbuf_save`. -/
def save_branch_encode (env : SaveEnv) (win : MainWindow) (call : EncoderCall) :
    MainWindow × List EncoderCall × Option (List Char) :=
  (win, [call], env.gdk_pixbuf_save call)

/-- A branch of the extension dispatch that pushes a message and sets `error` to the same
message with `g_error_new`. -/
def save_branch_unsupported (win : MainWindow) (message : List Char) :
    MainWindow × List EncoderCall × Option (List Char) :=
  (gtk_statusbar_push win message, [], some message)

/-- The `if`/`else if` chain of `save_image_with_annotations` on the extension: the window,
the encoder calls made and the value of `error` after it. -/
def save_dispatch (env : SaveEnv) (win : MainWindow) (filename ext : List Char) :
    MainWindow × List EncoderCall × Option (List Char) :=
  if g_ascii_strcasecmp ext "jpg".toList = 0 ∨ g_ascii_strcasecmp ext "jpeg".toList = 0 then
    save_branch_encode env win
      ⟨filename, "jpeg".toList, [("quality".toList, "100".toList)]⟩
  else if g_ascii_strcasecmp ext "png".toList = 0 then
    save_branch_encode env win
      ⟨filename, "png".toList, [("compression".toList, "9".toList)]⟩
  else if g_ascii_strcasecmp ext "gif".toList = 0 then
    save_branch_encode env win ⟨filename, "gif".toList, []⟩
  else if g_ascii_strcasecmp ext "svg".toList = 0 then
    save_branch_unsupported win "SVG format not supported for screenshots".toList
  else if g_ascii_strcasecmp ext "tiff".toList = 0 ∨ g_ascii_strcasecmp ext "tif".toList = 0 then
    save_branch_encode env win ⟨filename, "tiff".toList, []⟩
  else if g_ascii_strcasecmp ext "webp".toList = 0 then
    save_branch_encode env win
      ⟨filename, "webp".toList, [("quality".toList, "100".toList)]⟩
  else if g_ascii_strcasecmp ext "bmp".toList = 0 then
    save_branch_encode env win ⟨filename, "bmp".toList, []⟩
  else if g_ascii_strcasecmp ext "heic".toList = 0 ∨ g_ascii_strcasecmp ext "heif".toList = 0 then
    save_branch_unsupported win "HEIC/HEIF format not supported".toList
  else if g_ascii_strcasecmp ext "raw".toList = 0 then
    save_branch_unsupported win "RAW format not supported".toList
  else if g_ascii_strcasecmp ext "ico".toList = 0 then
    save_branch_encode env win ⟨filename, "ico".toList, []⟩
  else if g_ascii_strcasecmp ext "psd".toList = 0 then
    save_branch_unsupported win "PSD format not supported".toList
  else if g_ascii_strcasecmp ext "eps".toList = 0 then
    save_branch_unsupported win "EPS format not supported".toList
  else if g_ascii_strcasecmp ext "ai".toList = 0 then
    save_branch_unsupported win "AI format not supported".toList
  else if g_ascii_strcasecmp ext "avif".toList = 0 then
    save_branch_unsupported win "AVIF format not supported".toList
  else if g_ascii_strcasecmp ext "cr2".toList = 0 ∨ g_ascii_strcasecmp ext "cr3".toList = 0 then
    save_branch_unsupported win "CR2/CR3 format not supported".toList
  else (win, [], none)

/-- The tail of `save_image_with_annotations`: report the error, or report success, add the file
to the history and rebuild the history flow box from the sorted entries. -/
def save_report (env : SaveEnv) (win : MainWindow) (filename : List Char)
    (error : Option (List Char)) : MainWindow :=
  match error with
  | some message =>
    gtk_statusbar_push win (("Failed to save image: ".toList ++ message).take 255)
  | none =>
    let win := gtk_statusbar_push win "Image saved successfully".toList
    let win :=
      { win with screenshot_history := screenshot_history_add env.fs win.screenshot_history filename }
    { win with
      history_flow_box :=
        (screenshot_history_get_sorted win.screenshot_history).map (fun e => e.filepath) }

/-- The function `save_image_with_annotations`; `none` stands for a null `surface` or
`filename`. -/
def save_image_with_annotations {α : Type} (env : SaveEnv) (win : MainWindow)
    (surface : Option Surface) (annotations : List α) (filename : Option (List Char)) :
    SaveOutcome α :=
  match surface, filename with
  | some surface, some filename =>
    let drawn : List (DrawOp α) :=
      [DrawOp.image_surface_create surface.width surface.height, DrawOp.paint_surface 0 0]
        ++ annotations.map DrawOp.annotation_draw
    match strrchr filename '.' with
    | none => { win := win, drawn := drawn, encoder_calls := [] }
    | some dot =>
      let ext := dot.tail
      if ¬ env.pixbuf_get_from_surface then { win := win, drawn := drawn, encoder_calls := [] }
      else
        let (win, calls, error) := save_dispatch env win filename ext
        { win := save_report env win filename error, drawn := drawn, encoder_calls := calls }
  | _, _ => { win := win, drawn := [], encoder_calls := [] }

/-- The encoder the specification names for a lower-case extension: `jpeg` for `jpg` and
`jpeg`, `tiff` for `tif` and `tiff`, and the extension itself for the other formats. -/
def spec_encoder_name (lower_ext : List Char) : List Char :=
  if lower_ext = "jpg".toList ∨ lower_ext = "jpeg".toList then "jpeg".toList
  else if lower_ext = "tif".toList ∨ lower_ext = "tiff".toList then "tiff".toList
  else lower_ext

/-- A file system in which no path is readable. -/
def empty_fs : FileSystem :=
  { access_R_OK := fun _ => false
    stat_mtime := fun _ => none
    create_thumbnail := fun _ => false }

/-- A file system in which every path is a readable image file with modification time `mtime`. -/
def images_fs (mtime : Int) : FileSystem :=
  { access_R_OK := fun _ => true
    stat_mtime := fun _ => some mtime
    create_thumbnail := fun _ => true }

/-- An export environment in which the pixbuf is created and every encoder call succeeds. -/
def export_env (fs : FileSystem) : SaveEnv :=
  { pixbuf_get_from_surface := true
    gdk_pixbuf_save := fun _ => none
    fs := fs }

/-- A main window with an empty status bar and an empty history. -/
def fresh_window : MainWindow :=
  { statusbar := []
    screenshot_history := { entries := [], screenshot_path := none }
    history_flow_box := [] }

/-- A blank 2 by 2 image surface. -/
def blank_surface : Surface :=
  { width := 2, height := 2, stride := 8, data := fun _ => 0 }

/-! ## `include/editor_tools.h` and `editor_tools.c`

A C `double` is a rational number here: the coordinates, widths and colour components the code
computes with are taken as exact. -/

/-- The conversion of a `double` to `int`: the fractional part is dropped. -/
def double_to_int (q : ℚ) : Int :=
  q.num.tdiv q.den

/-- The enum `ToolType`. -/
inductive ToolType where
  | TOOL_NONE
  | TOOL_ARROW
  | TOOL_RECTANGLE
  | TOOL_ELLIPSE
  | TOOL_TEXT
  | TOOL_FREEHAND
deriving DecidableEq, Repr

/-- The struct `FontSettings`; `family` is `none` for a null pointer. -/
structure FontSettings where
  family : Option (List Char)
  size : ℚ
  is_bold : Bool
  is_italic : Bool
deriving DecidableEq, Repr

/-- GDK's struct `GdkRGBA`. -/
structure GdkRGBA where
  red : ℚ
  green : ℚ
  blue : ℚ
  alpha : ℚ
deriving DecidableEq, Repr

/-- The struct `ToolSettings`. -/
structure ToolSettings where
  type : ToolType
  color : GdkRGBA
  line_width : ℚ
  fill : Bool
  font : FontSettings
deriving DecidableEq, Repr

/-- The struct `PointPair`: `int x1, y1; int x2, y2;`. -/
structure PointPair where
  x1 : Int
  y1 : Int
  x2 : Int
  y2 : Int
deriving DecidableEq, Repr

/-- The struct `FreehandPath`: the array `points[1000]` and `point_count`. -/
structure FreehandPath where
  points : List PointPair
  point_count : Int
deriving DecidableEq, Repr

/-- The struct `Annotation`; `text` is `none` for a null pointer. -/
structure Annotation where
  type : ToolType
  settings : ToolSettings
  bounds : PointPair
  text : Option (List Char)
  path : FreehandPath
deriving DecidableEq, Repr

/-- GLib's `g_strdup`: a new string with the same characters. -/
def g_strdup (str : List Char) : List Char :=
  str

/-- The function `annotation_create`; `settings` is `none` for a null pointer and `malloc_ok`
tells whether `malloc` returns memory.  The `memset` zeroes the bounds, the text pointer, the
1000 points of the path and the point count. -/
def annotation_create (malloc_ok : Bool) (type : ToolType) (settings : Option ToolSettings) :
    Option Annotation :=
  match settings with
  | none => none
  | some settings =>
    if ¬ malloc_ok then none
    else
      some
        { type := type
          settings := { settings with font := { settings.font with
            family := settings.font.family.map g_strdup } }
          bounds := { x1 := 0, y1 := 0, x2 := 0, y2 := 0 }
          text := none
          path :=
            { points := List.replicate 1000 { x1 := 0, y1 := 0, x2 := 0, y2 := 0 }
              point_count := 0 } }

/-! ## `include/main_window.h` and `main_window.c`: the annotation list -/

/-- The struct `MainWindowData`.  The pointer `selected_text` is the position of the annotation
in `annotations`. -/
structure MainWindowData where
  win : MainWindow
  current_image : Option Surface
  current_tool : ToolSettings
  annotations : List Annotation
  undo_stack : List Annotation
  drawing : Bool
  start_point : PointPair
  selected_text : Option Nat
  drag_start_x : ℚ
  drag_start_y : ℚ

/-- The function `show_text_dialog`; `accepted` tells whether the dialog's response is
`GTK_RESPONSE_ACCEPT` and `text` is the entry's text (`none` for a null pointer). -/
def show_text_dialog (malloc_ok : Bool) (win_data : MainWindowData) (x y : ℚ) (accepted : Bool)
    (text : Option (List Char)) : MainWindowData :=
  if accepted then
    match text with
    | some (c :: cs) =>
      match annotation_create malloc_ok ToolType.TOOL_TEXT (some win_data.current_tool) with
      | some a =>
        let a := { a with text := some (g_strdup (c :: cs)) }
        let a := { a with bounds := { a.bounds with x1 := double_to_int x } }
        let a := { a with bounds := { a.bounds with y1 := double_to_int y } }
        { win_data with annotations := win_data.annotations ++ [a] }
      | none => win_data
    | _ => win_data
  else win_data

/-- The loop of `find_text_at_coords` over the annotation list. -/
def find_text_in : List Annotation → ℚ → ℚ → Option Annotation
  | [], _, _ => none
  | a :: rest, x, y =>
    if a.type = ToolType.TOOL_TEXT then
      if x ≥ (a.bounds.x1 : ℚ) ∧ x ≤ (a.bounds.x2 : ℚ) ∧
          y ≥ (a.bounds.y1 : ℚ) ∧ y ≤ (a.bounds.y2 : ℚ) then
        some a
      else find_text_in rest x y
    else find_text_in rest x y

/-- The function `find_text_at_coords`. -/
def find_text_at_coords (win_data : MainWindowData) (x y : ℚ) : Option Annotation :=
  find_text_in win_data.annotations x y

/-- The function `undo_last_annotation`: `g_list_last`, `g_list_delete_link` of that link and
`g_list_append` to the undo stack. -/
def undo_last_annotation (win_data : MainWindowData) : MainWindowData :=
  match win_data.annotations.getLast? with
  | none => win_data
  | some a =>
    { win_data with
      annotations := win_data.annotations.dropLast
      undo_stack := win_data.undo_stack ++ [a] }

/-- The point `(x, y)` lies in the bounding box of the annotation. -/
def in_bounds (a : Annotation) (x y : ℚ) : Prop :=
  (a.bounds.x1 : ℚ) ≤ x ∧ x ≤ (a.bounds.x2 : ℚ) ∧ (a.bounds.y1 : ℚ) ≤ y ∧ y ≤ (a.bounds.y2 : ℚ)

instance (a : Annotation) (x y : ℚ) : Decidable (in_bounds a x y) := by
  unfold in_bounds; infer_instance

/-- The default tool settings of `tool_settings_init`, with a tool type. -/
def default_settings (type : ToolType) : ToolSettings :=
  { type := type
    color := { red := 1, green := 0, blue := 0, alpha := 1 }
    line_width := 2
    fill := false
    font := { family := some "Arial".toList, size := 14, is_bold := false, is_italic := false } }

/-- An editing session on a blank image with no annotation yet. -/
def fresh_window_data (tool : ToolType) : MainWindowData :=
  { win := fresh_window
    current_image := some blank_surface
    current_tool := default_settings tool
    annotations := []
    undo_stack := []
    drawing := false
    start_point := { x1 := 0, y1 := 0, x2 := 0, y2 := 0 }
    selected_text := none
    drag_start_x := 0
    drag_start_y := 0 }

/-! ## `editor_tools.c`: the arrow head -/

/-- The line `double arrow_length = fmin(fmax(length * 0.15, 12.0), 20.0);` of
`annotation_draw`. -/
def arrow_head_length (length : ℚ) : ℚ :=
  min (max (length * 0.15) 12.0) 20.0

/-- The functions of `math.h` that `annotation_draw` calls, taken as parameters: each gives the
`double` the library returns. -/
structure LibM where
  sqrt : ℚ → ℚ
  atan2 : ℚ → ℚ → ℚ
  cos : ℚ → ℚ
  sin : ℚ → ℚ

/-- The numbers the `TOOL_ARROW` case of `annotation_draw` computes: the end of the shaft line,
the length and width of the head, and the tip, back, left and right points of the head. -/
structure ArrowGeometry where
  length : ℚ
  shaft_end_x : ℚ
  shaft_end_y : ℚ
  arrow_length : ℚ
  arrow_width : ℚ
  tip_x : ℚ
  tip_y : ℚ
  back_x : ℚ
  back_y : ℚ
  left_x : ℚ
  left_y : ℚ
  right_x : ℚ
  right_y : ℚ
deriving DecidableEq, Repr

/-- The computations of the `TOOL_ARROW` case of `annotation_draw` for the bounds of an
annotation. -/
def arrow_geometry (m : LibM) (bounds : PointPair) : ArrowGeometry :=
  let dx : ℚ := (wrap32 (bounds.x2 - bounds.x1) : Int)
  let dy : ℚ := (wrap32 (bounds.y2 - bounds.y1) : Int)
  let angle := m.atan2 dy dx
  let length := m.sqrt (dx * dx + dy * dy)
  let arrow_length := arrow_head_length length
  let arrow_width := arrow_length * 0.8
  let tip_x : ℚ := bounds.x2
  let tip_y : ℚ := bounds.y2
  let back_x := tip_x - arrow_length * m.cos angle
  let back_y := tip_y - arrow_length * m.sin angle
  { length := length
    shaft_end_x := (bounds.x2 : ℚ) - 12.0 * m.cos angle
    shaft_end_y := (bounds.y2 : ℚ) - 12.0 * m.sin angle
    arrow_length := arrow_length
    arrow_width := arrow_width
    tip_x := tip_x
    tip_y := tip_y
    back_x := back_x
    back_y := back_y
    left_x := back_x - (arrow_width * 0.5) * m.sin angle
    left_y := back_y + (arrow_width * 0.5) * m.cos angle
    right_x := back_x + (arrow_width * 0.5) * m.sin angle
    right_y := back_y - (arrow_width * 0.5) * m.cos angle }

/-! ## `main_window.c`: border, clipboard, file names -/

/-- The Cairo calls made on a drawing context. -/
inductive CairoOp where
  | set_operator_clear
  | set_operator_over
  | paint
  | set_source_surface (x y : ℚ)
  | set_source_rgb (r g b : ℚ)
  | set_source_rgba (r g b a : ℚ)
  | set_line_width (width : ℚ)
  | rectangle (x y width height : ℚ)
  | move_to (x y : ℚ)
  | line_to (x y : ℚ)
  | close_path
  | fill_preserve
  | stroke
deriving DecidableEq, Repr

/-- The surface `add_border_to_surface` returns: the size it was created with and the Cairo
calls made on it, in order. -/
structure BorderedSurface where
  width : Int
  height : Int
  drawn : List CairoOp
deriving DecidableEq, Repr

/-- The function `add_border_to_surface`; `none` stands for a null surface.  The two `double`
sums are converted to `int` for `cairo_image_surface_create`. -/
def add_border_to_surface (surface : Option Surface) (border_width r g b : ℚ) :
    Option BorderedSurface :=
  match surface with
  | none => none
  | some surface =>
    let width := surface.width
    let height := surface.height
    some
      { width := double_to_int ((width : ℚ) + 2 * border_width)
        height := double_to_int ((height : ℚ) + 2 * border_width)
        drawn :=
          [CairoOp.set_operator_clear, CairoOp.paint, CairoOp.set_operator_over,
            CairoOp.set_source_surface border_width border_width, CairoOp.paint,
            CairoOp.set_source_rgb r g b, CairoOp.set_line_width border_width,
            CairoOp.rectangle (border_width / 2) (border_width / 2)
              ((width : ℚ) + border_width) ((height : ℚ) + border_width),
            CairoOp.stroke] }

/-- Cairo's stroke of the path of one `cairo_rectangle x y width height` at line width
`line_width`, with the default mitred joins: the stroke covers the point `(px, py)` when the
point is at most half the line width outside the rectangle and not more than half the line
width inside it. -/
def rectangle_stroke_covers (x y width height line_width px py : ℚ) : Prop :=
  (x - line_width / 2 ≤ px ∧ px ≤ x + width + line_width / 2 ∧
      y - line_width / 2 ≤ py ∧ py ≤ y + height + line_width / 2) ∧
    ¬ (x + line_width / 2 < px ∧ px < x + width - line_width / 2 ∧
      y + line_width / 2 < py ∧ py < y + height - line_width / 2)

instance (x y width height line_width px py : ℚ) :
    Decidable (rectangle_stroke_covers x y width height line_width px py) := by
  unfold rectangle_stroke_covers; infer_instance

/-- The body of the conversion loop of `copy_to_clipboard`: four bytes read at `src_idx`, four
bytes stored at `dst_idx`.  The array indices `src_idx + 3` and so on are `int` sums. -/
def clipboard_store_pixel (surface_data rgb_data : Int → Nat) (src_idx dst_idx : Int) :
    Int → Nat :=
  let alpha := surface_data (wrap32 (src_idx + 3))
  let red := surface_data (wrap32 (src_idx + 2))
  let green := surface_data (wrap32 (src_idx + 1))
  let blue := surface_data (wrap32 (src_idx + 0))
  let rgb_data := Function.update rgb_data (wrap32 (dst_idx + 0)) red
  let rgb_data := Function.update rgb_data (wrap32 (dst_idx + 1)) green
  let rgb_data := Function.update rgb_data (wrap32 (dst_idx + 2)) blue
  Function.update rgb_data (wrap32 (dst_idx + 3)) alpha

/-- The line `int src_idx = y * stride + x * 4;` of the conversion loop. -/
def clipboard_src_idx (stride y x : Int) : Int :=
  wrap32 (wrap32 (y * stride) + wrap32 (x * 4))

/-- The line `int dst_idx = (y * width + x) * 4;` of the conversion loop. -/
def clipboard_dst_idx (width y x : Int) : Int :=
  wrap32 (wrap32 (wrap32 (y * width) + x) * 4)

/-- The first `count` iterations of the inner loop `for (int x = 0; x < width; x++)` of
row `y`. -/
def clipboard_convert_row_upto (surface_data : Int → Nat) (stride width : Int)
    (rgb_data : Int → Nat) (y : Int) (count : Nat) : Int → Nat :=
  (List.range count).foldl
    (fun (rgb_data : Int → Nat) (x : Nat) =>
      clipboard_store_pixel surface_data rgb_data (clipboard_src_idx stride y (x : Int))
        (clipboard_dst_idx width y (x : Int)))
    rgb_data

/-- The inner loop `for (int x = 0; x < width; x++)` of row `y`. -/
def clipboard_convert_row (surface_data : Int → Nat) (stride width : Int) (rgb_data : Int → Nat)
    (y : Int) : Int → Nat :=
  clipboard_convert_row_upto surface_data stride width rgb_data y width.toNat

/-- The outer loop `for (int y = 0; y < height; y++)`. -/
def clipboard_convert (surface_data : Int → Nat) (stride width height : Int)
    (rgb_data : Int → Nat) : Int → Nat :=
  (List.range height.toNat).foldl
    (fun (rgb_data : Int → Nat) (y : Nat) =>
      clipboard_convert_row surface_data stride width rgb_data (y : Int))
    rgb_data

/-- The byte of the source pixel that the conversion stores as byte `k` of the destination
pixel: bytes 0 and 2 change places, bytes 1 and 3 stay. -/
def clipboard_source_byte (k : Int) : Int :=
  if k = 0 then 2 else if k = 2 then 0 else k

/-- The pixbuf handed to the clipboard: its size, row stride and bytes by offset. -/
structure ClipboardImage where
  width : Int
  height : Int
  rowstride : Int
  pixels : Int → Nat

/-- What one call of `copy_to_clipboard` did: the window afterwards, the drawing steps on the
combined surface, and the image set on the clipboard, if any. -/
structure ClipboardOutcome (α : Type) where
  win : MainWindow
  drawn : List (DrawOp α)
  clipboard : Option ClipboardImage

/-- The function `copy_to_clipboard`; `none` stands for a null surface.  Cairo's rendering is a
parameter: `render` gives the stride and the bytes of the combined surface after the drawing
steps.  `malloc_data` is the content of the fresh buffer.  The size `width * height * 4` is an
`int`; `g_malloc` returns `NULL` for a size of 0 bytes and aborts the program for a negative
`int`, which becomes a size above any memory, so nothing reaches the clipboard then. -/
def copy_to_clipboard {α : Type} (render : List (DrawOp α) → Int × (Int → Nat))
    (malloc_data : Int → Nat) (win : MainWindow) (surface : Option Surface)
    (annotations : List α) : ClipboardOutcome α :=
  match surface with
  | none => { win := win, drawn := [], clipboard := none }
  | some surface =>
    let width := surface.width
    let height := surface.height
    let drawn : List (DrawOp α) :=
      [DrawOp.image_surface_create width height, DrawOp.paint_surface 0 0]
        ++ annotations.map DrawOp.annotation_draw
    let surface_data := (render drawn).2
    let stride := (render drawn).1
    let size := wrap32 (wrap32 (width * height) * 4)
    if size = 0 then { win := win, drawn := drawn, clipboard := none }
    else if size < 0 then { win := win, drawn := drawn, clipboard := none }
    else
      let rgb_data := clipboard_convert surface_data stride width height malloc_data
      { win := gtk_statusbar_push win "Image with annotations copied to clipboard".toList
        drawn := drawn
        clipboard :=
          some
            { width := width, height := height, rowstride := wrap32 (width * 4)
              pixels := rgb_data } }

/-- The enum `FilenameFormat`. -/
inductive FilenameFormat where
  | FILENAME_LINSHOT_NUMBER
  | FILENAME_SCREENSHOT_NUMBER
  | FILENAME_LINSHOT_TIMESTAMP
  | FILENAME_SCREENSHOT_TIMESTAMP
deriving DecidableEq, Repr

/-- The enum `ShortcutKey`. -/
inductive ShortcutKey where
  | SHORTCUT_NONE
  | SHORTCUT_PRINTSCREEN
  | SHORTCUT_CTRL_PRINTSCREEN
  | SHORTCUT_SHIFT_PRINTSCREEN
  | SHORTCUT_CTRL_SHIFT_S
  | SHORTCUT_CTRL_ALT_S
deriving DecidableEq, Repr

/-- The struct `Settings`. -/
structure Settings where
  screenshot_path : List Char
  filename_format : FilenameFormat
  auto_number : Int
  start_with_os : Bool
  shortcut_key : ShortcutKey
deriving DecidableEq, Repr

/-- The decimal digits of a natural number, most significant first; `fuel` bounds the number of
digits. -/
def decimal_digits : Nat → Nat → List Char
  | 0, _ => []
  | fuel + 1, n =>
    if n < 10 then [Nat.digitChar n]
    else decimal_digits fuel (n / 10) ++ [Nat.digitChar (n % 10)]

/-- C's `printf` conversion `%04d`: a minus sign for a negative number, then the decimal digits
of its absolute value, filled with zeros after the sign up to a total of four characters. -/
def printf_04d (n : Int) : List Char :=
  let digits := decimal_digits (n.natAbs + 1) n.natAbs
  if n < 0 then '-' :: (List.replicate (3 - digits.length) '0' ++ digits)
  else List.replicate (4 - digits.length) '0' ++ digits

/-- The function `generate_screenshot_filename`: the name, and the value of the static counter
`number` afterwards.  The result of `strftime` for the current local time is the parameter
`timestamp`. -/
def generate_screenshot_filename (timestamp : List Char) (settings : Settings) (number : Int) :
    List Char × Int :=
  match settings.filename_format with
  | .FILENAME_LINSHOT_NUMBER =>
    (settings.screenshot_path ++ "/LinShot_".toList ++ printf_04d number ++ ".png".toList,
      wrap32 (number + 1))
  | .FILENAME_SCREENSHOT_NUMBER =>
    (settings.screenshot_path ++ "/Screenshot_".toList ++ printf_04d number ++ ".png".toList,
      wrap32 (number + 1))
  | .FILENAME_LINSHOT_TIMESTAMP =>
    (settings.screenshot_path ++ "/LinShot_".toList ++ timestamp ++ ".png".toList, number)
  | .FILENAME_SCREENSHOT_TIMESTAMP =>
    (settings.screenshot_path ++ "/Screenshot_".toList ++ timestamp ++ ".png".toList, number)

/-- The number a string of decimal digits stands for. -/
def decimal_value (digits : List Char) : Nat :=
  digits.foldl (fun acc c => 10 * acc + (c.toNat - '0'.toNat)) 0

/-- A renderer that gives every combined surface a stride of 12 bytes and, at offset `o`, the
byte `o` modulo 256. -/
def sample_render {α : Type} : List (DrawOp α) → Int × (Int → Nat) :=
  fun _ => (12, fun o => (o % 256).toNat)

/-! ## `screen_capture.c`: the display connection -/

/-- The globals `display` and `root` of `screen_capture.c`, with the display connections of the
process: `connections` lists the connections opened by `XOpenDisplay` and not closed since, and
`opened` counts the calls of `XOpenDisplay` that succeeded, which numbers the connections.
`display` is `none` for `NULL`. -/
structure CaptureState where
  display : Option Nat
  root : Nat
  connections : List Nat
  opened : Nat
deriving DecidableEq, Repr

/-- The state at program start: `display = NULL`, `root = 0`, no connection. -/
def capture_start : CaptureState :=
  { display := none, root := 0, connections := [], opened := 0 }

/-- The function `capture_init`; `xopen` is `none` when `XOpenDisplay` fails and the root window
of the display otherwise. -/
def capture_init (xopen : Option Nat) (st : CaptureState) : Bool × CaptureState :=
  match xopen with
  | none => (false, { st with display := none })
  | some root_window =>
    (true,
      { display := some st.opened
        root := root_window
        connections := st.connections ++ [st.opened]
        opened := st.opened + 1 })

/-- The function `capture_cleanup`: `XCloseDisplay` on the connection in `display`, if any. -/
def capture_cleanup (st : CaptureState) : CaptureState :=
  match st.display with
  | some d => { st with connections := st.connections.erase d, display := none }
  | none => st

/-! ## `main_window.c`: the capture flow -/

/-- What the capture flow meets outside the program: the two `XOpenDisplay` calls, GDK's default
display and primary monitor, the events of the overlay's main loop, and whether
`cairo_surface_write_to_png` succeeds.  The two `capture_screen` calls go through `capture`. -/
structure CaptureFlowEnv where
  overlay_xopen : Option Nat
  gdk_display_ok : Bool
  primary_monitor_ok : Bool
  events : List OverlayEvent
  capture_xopen : Option Nat
  capture : CaptureEnv
  write_to_png_ok : Bool

/-- The function `capture_overlay_init`: `none` where it returns `false`, the overlay before
the main loop where it returns `true`; and the capture state afterwards. -/
def capture_overlay_init (env : CaptureFlowEnv) (st : CaptureState) :
    Option CaptureOverlay × CaptureState :=
  match capture_init env.overlay_xopen st with
  | (false, st) => (none, st)
  | (true, st) =>
    if ¬ env.gdk_display_ok then (none, capture_cleanup st)
    else if ¬ env.primary_monitor_ok then (none, capture_cleanup st)
    else
      match capture_screen env.capture CaptureMode.CAPTURE_FULLSCREEN none with
      | none => (none, capture_cleanup st)
      | some _ => (some capture_overlay_init_state, st)

/-- The return points of `on_capture_button_clicked`. -/
inductive CaptureExit where
  | overlay_init_failed
  | cancelled
  | capture_init_failed
  | capture_failed
  | border_failed
  | save_failed
  | saved
deriving DecidableEq, Repr

/-- The function `on_capture_button_clicked`, as far as the display connection goes: the calls
of `capture_overlay_init`, the main loop, `capture_init`, `capture_screen`, `capture_cleanup`,
`add_border_to_surface` and the PNG write, in the order of the code, with the return point
reached and the capture state at the return.  After the PNG write the handler makes no call that
opens or closes a connection. -/
def on_capture_button_clicked (env : CaptureFlowEnv) (st : CaptureState) :
    CaptureExit × CaptureState :=
  match capture_overlay_init env st with
  | (none, st) => (CaptureExit.overlay_init_failed, st)
  | (some overlay, st) =>
    let overlay := overlay_main overlay env.events
    let area := capture_overlay_get_selection overlay
    if area.width = 0 ∨ area.height = 0 then (CaptureExit.cancelled, st)
    else
      match capture_init env.capture_xopen st with
      | (false, st) => (CaptureExit.capture_init_failed, st)
      | (true, st) =>
        match capture_screen env.capture CaptureMode.CAPTURE_AREA (some area) with
        | none => (CaptureExit.capture_failed, capture_cleanup st)
        | some surface =>
          let st := capture_cleanup st
          match add_border_to_surface (some surface) 3.0 0.0 0.0 0.0 with
          | none => (CaptureExit.border_failed, st)
          | some _ =>
            if ¬ env.write_to_png_ok then (CaptureExit.save_failed, st)
            else (CaptureExit.saved, st)

/-- A capture flow in which every outside call succeeds and the overlay's main loop receives
the given events. -/
def working_flow (events : List OverlayEvent) : CaptureFlowEnv :=
  { overlay_xopen := some 1
    gdk_display_ok := true
    primary_monitor_ok := true
    events := events
    capture_xopen := some 1
    capture := accepting_env
    write_to_png_ok := true }

/-! ## `capture_overlay.c`: the selection rectangle of `on_draw` -/

/-- C's `abs` on an `int`; the result is stored in an `int`. -/
def abs_int (z : Int) : Int :=
  wrap32 |z|

/-- The rectangle `x, y, width, height` that the overlay's `on_draw` computes, clears and frames
while `selecting` is set; `none` when it is not set and no rectangle is painted. -/
def on_draw_selection (overlay : CaptureOverlay) : Option CaptureArea :=
  if overlay.selecting then
    some
      { x := min overlay.start_x (wrap32 (overlay.start_x + overlay.selection.width))
        y := min overlay.start_y (wrap32 (overlay.start_y + overlay.selection.height))
        width := abs_int overlay.selection.width
        height := abs_int overlay.selection.height }
  else none

/-! ## `editor_tools.c`: the ellipse -/

/-- The numbers the `TOOL_ELLIPSE` case of `annotation_draw` computes: the normalised rectangle,
the arguments of `cairo_translate` and the arguments of `cairo_scale`. -/
structure EllipseGeometry where
  x : ℚ
  y : ℚ
  width : ℚ
  height : ℚ
  translate_x : ℚ
  translate_y : ℚ
  scale_x : ℚ
  scale_y : ℚ
deriving DecidableEq, Repr

/-- The computations of the `TOOL_ELLIPSE` case of `annotation_draw` for the bounds of an
annotation. -/
def ellipse_geometry (bounds : PointPair) : EllipseGeometry :=
  let width : ℚ := (abs_int (wrap32 (bounds.x2 - bounds.x1)) : Int)
  let height : ℚ := (abs_int (wrap32 (bounds.y2 - bounds.y1)) : Int)
  let x : ℚ := (min bounds.x1 bounds.x2 : Int)
  let y : ℚ := (min bounds.y1 bounds.y2 : Int)
  { x := x
    y := y
    width := width
    height := height
    translate_x := x + width / 2
    translate_y := y + height / 2
    scale_x := width / 2
    scale_y := height / 2 }

/-! ## `editor_tools.c`: what drawing writes back -/

/-- The annotation as `annotation_draw` leaves it, for a non-null annotation and drawing
context.  Only the `TOOL_TEXT` case writes to the annotation: for a Text annotation that has a text, `bounds.x2` and `bounds.y2` become
`bounds.x1 + text_width` and `bounds.y1 + text_height`, converted to `int`, where `text_width`
and `text_height` are the logical extents that Pango measures for the text, divided by
`PANGO_SCALE`. -/
def annotation_draw_update (a : Annotation) (text_width text_height : ℚ) : Annotation :=
  if a.type = ToolType.TOOL_TEXT then
    match a.text with
    | some _ =>
      { a with
        bounds :=
          { a.bounds with
            x2 := double_to_int ((a.bounds.x1 : ℚ) + text_width)
            y2 := double_to_int ((a.bounds.y1 : ℚ) + text_height) } }
    | none => a
  else a

/-! ## `main_window.c`: the editor's handlers -/

/-- GDK's modifier bit `GDK_CONTROL_MASK`. -/
def GDK_CONTROL_MASK : Nat := 4

/-- Key value `GDK_KEY_z` of `gdk/gdkkeysyms.h`. -/
def GDK_KEY_z : Nat := 0x07a

/-- The position in the list of the annotation that the loop of `find_text_at_coords` returns:
the pointer the function hands back. -/
def find_text_position : List Annotation → ℚ → ℚ → Option Nat
  | [], _, _ => none
  | a :: rest, x, y =>
    if a.type = ToolType.TOOL_TEXT then
      if x ≥ (a.bounds.x1 : ℚ) ∧ x ≤ (a.bounds.x2 : ℚ) ∧
          y ≥ (a.bounds.y1 : ℚ) ∧ y ≤ (a.bounds.y2 : ℚ) then
        some 0
      else (find_text_position rest x y).map (· + 1)
    else (find_text_position rest x y).map (· + 1)

namespace Editor

/-- The handler `on_button_press` of the main window; `x` and `y` are `event->x` and
`event->y`, and `accepted` and `text` are the outcome of the text dialog, should it run. -/
def on_button_press (malloc_ok : Bool) (win_data : MainWindowData) (button : Nat) (x y : ℚ)
    (accepted : Bool) (text : Option (List Char)) : MainWindowData :=
  if button = 1 then
    match find_text_at_coords win_data x y with
    | some text_annotation =>
      { win_data with
        selected_text := find_text_position win_data.annotations x y
        drag_start_x := x - ( text_annotation.bounds.x1 : ℚ)
        drag_start_y := y - ( text_annotation.bounds.y1 : ℚ)
        win := gtk_statusbar_push win_data.win "Text selected - drag to move".toList }
    | none =>
      if win_data.current_tool.type = ToolType.TOOL_TEXT then
        show_text_dialog malloc_ok { win_data with selected_text := none } x y accepted text
      else if win_data.current_tool.type ≠ ToolType.TOOL_NONE then
        { win_data with
          selected_text := none
          drawing := true
          start_point :=
            { x1 := double_to_int x, y1 := double_to_int y
              x2 := double_to_int x, y2 := double_to_int y } }
      else win_data
  else win_data

/-- The handler `on_motion_notify` of the main window. -/
def on_motion_notify (win_data : MainWindowData) (x y : ℚ) : MainWindowData :=
  match win_data.selected_text with
  | some position =>
    match win_data.annotations.get? position with
    | some selected =>
      let new_x := x - win_data.drag_start_x
      let new_y := y - win_data.drag_start_y
      let width : ℚ := (wrap32 (selected.bounds.x2 - selected.bounds.x1) : Int)
      let height : ℚ := (wrap32 (selected.bounds.y2 - selected.bounds.y1) : Int)
      { win_data with
        annotations :=
          win_data.annotations.set position
            { selected with
              bounds :=
                { x1 := double_to_int new_x
                  y1 := double_to_int new_y
                  x2 := double_to_int (new_x + width)
                  y2 := double_to_int (new_y + height) } } }
    | none => win_data
  | none =>
    if win_data.drawing then
      { win_data with
        start_point :=
          { win_data.start_point with x2 := double_to_int x, y2 := double_to_int y } }
    else win_data

/-- The handler `on_button_release` of the main window. -/
def on_button_release (malloc_ok : Bool) (win_data : MainWindowData) (button : Nat) :
    MainWindowData :=
  if button = 1 then
    if win_data.selected_text.isSome then
      { win_data with
        selected_text := none
        win := gtk_statusbar_push win_data.win "Text moved".toList }
    else if win_data.drawing then
      match annotation_create malloc_ok win_data.current_tool.type
          (some win_data.current_tool) with
      | some a =>
        { win_data with
          drawing := false
          annotations := win_data.annotations ++ [{ a with bounds := win_data.start_point }] }
      | none => { win_data with drawing := false }
    else win_data
  else win_data

/-- The handler `on_key_press` of the main window: Ctrl+Z undoes the last annotation. -/
def on_key_press (win_data : MainWindowData) (state keyval : Nat) : MainWindowData :=
  if state &&& GDK_CONTROL_MASK ≠ 0 ∧ keyval = GDK_KEY_z then undo_last_annotation win_data
  else win_data

/-- The flattening block of the main window's `on_draw`: the drawing steps on the new image
surface, none without a current image. -/
def on_draw (malloc_ok : Bool) (win_data : MainWindowData) : List (DrawOp Annotation) :=
  match win_data.current_image with
  | none => []
  | some current_image =>
    let width := current_image.width
    let height := current_image.height
    let drawn : List (DrawOp Annotation) :=
      [DrawOp.image_surface_create width height, DrawOp.paint_surface 0 0]
        ++ win_data.annotations.map DrawOp.annotation_draw
    if win_data.drawing then
      match annotation_create malloc_ok win_data.current_tool.type
          (some win_data.current_tool) with
      | some current =>
        drawn ++ [DrawOp.annotation_draw { current with bounds := win_data.start_point }]
      | none => drawn
    else drawn

end Editor

/-- An editing step: the commit of a shape at the end of a drag with a tool, the commit of a
text, or an undo. -/
inductive EditOp where
  | commit_shape (tool : ToolSettings) (start_point : PointPair)
  | commit_text (tool : ToolSettings) (x y : ℚ) (c : Char) (cs : List Char)
  | undo
deriving DecidableEq, Repr

/-- One editing step on the session: a shape is committed by `on_button_release` at the end of a
drag, where `drawing` is set, no text is selected and `start_point` holds the drag; a text is
committed by the confirmed text dialog; an undo is `undo_last_annotation`. -/
def edit_step (win_data : MainWindowData) : EditOp → MainWindowData
  | .commit_shape tool start_point =>
    Editor.on_button_release true
      { win_data with
        current_tool := tool, drawing := true, selected_text := none
        start_point := start_point } 1
  | .commit_text tool x y c cs =>
    show_text_dialog true { win_data with current_tool := tool } x y true (some (c :: cs))
  | .undo => undo_last_annotation win_data

/-- The annotation an editing step commits, if it commits one. -/
def committed_by : EditOp → Option Annotation
  | .commit_shape tool start_point =>
    some
      { type := tool.type
        settings := tool
        bounds := start_point
        text := none
        path :=
          { points := List.replicate 1000 { x1 := 0, y1 := 0, x2 := 0, y2 := 0 }
            point_count := 0 } }
  | .commit_text tool x y c cs =>
    some
      { type := ToolType.TOOL_TEXT
        settings := tool
        bounds := { x1 := double_to_int x, y1 := double_to_int y, x2 := 0, y2 := 0 }
        text := some (c :: cs)
        path :=
          { points := List.replicate 1000 { x1 := 0, y1 := 0, x2 := 0, y2 := 0 }
            point_count := 0 } }
  | .undo => none

/-! ## `main_window.c`: the settings page -/

/-- GLib's `GINT_TO_POINTER`: the pointer whose integer value is `i`; the null pointer is 0. -/
def GINT_TO_POINTER (i : Int) : Int := i

/-- GLib's `GPOINTER_TO_INT`. -/
def GPOINTER_TO_INT (p : Int) : Int := wrap32 p

/-- The cast of an `int` to `FilenameFormat`; the radio buttons store 0 to 3 only, and a value
outside that range, which has no enumerator, is shown as the last one. -/
def FilenameFormat.of_int : Int → FilenameFormat
  | 0 => .FILENAME_LINSHOT_NUMBER
  | 1 => .FILENAME_SCREENSHOT_NUMBER
  | 2 => .FILENAME_LINSHOT_TIMESTAMP
  | _ => .FILENAME_SCREENSHOT_TIMESTAMP

/-- The integer value of a `FilenameFormat` enumerator. -/
def FilenameFormat.to_int : FilenameFormat → Int
  | .FILENAME_LINSHOT_NUMBER => 0
  | .FILENAME_SCREENSHOT_NUMBER => 1
  | .FILENAME_LINSHOT_TIMESTAMP => 2
  | .FILENAME_SCREENSHOT_TIMESTAMP => 3

/-- The cast of an `int` to `ShortcutKey`; the radio buttons store 0 to 4 only, and a value
outside the enumerators is shown as the last one. -/
def ShortcutKey.of_int : Int → ShortcutKey
  | 0 => .SHORTCUT_NONE
  | 1 => .SHORTCUT_PRINTSCREEN
  | 2 => .SHORTCUT_CTRL_PRINTSCREEN
  | 3 => .SHORTCUT_SHIFT_PRINTSCREEN
  | 4 => .SHORTCUT_CTRL_SHIFT_S
  | _ => .SHORTCUT_CTRL_ALT_S

/-- The integer value of a `ShortcutKey` enumerator. -/
def ShortcutKey.to_int : ShortcutKey → Int
  | .SHORTCUT_NONE => 0
  | .SHORTCUT_PRINTSCREEN => 1
  | .SHORTCUT_CTRL_PRINTSCREEN => 2
  | .SHORTCUT_SHIFT_PRINTSCREEN => 3
  | .SHORTCUT_CTRL_SHIFT_S => 4
  | .SHORTCUT_CTRL_ALT_S => 5

/-- What `on_settings_changed` reads from the widget that emitted the signal: the outcome of
GTK's class tests, the entry text, the toggle state, and the pointers stored under the keys
`"format"` and `"shortcut"` (0 is the null pointer, also returned for a key never set). -/
structure SettingsWidget where
  is_entry : Bool
  is_check_button : Bool
  is_radio_button : Bool
  entry_text : List Char
  active : Bool
  format_data : Int
  shortcut_data : Int
deriving DecidableEq, Repr

/-- The calls `on_settings_changed` makes besides writing the settings. -/
inductive SettingsEffect where
  | reload_history (path : List Char)
  | toggle_autostart (enable : Bool)
  | register_shortcut_key (key : ShortcutKey)
  | save_settings
deriving DecidableEq, Repr

/-- The `i`-th filename-format radio button as `create_settings_page` builds it: only the key
`"format"` is set, to `GINT_TO_POINTER(i)`. -/
def format_radio (is_check_button active : Bool) (i : Int) : SettingsWidget :=
  { is_entry := false
    is_check_button := is_check_button
    is_radio_button := true
    entry_text := []
    active := active
    format_data := GINT_TO_POINTER i
    shortcut_data := 0 }

/-- The `i`-th shortcut radio button as `create_settings_page` builds it: only the key
`"shortcut"` is set, to `GINT_TO_POINTER(i)`. -/
def shortcut_radio (is_check_button active : Bool) (i : Int) : SettingsWidget :=
  { is_entry := false
    is_check_button := is_check_button
    is_radio_button := true
    entry_text := []
    active := active
    format_data := 0
    shortcut_data := GINT_TO_POINTER i }

/-- The handler `on_settings_changed`, for a widget that carries its settings and window. -/
def on_settings_changed (settings : Settings) (widget : SettingsWidget) :
    Settings × List SettingsEffect :=
  if widget.is_entry then
    if settings.screenshot_path ≠ widget.entry_text then
      ({ settings with screenshot_path := g_strdup widget.entry_text },
        [SettingsEffect.reload_history widget.entry_text, SettingsEffect.save_settings])
    else (settings, [SettingsEffect.save_settings])
  else if widget.is_check_button then
    ({ settings with start_with_os := widget.active },
      [SettingsEffect.toggle_autostart widget.active, SettingsEffect.save_settings])
  else if widget.is_radio_button ∧ widget.active then
    let format_data := widget.format_data
    let shortcut_data := widget.shortcut_data
    if format_data ≠ 0 then
      ({ settings with filename_format := FilenameFormat.of_int (GPOINTER_TO_INT format_data) },
        [SettingsEffect.save_settings])
    else if shortcut_data ≠ 0 then
      let new_shortcut := GPOINTER_TO_INT shortcut_data
      if settings.shortcut_key ≠ ShortcutKey.of_int new_shortcut then
        ({ settings with shortcut_key := ShortcutKey.of_int new_shortcut },
          [SettingsEffect.register_shortcut_key (ShortcutKey.of_int new_shortcut),
            SettingsEffect.save_settings])
      else (settings, [SettingsEffect.save_settings])
    else (settings, [SettingsEffect.save_settings])
  else (settings, [SettingsEffect.save_settings])

/-! ## `main_window.c`: the global shortcut filter -/

/-- A drag on the canvas: primary-button press at `(x, y)`, then the pointer moves, then the
release of the button.  No text dialog is confirmed. -/
def Editor.drag (malloc_ok : Bool) (win_data : MainWindowData) (x y : ℚ)
    (moves : List (ℚ × ℚ)) : MainWindowData :=
  Editor.on_button_release malloc_ok
    (moves.foldl (fun w m => Editor.on_motion_notify w m.1 m.2)
      (Editor.on_button_press malloc_ok win_data 1 x y false none)) 1

/-- An image of a 24-bit visual, red in bits 16 to 23, in which every pixel is the word
`0x123456`. -/
def uniform_image : XImage :=
  { red_mask := 0xFF0000
    green_mask := 0xFF00
    blue_mask := 0xFF
    get_pixel := fun _ _ => 0x123456 }

/-- A sequence of editing steps, applied in order. -/
def edit_run (win_data : MainWindowData) (ops : List EditOp) : MainWindowData :=
  ops.foldl edit_step win_data

/-- A file system with readable image files in which `/p/new.png` was modified at second
2147483648 after the epoch and every other file at second 0. -/
def epoch_fs : FileSystem :=
  { access_R_OK := fun _ => true
    stat_mtime := fun path => if path = "/p/new.png".toList then some 2147483648 else some 0
    create_thumbnail := fun _ => true }

end LinShot

/-! # Properties -/

namespace LinShot

/-! ## Machine integers -/

theorem wrap32_isInt32 (z : Int) : isInt32 (wrap32 z) := by
  unfold isInt32 wrap32
  omega

theorem wrap32_of_isInt32 {z : Int} (h : isInt32 z) : wrap32 z = z := by
  unfold isInt32 at h
  unfold wrap32
  omega

/-! ## The selection overlay -/

/-- After the normalisation of `on_button_release` both dimensions are zero or both are at
least 5, whatever the selection was before. -/
theorem normalize_selection_dims (sel : CaptureArea) :
    ((normalize_selection sel).width = 0 ∧ (normalize_selection sel).height = 0) ∨
      (5 ≤ (normalize_selection sel).width ∧ 5 ≤ (normalize_selection sel).height) := by
  unfold normalize_selection
  dsimp only
  split_ifs <;> first | (left; exact ⟨rfl, rfl⟩) | (right; constructor <;> omega)

theorem normalize_selection_nonneg (sel : CaptureArea) :
    0 ≤ (normalize_selection sel).width ∧ 0 ≤ (normalize_selection sel).height := by
  rcases normalize_selection_dims sel with h | h <;> constructor <;> omega

theorem drag_snoc (overlay : CaptureOverlay) (ox oy : Int) (moves : List (Int × Int))
    (m : Int × Int) :
    drag overlay ox oy (moves ++ [m]) = on_motion_notify (drag overlay ox oy moves) m.1 m.2 := by
  simp [drag, List.foldl_append]

/-- During a drag the overlay is selecting and keeps the press point as start and as origin. -/
theorem drag_invariant (overlay : CaptureOverlay) (ox oy : Int) (moves : List (Int × Int)) :
    (drag overlay ox oy moves).selecting = true ∧
      (drag overlay ox oy moves).start_x = ox ∧ (drag overlay ox oy moves).start_y = oy ∧
      (drag overlay ox oy moves).selection.x = ox ∧
      (drag overlay ox oy moves).selection.y = oy := by
  induction moves using List.reverseRecOn with
  | nil => simp [drag, on_button_press]
  | append_singleton ms m ih =>
    rw [drag_snoc]
    obtain ⟨h1, h2, h3, h4, h5⟩ := ih
    simp [on_motion_notify, h1, h2, h3, h4, h5]

/-- C1: for every selection origin and every sequence of pointer moves, the `CaptureArea` left by
`on_button_release` for the primary button has non-negative width and height.  The moves are
arbitrary integers, so every `int` extent is covered, in all four drag directions. -/
theorem on_button_release_drag_nonneg (overlay : CaptureOverlay) (ox oy : Int)
    (moves : List (Int × Int)) :
    0 ≤ (capture_overlay_get_selection (on_button_release (drag overlay ox oy moves) 1)).width ∧
      0 ≤ (capture_overlay_get_selection (on_button_release (drag overlay ox oy moves) 1)).height := by
  simp only [capture_overlay_get_selection, on_button_release, if_true]
  exact normalize_selection_nonneg _

/-- C2: at the event sequence press (100, 100), move to (50, 50), Enter, the main loop has been
quit and the selection the caller retrieves still has the raw extent of the drag, with width
-50 and height -50: `on_key_press` accepts the selection without the normalisation that
`on_button_release` applies. -/
theorem overlay_enter_during_drag_negative :
    (overlay_main capture_overlay_init_state
        [OverlayEvent.button_press 1 100 100, OverlayEvent.motion 50 50,
          OverlayEvent.key_press GDK_KEY_Return]).main_quit = true ∧
      capture_overlay_get_selection
        (overlay_main capture_overlay_init_state
          [OverlayEvent.button_press 1 100 100, OverlayEvent.motion 50 50,
            OverlayEvent.key_press GDK_KEY_Return]) =
        { x := 100, y := 100, width := -50, height := -50 } := by
  decide

/-- One axis of the normalisation, for an origin `o` and a pointer position `c` whose extent
`c - o` is representable: the stored extent, the two values the flip writes, and the values
left without a flip. -/
theorem normalize_axis (o c : Int) (hc : isInt32 c) (h5 : 5 ≤ |c - o|)
    (hr : isInt32 |c - o|) :
    wrap32 (c - o) = c - o ∧
      (if c - o < 0 then wrap32 (o + (c - o)) else o) = min o c ∧
      (if c - o < 0 then wrap32 (-(c - o)) else c - o) = |c - o| := by
  unfold isInt32 at hc hr
  unfold wrap32
  rcases abs_cases (c - o) with ⟨e, s⟩ | ⟨e, s⟩
  · rw [e, if_neg (by omega), if_neg (by omega), min_def, if_pos (by omega)]
    refine ⟨by omega, rfl, rfl⟩
  · rw [e] at hr h5
    rw [e, if_pos s, if_pos s, min_def, if_neg (by omega)]
    refine ⟨by omega, by omega, by omega⟩

/-- C3: a drag from origin `(ox, oy)` whose last pointer position is `(cx, cy)`, at least 5 away
on both axes, is finalised by the primary-button release as the rectangle with corner
`(min ox cx, min oy cy)`, width `|cx - ox|` and height `|cy - oy|`.  The pointer position and
the two extents are `int` values. -/
theorem on_button_release_drag_area (overlay : CaptureOverlay) (ox oy cx cy : Int)
    (moves : List (Int × Int))
    (hcx : isInt32 cx) (hcy : isInt32 cy)
    (hw : 5 ≤ |cx - ox|) (hh : 5 ≤ |cy - oy|)
    (hwr : isInt32 |cx - ox|) (hhr : isInt32 |cy - oy|) :
    capture_overlay_get_selection
        (on_button_release (drag overlay ox oy (moves ++ [(cx, cy)])) 1) =
      { x := min ox cx, y := min oy cy, width := |cx - ox|, height := |cy - oy| } := by
  obtain ⟨h1, h2, h3, h4, h5⟩ := drag_invariant overlay ox oy moves
  obtain ⟨xw, xx, xn⟩ := normalize_axis ox cx hcx hw hwr
  obtain ⟨yw, yx, yn⟩ := normalize_axis oy cy hcy hh hhr
  simp only [capture_overlay_get_selection, on_button_release, if_true, drag_snoc,
    on_motion_notify, h1, h2, h3, h4, h5, xw, yw, normalize_selection]
  by_cases hx : cx - ox < 0 <;> by_cases hy : cy - oy < 0 <;>
    simp only [hx, hy, if_true, if_false] at xx xn yx yn ⊢ <;>
    rw [if_neg (by omega)] <;>
    simp only [CaptureArea.mk.injEq] <;>
    exact ⟨xx, yx, xn, yn⟩

theorem on_button_release_drag_area_witness :
    capture_overlay_get_selection
        (on_button_release (drag capture_overlay_init_state 300 200 ([(250, 220)] ++ [(120, 40)])) 1) =
      { x := min 300 120, y := min 200 40, width := |120 - 300|, height := |40 - 200| } :=
  on_button_release_drag_area capture_overlay_init_state 300 200 120 40 [(250, 220)]
    (by decide) (by decide) (by decide) (by decide) (by decide) (by decide)

theorem normalize_selection_small (sel : CaptureArea)
    (h : |sel.width| < 5 ∨ |sel.height| < 5) :
    (normalize_selection sel).width = 0 ∧ (normalize_selection sel).height = 0 := by
  obtain ⟨x, y, w, t⟩ := sel
  dsimp only at h
  rcases normalize_selection_dims ⟨x, y, w, t⟩ with h0 | h5
  · exact h0
  · exfalso
    revert h5
    unfold normalize_selection wrap32
    dsimp only
    rcases abs_cases w with ⟨e1, s1⟩ | ⟨e1, s1⟩ <;>
      rcases abs_cases t with ⟨e2, s2⟩ | ⟨e2, s2⟩ <;>
      rw [e1, e2] at h <;> split_ifs <;> dsimp only <;> omega

/-- C4: a drag whose final extent is below 5 in absolute value on either axis, in any direction,
leaves width 0 and height 0 after the primary-button release. -/
theorem on_button_release_small_drag (overlay : CaptureOverlay) (ox oy : Int)
    (moves : List (Int × Int))
    (h : |(drag overlay ox oy moves).selection.width| < 5 ∨
      |(drag overlay ox oy moves).selection.height| < 5) :
    (capture_overlay_get_selection (on_button_release (drag overlay ox oy moves) 1)).width = 0 ∧
      (capture_overlay_get_selection (on_button_release (drag overlay ox oy moves) 1)).height = 0 := by
  simp only [capture_overlay_get_selection, on_button_release, if_true]
  exact normalize_selection_small _ h

theorem on_button_release_small_drag_witness :
    (capture_overlay_get_selection
        (on_button_release (drag capture_overlay_init_state 300 200 [(297, 90)]) 1)).width = 0 ∧
      (capture_overlay_get_selection
        (on_button_release (drag capture_overlay_init_state 300 200 [(297, 90)]) 1)).height = 0 :=
  on_button_release_small_drag capture_overlay_init_state 300 200 [(297, 90)] (by decide)

/-- C5: in every overlay state, handling an Escape key press leaves the selection with width 0
and height 0 and quits the main loop: no later event is handled. -/
theorem on_key_press_escape (overlay : CaptureOverlay) :
    (capture_overlay_get_selection (on_key_press overlay GDK_KEY_Escape)).width = 0 ∧
      (capture_overlay_get_selection (on_key_press overlay GDK_KEY_Escape)).height = 0 ∧
      (on_key_press overlay GDK_KEY_Escape).main_quit = true ∧
      ∀ events : List OverlayEvent,
        overlay_main (on_key_press overlay GDK_KEY_Escape) events =
          on_key_press overlay GDK_KEY_Escape := by
  refine ⟨by simp [capture_overlay_get_selection, on_key_press],
    by simp [capture_overlay_get_selection, on_key_press], by simp [on_key_press], ?_⟩
  intro events
  cases events with
  | nil => rfl
  | cons e es => simp [overlay_main, on_key_press]

/-! ## Screen capture -/

theorem store_pixel_apply (img : XImage) (rs gs bs : Nat) (data : Int → Nat) (p : Int)
    (pixel : Nat) (q : Int) :
    store_pixel img rs gs bs data p pixel q =
      if q = p + 3 then 0xFF
      else if q = p + 2 then ((pixel &&& img.red_mask) >>> rs) % 256
      else if q = p + 1 then ((pixel &&& img.green_mask) >>> gs) % 256
      else if q = p + 0 then ((pixel &&& img.blue_mask) >>> bs) % 256
      else data q := by
  simp only [store_pixel, Function.update_apply]

/-- The four bytes `store_pixel` writes for a pixel word, in memory order. -/
theorem store_pixel_bytes (img : XImage) (rs gs bs : Nat) (data : Int → Nat) (p : Int)
    (pixel : Nat) :
    (store_pixel img rs gs bs data p pixel (p + 0) = ((pixel &&& img.blue_mask) >>> bs) % 256 ∧
      store_pixel img rs gs bs data p pixel (p + 1) = ((pixel &&& img.green_mask) >>> gs) % 256) ∧
      store_pixel img rs gs bs data p pixel (p + 2) = ((pixel &&& img.red_mask) >>> rs) % 256 ∧
      store_pixel img rs gs bs data p pixel (p + 3) = 0xFF := by
  refine ⟨⟨?_, ?_⟩, ?_, ?_⟩ <;> rw [store_pixel_apply] <;> simp

theorem store_pixel_outside (img : XImage) (rs gs bs : Nat) (data : Int → Nat) (p : Int)
    (pixel : Nat) (q : Int) (h : q < p ∨ p + 4 ≤ q) :
    store_pixel img rs gs bs data p pixel q = data q := by
  rw [store_pixel_apply, if_neg (by omega), if_neg (by omega), if_neg (by omega),
    if_neg (by omega)]

/-- The inner loop, unfolded one iteration at the end. -/
theorem copy_row_succ (img : XImage) (rs gs bs : Nat) (stride : Int) (data : Int → Nat)
    (j : Int) (n : Nat) :
    copy_row img rs gs bs stride ((n + 1 : Nat) : Int) data j =
      store_pixel img rs gs bs (copy_row img rs gs bs stride (n : Int) data j)
        (wrap32 (j * stride) + wrap32 ((n : Int) * 4)) (img.get_pixel (n : Int) j) := by
  simp only [copy_row, Int.toNat_ofNat, List.range_succ, List.foldl_append, List.foldl_cons,
    List.foldl_nil]

/-- The pixel pointer of the copy loop is the offset `j * stride + i * 4` when the row offset
and the pixel offset are `int` values. -/
theorem pixel_offset_of_isInt32 (stride j : Int) (i n : Nat) (hj : isInt32 (j * stride))
    (hn : 4 * (n : Int) ≤ 2147483647) (hi : i < n) :
    wrap32 (j * stride) + wrap32 ((i : Int) * 4) = j * stride + (i : Int) * 4 := by
  rw [wrap32_of_isInt32 hj, wrap32_of_isInt32 (show isInt32 ((i : Int) * 4) from by
    unfold isInt32; omega)]

/-- The inner loop leaves every byte outside the row's `4 * width` pixel bytes as it was. -/
theorem copy_row_outside (img : XImage) (rs gs bs : Nat) (stride : Int) (data : Int → Nat)
    (j : Int) (n : Nat) (q : Int) (hj : isInt32 (j * stride)) (hn : 4 * (n : Int) ≤ 2147483647)
    (h : q < j * stride ∨ j * stride + 4 * (n : Int) ≤ q) :
    copy_row img rs gs bs stride (n : Int) data j q = data q := by
  induction n with
  | zero => simp [copy_row]
  | succ n ih =>
    rw [copy_row_succ, pixel_offset_of_isInt32 stride j n (n + 1) hj hn (by omega),
      store_pixel_outside _ _ _ _ _ _ _ _ (by push_cast at h; omega)]
    exact ih (by push_cast at hn; omega) (by push_cast at h; omega)

/-- After the inner loop the bytes of pixel `i` of the row are the ones `store_pixel` writes for
the source pixel `(i, j)`. -/
theorem copy_row_inside (img : XImage) (rs gs bs : Nat) (stride : Int) (data : Int → Nat)
    (j : Int) (n i : Nat) (hj : isInt32 (j * stride)) (hn : 4 * (n : Int) ≤ 2147483647)
    (hi : i < n) (k : Int) (hk : 0 ≤ k ∧ k < 4) :
    copy_row img rs gs bs stride (n : Int) data j (j * stride + (i : Int) * 4 + k) =
      store_pixel img rs gs bs (fun _ => 0) (j * stride + (i : Int) * 4)
        (img.get_pixel (i : Int) j) (j * stride + (i : Int) * 4 + k) := by
  induction n with
  | zero => omega
  | succ n ih =>
    rw [copy_row_succ, pixel_offset_of_isInt32 stride j n (n + 1) hj hn (by omega)]
    by_cases e : i = n
    · subst e
      simp only [store_pixel_apply]
      split_ifs <;> first | rfl | omega
    · rw [store_pixel_outside _ _ _ _ _ _ _ _ (by omega)]
      exact ih (by push_cast at hn; omega) (by omega)

/-- The outer loop, unfolded one row at the end. -/
theorem copy_rows_succ (img : XImage) (rs gs bs : Nat) (stride width : Int)
    (data : Int → Nat) (m : Nat) :
    copy_rows img rs gs bs stride width ((m + 1 : Nat) : Int) data =
      copy_row img rs gs bs stride width
        (copy_rows img rs gs bs stride width (m : Int) data) (m : Int) := by
  simp only [copy_rows, Int.toNat_ofNat, List.range_succ, List.foldl_append, List.foldl_cons,
    List.foldl_nil]

/-- With a row stride of at least `4 * width` bytes and a buffer of `height * stride` bytes that
an `int` can count, every row offset and every pixel offset of the loops is an `int` value. -/
theorem rows_in_range (stride : Int) (n m : Nat) (hstride : 4 * (n : Int) ≤ stride)
    (hsize : (m : Int) * stride ≤ 2147483647) (hm : 0 < m) :
    4 * (n : Int) ≤ 2147483647 ∧ ∀ j : Nat, j < m → isInt32 ((j : Int) * stride) := by
  have hs : 0 ≤ stride := by omega
  have h1 : 1 * stride ≤ (m : Int) * stride := Int.mul_le_mul_of_nonneg_right (by omega) hs
  refine ⟨by linarith, fun j hj => ?_⟩
  have h2 : (j : Int) * stride ≤ (m : Int) * stride :=
    Int.mul_le_mul_of_nonneg_right (by omega) hs
  have h3 : 0 ≤ (j : Int) * stride := mul_nonneg (by omega) hs
  unfold isInt32
  constructor <;> linarith

/-- After both loops, with a row stride of at least `4 * width` bytes, the bytes of pixel
`(i, j)` are the ones `store_pixel` writes for the source pixel `(i, j)`. -/
theorem copy_rows_inside (img : XImage) (rs gs bs : Nat) (stride : Int) (data : Int → Nat)
    (n m i j : Nat) (hstride : 4 * (n : Int) ≤ stride) (hn : 4 * (n : Int) ≤ 2147483647)
    (hrows : ∀ j : Nat, j < m → isInt32 ((j : Int) * stride)) (hi : i < n) (hj : j < m)
    (k : Int) (hk : 0 ≤ k ∧ k < 4) :
    copy_rows img rs gs bs stride (n : Int) (m : Int) data
        ((j : Int) * stride + (i : Int) * 4 + k) =
      store_pixel img rs gs bs (fun _ => 0) ((j : Int) * stride + (i : Int) * 4)
        (img.get_pixel (i : Int) (j : Int)) ((j : Int) * stride + (i : Int) * 4 + k) := by
  induction m with
  | zero => omega
  | succ m ih =>
    rw [copy_rows_succ]
    by_cases e : j = m
    · subst e
      exact copy_row_inside img rs gs bs stride _ (j : Int) n i (hrows j (by omega)) hn hi k hk
    · have hjm : (j : Int) + 1 ≤ (m : Int) := by omega
      have hs : 0 ≤ stride := by omega
      have hmul : ((j : Int) + 1) * stride ≤ (m : Int) * stride :=
        Int.mul_le_mul_of_nonneg_right hjm hs
      rw [copy_row_outside _ _ _ _ _ _ _ _ _ (hrows m (by omega)) hn (by left; linarith)]
      exact ih (fun j hj => hrows j (by omega)) (by omega)

/-- The loop `shift_loop` with enough fuel stops because the mask has become 0 or odd; the bits
it shifted out were all 0. -/
theorem shift_loop_exit (fuel : Nat) :
    ∀ mask shift : Nat, mask < 2 ^ fuel →
      shift ≤ shift_loop fuel mask shift ∧
        (mask ≠ 0 → (mask >>> (shift_loop fuel mask shift - shift)) % 2 = 1) ∧
        mask % 2 ^ (shift_loop fuel mask shift - shift) = 0 := by
  induction fuel with
  | zero =>
    intro mask shift h
    have h0 : mask = 0 := by simpa using h
    subst h0
    simp [shift_loop]
  | succ fuel ih =>
    intro mask shift h
    unfold shift_loop
    by_cases hc : mask ≠ 0 ∧ mask &&& 1 = 0
    · rw [if_pos hc]
      obtain ⟨hne, hev⟩ := hc
      rw [Nat.and_one_is_mod] at hev
      have hhalf : mask >>> 1 = mask / 2 := by
        rw [Nat.shiftRight_eq_div_pow, pow_one]
      rw [hhalf]
      have hlt : mask / 2 < 2 ^ fuel := by
        rw [pow_succ] at h
        omega
      obtain ⟨h1, h2, h3⟩ := ih (mask / 2) (shift + 1) hlt
      have hk : shift_loop fuel (mask / 2) (shift + 1) - shift =
          (shift_loop fuel (mask / 2) (shift + 1) - (shift + 1)) + 1 := by omega
      refine ⟨by omega, fun _ => ?_, ?_⟩
      · rw [hk, Nat.shiftRight_eq_div_pow, pow_succ, Nat.mul_comm, ← Nat.div_div_eq_div_mul,
          ← Nat.shiftRight_eq_div_pow]
        exact h2 (by omega)
      · rw [hk, pow_succ, Nat.mul_comm, Nat.mod_mul, h3, hev]
    · rw [if_neg hc]
      have hodd : mask ≠ 0 → mask % 2 = 1 := by
        intro hne
        rw [Nat.and_one_is_mod] at hc
        have := Nat.mod_two_eq_zero_or_one mask
        tauto
      exact ⟨le_refl _, by simpa using hodd, by simp [Nat.mod_one]⟩

/-- For a 64-bit mask `mask_shift` is the number of trailing zero bits: the bit of the mask at
that position is set (for a non-zero mask) and all lower bits are clear. -/
theorem mask_shift_exit (mask : Nat) (h : mask < 2 ^ 64) :
    (mask ≠ 0 → (mask >>> mask_shift mask) % 2 = 1) ∧ mask % 2 ^ mask_shift mask = 0 := by
  obtain ⟨_, h2, h3⟩ := shift_loop_exit 64 mask 0 h
  exact ⟨h2, h3⟩

/-- A value that lies under one mask has no bit under a mask disjoint from it. -/
theorem and_eq_zero_of_fits {a m n : Nat} (h : a &&& m = a) (d : m &&& n = 0) : a &&& n = 0 := by
  rw [← h, Nat.and_assoc, d, Nat.and_zero]

/-- Masking a word combined from three values under pairwise disjoint masks gives back the
value under the mask. -/
theorem and_of_combined {x y z mx my mz : Nat} (hx : x &&& mx = x) (hy : y &&& my = y)
    (hz : z &&& mz = z) (dxy : mx &&& my = 0) (dxz : mx &&& mz = 0) (dyz : my &&& mz = 0) :
    (x ||| y ||| z) &&& mx = x ∧ (x ||| y ||| z) &&& my = y ∧ (x ||| y ||| z) &&& mz = z := by
  have dyx : my &&& mx = 0 := by rw [Nat.and_comm]; exact dxy
  have dzx : mz &&& mx = 0 := by rw [Nat.and_comm]; exact dxz
  have dzy : mz &&& my = 0 := by rw [Nat.and_comm]; exact dyz
  have split : ∀ m : Nat, (x ||| y ||| z) &&& m = (x &&& m) ||| (y &&& m) ||| (z &&& m) := by
    intro m
    rw [Nat.and_comm, Nat.and_or_distrib_left, Nat.and_or_distrib_left, Nat.and_comm m x,
      Nat.and_comm m y, Nat.and_comm m z]
  refine ⟨?_, ?_, ?_⟩
  · rw [split, hx, and_eq_zero_of_fits hy dyx, and_eq_zero_of_fits hz dzx, Nat.or_zero,
      Nat.or_zero]
  · rw [split, hy, and_eq_zero_of_fits hx dxy, and_eq_zero_of_fits hz dzy, Nat.zero_or,
      Nat.or_zero]
  · rw [split, hz, and_eq_zero_of_fits hx dxz, and_eq_zero_of_fits hy dyz, Nat.zero_or,
      Nat.zero_or]

/-- The three channel extractions of the copy loop give back the channel values of a synthetic
pixel, when the masks are disjoint and each value lies under its mask and in a byte. -/
theorem extract_synthetic_pixel (red_mask green_mask blue_mask r g b : Nat)
    (hdisj : disjoint_masks red_mask green_mask blue_mask)
    (hr : fits_mask red_mask r) (hg : fits_mask green_mask g) (hb : fits_mask blue_mask b)
    (hr8 : r ≤ 255) (hg8 : g ≤ 255) (hb8 : b ≤ 255) :
    ((synthetic_pixel red_mask green_mask blue_mask r g b &&& blue_mask) >>>
          mask_shift blue_mask) % 256 = b ∧
      ((synthetic_pixel red_mask green_mask blue_mask r g b &&& green_mask) >>>
          mask_shift green_mask) % 256 = g ∧
      ((synthetic_pixel red_mask green_mask blue_mask r g b &&& red_mask) >>>
          mask_shift red_mask) % 256 = r := by
  obtain ⟨drg, drb, dgb⟩ := hdisj
  obtain ⟨er, eg, eb⟩ := and_of_combined hr hg hb drg drb dgb
  unfold synthetic_pixel
  rw [er, eg, eb, Nat.shiftLeft_shiftRight, Nat.shiftLeft_shiftRight, Nat.shiftLeft_shiftRight]
  exact ⟨Nat.mod_eq_of_lt (by omega), Nat.mod_eq_of_lt (by omega), Nat.mod_eq_of_lt (by omega)⟩

/-- The bytes `capture_screen` leaves at pixel `(i, j)` of the surface it returns, when the image
request and the surface creation succeed, the stride is at least `4 * width` and an `int` can
count the `height * stride` bytes of the buffer. -/
theorem capture_screen_pixel_bytes (env : CaptureEnv) (mode : CaptureMode)
    (area : Option CaptureArea) (x y width height stride i j : Int) (img : XImage)
    (hreq : capture_request env mode area = some (x, y, width, height))
    (himg : env.XGetImage x y width height = some img)
    (hsurf : cairo_image_surface_create env width height = some stride)
    (hstride : 4 * width ≤ stride) (hsize : height * stride ≤ 2147483647)
    (hi : 0 ≤ i ∧ i < width) (hj : 0 ≤ j ∧ j < height) :
    (capture_screen env mode area).map (fun s => s.pixel_bytes i j) =
      some
        [((img.get_pixel i j &&& img.blue_mask) >>> mask_shift img.blue_mask) % 256,
          ((img.get_pixel i j &&& img.green_mask) >>> mask_shift img.green_mask) % 256,
          ((img.get_pixel i j &&& img.red_mask) >>> mask_shift img.red_mask) % 256, 0xFF] := by
  obtain ⟨n, rfl⟩ := Int.eq_ofNat_of_zero_le (show 0 ≤ width by omega)
  obtain ⟨m, rfl⟩ := Int.eq_ofNat_of_zero_le (show 0 ≤ height by omega)
  obtain ⟨a, rfl⟩ := Int.eq_ofNat_of_zero_le hi.1
  obtain ⟨c, rfl⟩ := Int.eq_ofNat_of_zero_le hj.1
  have ha : a < n := by omega
  have hc : c < m := by omega
  obtain ⟨hn, hrows⟩ := rows_in_range stride n m hstride hsize (by omega)
  obtain ⟨⟨b0, b1⟩, b2, b3⟩ :=
    store_pixel_bytes img (mask_shift img.red_mask) (mask_shift img.green_mask)
      (mask_shift img.blue_mask) (fun _ => 0) ((c : Int) * stride + (a : Int) * 4)
      (img.get_pixel (a : Int) (c : Int))
  simp only [capture_screen, hreq, himg, hsurf, Option.map_some', Surface.pixel_bytes]
  rw [copy_rows_inside img _ _ _ stride _ n m a c hstride hn hrows ha hc 0 (by omega),
    copy_rows_inside img _ _ _ stride _ n m a c hstride hn hrows ha hc 1 (by omega),
    copy_rows_inside img _ _ _ stride _ n m a c hstride hn hrows ha hc 2 (by omega),
    copy_rows_inside img _ _ _ stride _ n m a c hstride hn hrows ha hc 3 (by omega),
    b0, b1, b2, b3]

/-- C6 fails in the code on a 30-bit visual: the red value 768 lies under the ten-bit red mask,
the masks are disjoint, and the destination pixel `capture_screen` writes for the source pixel
built from the values 768, 0, 0 has the red byte 0, the low eight bits of 768, so a bright red
comes out black (the alpha byte is 0xFF). -/
theorem capture_screen_deep_color_truncates :
    disjoint_masks 0x3FF00000 0xFFC00 0x3FF ∧
      fits_mask 0x3FF00000 768 ∧ fits_mask 0xFFC00 0 ∧ fits_mask 0x3FF 0 ∧
      (capture_screen (deep_color_env 768 0 0) CaptureMode.CAPTURE_AREA
          (some { x := 0, y := 0, width := 1, height := 1 })).map
        (fun s => s.pixel_bytes 0 0) = some [0, 0, 0, 0xFF] ∧
      (capture_screen (deep_color_env 768 0 0) CaptureMode.CAPTURE_AREA
          (some { x := 0, y := 0, width := 1, height := 1 })).map
        (fun s => s.pixel_bytes 0 0) ≠ some [0, 0, 768, 0xFF] := by
  decide

/-- For pairwise disjoint red, green and blue masks and channel values of at most 255 that lie
under their masks, the destination pixel `capture_screen` writes for a source pixel built from
those values holds the same blue, green and red values in bytes 0, 1 and 2, and 0xFF in the
alpha byte 3. -/
theorem capture_screen_channel_roundtrip (env : CaptureEnv) (mode : CaptureMode)
    (area : Option CaptureArea) (x y width height stride i j : Int) (img : XImage)
    (r g b : Nat)
    (hreq : capture_request env mode area = some (x, y, width, height))
    (himg : env.XGetImage x y width height = some img)
    (hsurf : cairo_image_surface_create env width height = some stride)
    (hstride : 4 * width ≤ stride) (hsize : height * stride ≤ 2147483647)
    (hi : 0 ≤ i ∧ i < width) (hj : 0 ≤ j ∧ j < height)
    (hdisj : disjoint_masks img.red_mask img.green_mask img.blue_mask)
    (hr : fits_mask img.red_mask r) (hg : fits_mask img.green_mask g)
    (hb : fits_mask img.blue_mask b) (hr8 : r ≤ 255) (hg8 : g ≤ 255) (hb8 : b ≤ 255)
    (hpix : img.get_pixel i j =
      synthetic_pixel img.red_mask img.green_mask img.blue_mask r g b) :
    (capture_screen env mode area).map (fun s => s.pixel_bytes i j) = some [b, g, r, 0xFF] := by
  obtain ⟨eb, eg, er⟩ :=
    extract_synthetic_pixel img.red_mask img.green_mask img.blue_mask r g b hdisj hr hg hb
      hr8 hg8 hb8
  rw [capture_screen_pixel_bytes env mode area x y width height stride i j img hreq himg hsurf
    hstride hsize hi hj, hpix, eb, eg, er]

/-- The round trip on a visual with red in the low byte: pixel (2, 1) of a 3 by 2 capture. -/
theorem capture_screen_channel_roundtrip_example :
    (capture_screen (bgr_env 18 52 86) CaptureMode.CAPTURE_AREA
        (some { x := 10, y := 20, width := 3, height := 2 })).map
      (fun s => s.pixel_bytes 2 1) = some [86, 53, 20, 0xFF] := by
  decide

/-- C7: `capture_screen` in Area mode returns no result whenever the area is null or has a
negative width or a negative height, whatever the display answers: Cairo creates no surface of a
negative size and `capture_screen` returns `NULL` on the error surface.  It returns no result
either for any mode other than FullScreen and Area. -/
theorem capture_screen_none_cases (env : CaptureEnv) :
    capture_screen env CaptureMode.CAPTURE_AREA none = none ∧
      (∀ area : CaptureArea, area.width < 0 ∨ area.height < 0 →
        capture_screen env CaptureMode.CAPTURE_AREA (some area) = none) ∧
      (∀ (mode : CaptureMode) (area : Option CaptureArea),
        mode ≠ CaptureMode.CAPTURE_FULLSCREEN → mode ≠ CaptureMode.CAPTURE_AREA →
          capture_screen env mode area = none) ∧
      ∀ area : CaptureArea,
        capture_screen env CaptureMode.CAPTURE_AREA (some area) = none ↔
          (env.XGetImage area.x area.y area.width area.height = none ∨
            cairo_image_surface_create env area.width area.height = none) := by
  have hiff : ∀ area : CaptureArea,
      capture_screen env CaptureMode.CAPTURE_AREA (some area) = none ↔
        (env.XGetImage area.x area.y area.width area.height = none ∨
          cairo_image_surface_create env area.width area.height = none) := by
    intro area
    simp only [capture_screen, capture_request]
    cases h1 : env.XGetImage area.x area.y area.width area.height with
    | none => simp
    | some img =>
      cases h2 : cairo_image_surface_create env area.width area.height with
      | none => simp
      | some stride => simp
  refine ⟨rfl, fun area hneg => ?_, fun mode area h1 h2 => ?_, hiff⟩
  · refine (hiff area).mpr (Or.inr ?_)
    simp only [cairo_image_surface_create, hneg, if_true]
  · cases mode with
    | CAPTURE_FULLSCREEN => exact absurd rfl h1
    | CAPTURE_AREA => exact absurd rfl h2
    | CAPTURE_WINDOW => cases area <;> rfl

/-! ## Export -/

theorem strrchr_of_not_mem (s : List Char) (c : Char) (h : c ∉ s) : strrchr s c = none := by
  induction s with
  | nil => rfl
  | cons a s ih =>
    rw [List.mem_cons, not_or] at h
    simp only [strrchr, ih h.2]
    rw [if_neg (fun e => h.1 e.symm)]

/-- With no further `c` in `ext`, `strrchr` finds the `c` in front of `ext`. -/
theorem strrchr_append (base ext : List Char) (c : Char) (h : c ∉ ext) :
    strrchr (base ++ c :: ext) c = some (c :: ext) := by
  induction base with
  | nil => simp [strrchr, strrchr_of_not_mem ext c h]
  | cons a base ih => simp [strrchr, ih]

theorem char_eq_of_toNat_eq {a b : Char} (h : a.toNat = b.toNat) : a = b := by
  rw [← Char.ofNat_toNat a, ← Char.ofNat_toNat b, h]

theorem g_ascii_tolower_nul : g_ascii_tolower (Char.ofNat 0) = Char.ofNat 0 := by
  decide

/-- On strings without a NUL character `g_ascii_strcasecmp` returns 0 exactly when the two
strings agree after ASCII lower-casing. -/
theorem g_ascii_strcasecmp_eq_zero_iff :
    ∀ a b : List Char, Char.ofNat 0 ∉ a → Char.ofNat 0 ∉ b →
      (g_ascii_strcasecmp a b = 0 ↔ a.map g_ascii_tolower = b.map g_ascii_tolower)
  | [], [], _, _ => by simp [g_ascii_strcasecmp]
  | [], c :: _, _, hb => by
    have hc : c.toNat ≠ 0 := by
      intro e
      apply hb
      rw [show c = Char.ofNat 0 from char_eq_of_toNat_eq e]
      exact List.mem_cons_self _ _
    simp only [g_ascii_strcasecmp, List.map_nil, List.map_cons]
    constructor
    · intro e; omega
    · intro e; cases e
  | c :: _, [], ha, _ => by
    have hc : c.toNat ≠ 0 := by
      intro e
      apply ha
      rw [show c = Char.ofNat 0 from char_eq_of_toNat_eq e]
      exact List.mem_cons_self _ _
    simp only [g_ascii_strcasecmp, List.map_nil, List.map_cons]
    constructor
    · intro e; omega
    · intro e; cases e
  | c1 :: s1, c2 :: s2, ha, hb => by
    have ha2 : Char.ofNat 0 ∉ s1 := fun h => ha (List.mem_cons_of_mem _ h)
    have hb2 : Char.ofNat 0 ∉ s2 := fun h => hb (List.mem_cons_of_mem _ h)
    have ih := g_ascii_strcasecmp_eq_zero_iff s1 s2 ha2 hb2
    simp only [g_ascii_strcasecmp, List.map_cons, List.cons.injEq]
    by_cases e : g_ascii_tolower c1 = g_ascii_tolower c2
    · rw [if_neg (not_not.mpr e), ih]
      exact ⟨fun h => ⟨e, h⟩, fun h => h.2⟩
    · rw [if_pos e]
      constructor
      · intro h
        exfalso
        exact e (char_eq_of_toNat_eq (by omega))
      · intro h
        exact absurd h.1 e

/-- A string whose lower-casing has no NUL character has none itself. -/
theorem nul_not_mem_of_map_tolower (ext l : List Char) (h : ext.map g_ascii_tolower = l)
    (hl : Char.ofNat 0 ∉ l) : Char.ofNat 0 ∉ ext := by
  intro hmem
  apply hl
  rw [← h, ← g_ascii_tolower_nul]
  exact List.mem_map_of_mem _ hmem

/-- The extension dispatch depends on the extension only through its lower-casing. -/
theorem save_dispatch_congr (env : SaveEnv) (win : MainWindow) (filename ext l : List Char)
    (h : ext.map g_ascii_tolower = l.map g_ascii_tolower) (he : Char.ofNat 0 ∉ ext)
    (hl : Char.ofNat 0 ∉ l) :
    save_dispatch env win filename ext = save_dispatch env win filename l := by
  have key : ∀ t : List Char, Char.ofNat 0 ∉ t →
      ((g_ascii_strcasecmp ext t = 0) = (g_ascii_strcasecmp l t = 0)) := by
    intro t ht
    rw [g_ascii_strcasecmp_eq_zero_iff ext t he ht, g_ascii_strcasecmp_eq_zero_iff l t hl ht, h]
  unfold save_dispatch
  simp only [key "jpg".toList (by decide), key "jpeg".toList (by decide),
    key "png".toList (by decide), key "gif".toList (by decide), key "svg".toList (by decide),
    key "tiff".toList (by decide), key "tif".toList (by decide), key "webp".toList (by decide),
    key "bmp".toList (by decide), key "heic".toList (by decide), key "heif".toList (by decide),
    key "raw".toList (by decide), key "ico".toList (by decide), key "psd".toList (by decide),
    key "eps".toList (by decide), key "ai".toList (by decide), key "avif".toList (by decide),
    key "cr2".toList (by decide), key "cr3".toList (by decide)]

/-- The dispatch for an extension whose lower-casing is the lower-case literal `l`. -/
theorem save_dispatch_of_lower (env : SaveEnv) (win : MainWindow) (filename ext l : List Char)
    (h : ext.map g_ascii_tolower = l) (hl : Char.ofNat 0 ∉ l)
    (hlow : l.map g_ascii_tolower = l) :
    save_dispatch env win filename ext = save_dispatch env win filename l :=
  save_dispatch_congr env win filename ext l (by rw [h, hlow])
    (nul_not_mem_of_map_tolower ext l h hl) hl

/-- The export of a path `base.ext` once the pixbuf has been created. -/
theorem save_image_with_annotations_ext {α : Type} (env : SaveEnv) (win : MainWindow)
    (surface : Surface) (annotations : List α) (base ext : List Char) (hdot : '.' ∉ ext)
    (hpix : env.pixbuf_get_from_surface = true) :
    save_image_with_annotations env win (some surface) annotations (some (base ++ '.' :: ext)) =
      { win :=
          save_report env (save_dispatch env win (base ++ '.' :: ext) ext).1
            (base ++ '.' :: ext) (save_dispatch env win (base ++ '.' :: ext) ext).2.2
        drawn :=
          [DrawOp.image_surface_create surface.width surface.height, DrawOp.paint_surface 0 0]
            ++ annotations.map DrawOp.annotation_draw
        encoder_calls := (save_dispatch env win (base ++ '.' :: ext) ext).2.1 } := by
  simp only [save_image_with_annotations, strrchr_append base ext '.' hdot, hpix, List.tail_cons]
  simp

/-- Upper-casing does not see a previous lower-casing. -/
theorem g_ascii_toupper_tolower (c : Char) :
    g_ascii_toupper (g_ascii_tolower c) = g_ascii_toupper c := by
  by_cases h : 'A' ≤ c ∧ c ≤ 'Z'
  · have h1 : 65 ≤ c.toNat := h.1
    have h2 : c.toNat ≤ 90 := h.2
    rw [← Char.ofNat_toNat c]
    generalize c.toNat = n at h1 h2
    interval_cases n <;> decide
  · unfold g_ascii_tolower
    rw [if_neg h]

theorem map_toupper_of_map_tolower (ext l : List Char) (h : ext.map g_ascii_tolower = l) :
    ext.map g_ascii_toupper = l.map g_ascii_toupper := by
  rw [← h, List.map_map]
  apply List.map_congr_left
  intro c _
  exact (g_ascii_toupper_tolower c).symm

/-- When `screenshot_history_add` finds the file readable, with a modification time and a
thumbnail, the history afterwards has an entry for the path. -/
theorem screenshot_history_add_mem (fs : FileSystem) (history : ScreenshotHistory)
    (filepath : List Char) (h1 : fs.access_R_OK filepath = true)
    (h2 : (fs.stat_mtime filepath).isSome = true) (h3 : fs.create_thumbnail filepath = true) :
    ∃ e ∈ (screenshot_history_add fs history filepath).entries, e.filepath = filepath := by
  obtain ⟨mtime, hm⟩ := Option.isSome_iff_exists.mp h2
  have hins : ∀ (l : List ScreenshotEntry) (d : ScreenshotEntry),
      d ∈ g_list_insert_sorted l d compare_entries_by_time := by
    intro l d
    induction l with
    | nil => simp [g_list_insert_sorted]
    | cons e rest ih =>
      unfold g_list_insert_sorted
      split_ifs
      · exact List.mem_cons_of_mem _ ih
      · exact List.mem_cons_self _ _
  refine ⟨{ filepath := filepath, timestamp := mtime }, ?_, rfl⟩
  simp only [screenshot_history_add, h1, hm, h3, not_true_eq_false, if_false]
  exact hins _ _

/-- C8: at the path `shot.xyz`, whose extension matches no branch of the dispatch, the export
calls no encoder and pushes the one message "Image saved successfully"; where a readable image
file already lies at that path it also enters the history.  At the path `shot`, without a dot,
the export pushes no message at all. -/
theorem save_unknown_extension_reports_success :
    (save_image_with_annotations (export_env empty_fs) fresh_window (some blank_surface)
        ([] : List Unit) (some "shot.xyz".toList)).encoder_calls = [] ∧
      (save_image_with_annotations (export_env empty_fs) fresh_window (some blank_surface)
        ([] : List Unit) (some "shot.xyz".toList)).win.statusbar =
        ["Image saved successfully".toList] ∧
      (save_image_with_annotations (export_env (images_fs 1700000000)) fresh_window
        (some blank_surface) ([] : List Unit)
        (some "shot.xyz".toList)).win.screenshot_history.entries =
        [{ filepath := "shot.xyz".toList, timestamp := 1700000000 }] ∧
      (save_image_with_annotations (export_env empty_fs) fresh_window (some blank_surface)
        ([] : List Unit) (some "shot".toList)).win.statusbar = [] := by
  decide

/-- The report after an unsupported-format branch: the branch's message, then the failure
message built from it, and nothing else changes. -/
theorem save_report_unsupported (env : SaveEnv) (win : MainWindow) (filename message : List Char)
    (hlen : ("Failed to save image: ".toList ++ message).length ≤ 255) :
    save_report env (save_branch_unsupported win message).1 filename
        (save_branch_unsupported win message).2.2 =
      { win with
        statusbar := win.statusbar ++ [message, "Failed to save image: ".toList ++ message] } := by
  simp only [save_report, save_branch_unsupported, gtk_statusbar_push, List.take_of_length_le hlen,
    List.append_assoc, List.singleton_append]

/-- What the claim on unsupported formats says of one export, for the message of its branch. -/
theorem save_unsupported_branch {α : Type} (env : SaveEnv) (win : MainWindow)
    (surface : Surface) (annotations : List α) (filename message upper : List Char)
    (dispatch : MainWindow × List EncoderCall × Option (List Char))
    (hd : dispatch = save_branch_unsupported win message)
    (hlen : ("Failed to save image: ".toList ++ message).length ≤ 255)
    (hname : upper <:+: message)
    (hsucc : "Image saved successfully".toList ∉
      [message, "Failed to save image: ".toList ++ message]) :
    ∃ message : List Char,
      upper <:+: message ∧
        ({ win := save_report env dispatch.1 filename dispatch.2.2
           drawn :=
            [DrawOp.image_surface_create surface.width surface.height, DrawOp.paint_surface 0 0]
              ++ annotations.map DrawOp.annotation_draw
           encoder_calls := dispatch.2.1 } : SaveOutcome α).win.statusbar =
          win.statusbar ++ [message, "Failed to save image: ".toList ++ message] ∧
        "Image saved successfully".toList ∉
          [message, "Failed to save image: ".toList ++ message] ∧
        ({ win := save_report env dispatch.1 filename dispatch.2.2
           drawn :=
            [DrawOp.image_surface_create surface.width surface.height, DrawOp.paint_surface 0 0]
              ++ annotations.map DrawOp.annotation_draw
           encoder_calls := dispatch.2.1 } : SaveOutcome α).encoder_calls = [] ∧
        ({ win := save_report env dispatch.1 filename dispatch.2.2
           drawn :=
            [DrawOp.image_surface_create surface.width surface.height, DrawOp.paint_surface 0 0]
              ++ annotations.map DrawOp.annotation_draw
           encoder_calls := dispatch.2.1 } : SaveOutcome α).win.screenshot_history =
          win.screenshot_history ∧
        ({ win := save_report env dispatch.1 filename dispatch.2.2
           drawn :=
            [DrawOp.image_surface_create surface.width surface.height, DrawOp.paint_surface 0 0]
              ++ annotations.map DrawOp.annotation_draw
           encoder_calls := dispatch.2.1 } : SaveOutcome α).win.history_flow_box =
          win.history_flow_box := by
  subst hd
  refine ⟨message, hname, ?_, hsucc, rfl, ?_, ?_⟩ <;>
    simp only [save_report_unsupported env win filename message hlen]

/-- C9: for a path whose extension is, in any letter case, svg, heic, heif, raw, psd, eps, ai,
avif, cr2 or cr3, the export pushes an error message that contains the upper-cased extension,
then "Failed to save image: " followed by the same message; it pushes no success message, calls
no encoder and leaves the history and the history flow box as they were. -/
theorem save_unsupported_format {α : Type} (env : SaveEnv) (win : MainWindow)
    (surface : Surface) (annotations : List α) (base ext : List Char) (hdot : '.' ∉ ext)
    (hpix : env.pixbuf_get_from_surface = true)
    (hext : ext.map g_ascii_tolower ∈
      ["svg".toList, "heic".toList, "heif".toList, "raw".toList, "psd".toList, "eps".toList,
        "ai".toList, "avif".toList, "cr2".toList, "cr3".toList]) :
    ∃ message : List Char,
      ext.map g_ascii_toupper <:+: message ∧
        (save_image_with_annotations env win (some surface) annotations
            (some (base ++ '.' :: ext))).win.statusbar =
          win.statusbar ++ [message, "Failed to save image: ".toList ++ message] ∧
        "Image saved successfully".toList ∉
          [message, "Failed to save image: ".toList ++ message] ∧
        (save_image_with_annotations env win (some surface) annotations
            (some (base ++ '.' :: ext))).encoder_calls = [] ∧
        (save_image_with_annotations env win (some surface) annotations
            (some (base ++ '.' :: ext))).win.screenshot_history = win.screenshot_history ∧
        (save_image_with_annotations env win (some surface) annotations
            (some (base ++ '.' :: ext))).win.history_flow_box = win.history_flow_box := by
  rw [save_image_with_annotations_ext env win surface annotations base ext hdot hpix]
  simp only [List.mem_cons, List.mem_singleton, List.not_mem_nil, or_false] at hext
  rcases hext with h | h | h | h | h | h | h | h | h | h <;>
    rw [save_dispatch_of_lower env win _ ext _ h (by decide) (by decide),
      map_toupper_of_map_tolower ext _ h]
  · exact save_unsupported_branch env win surface annotations _
      "SVG format not supported for screenshots".toList _ _ rfl (by decide) (by decide)
      (by decide)
  · exact save_unsupported_branch env win surface annotations _
      "HEIC/HEIF format not supported".toList _ _ rfl (by decide) (by decide) (by decide)
  · exact save_unsupported_branch env win surface annotations _
      "HEIC/HEIF format not supported".toList _ _ rfl (by decide) (by decide) (by decide)
  · exact save_unsupported_branch env win surface annotations _
      "RAW format not supported".toList _ _ rfl (by decide) (by decide) (by decide)
  · exact save_unsupported_branch env win surface annotations _
      "PSD format not supported".toList _ _ rfl (by decide) (by decide) (by decide)
  · exact save_unsupported_branch env win surface annotations _
      "EPS format not supported".toList _ _ rfl (by decide) (by decide) (by decide)
  · exact save_unsupported_branch env win surface annotations _
      "AI format not supported".toList _ _ rfl (by decide) (by decide) (by decide)
  · exact save_unsupported_branch env win surface annotations _
      "AVIF format not supported".toList _ _ rfl (by decide) (by decide) (by decide)
  · exact save_unsupported_branch env win surface annotations _
      "CR2/CR3 format not supported".toList _ _ rfl (by decide) (by decide) (by decide)
  · exact save_unsupported_branch env win surface annotations _
      "CR2/CR3 format not supported".toList _ _ rfl (by decide) (by decide) (by decide)

theorem save_unsupported_format_witness :
    ∃ message : List Char,
      "HeIc".toList.map g_ascii_toupper <:+: message ∧
        (save_image_with_annotations (export_env empty_fs) fresh_window (some blank_surface)
            [()] (some ("shot".toList ++ '.' :: "HeIc".toList))).win.statusbar =
          fresh_window.statusbar ++ [message, "Failed to save image: ".toList ++ message] ∧
        "Image saved successfully".toList ∉
          [message, "Failed to save image: ".toList ++ message] ∧
        (save_image_with_annotations (export_env empty_fs) fresh_window (some blank_surface)
            [()] (some ("shot".toList ++ '.' :: "HeIc".toList))).encoder_calls = [] ∧
        (save_image_with_annotations (export_env empty_fs) fresh_window (some blank_surface)
            [()] (some ("shot".toList ++ '.' :: "HeIc".toList))).win.screenshot_history =
          fresh_window.screenshot_history ∧
        (save_image_with_annotations (export_env empty_fs) fresh_window (some blank_surface)
            [()] (some ("shot".toList ++ '.' :: "HeIc".toList))).win.history_flow_box =
          fresh_window.history_flow_box :=
  save_unsupported_format (export_env empty_fs) fresh_window blank_surface [()] "shot".toList
    "HeIc".toList (by decide) rfl (by decide)

/-- What the claim on supported formats says of one export, for the encoder call of its
branch. -/
theorem save_supported_branch {α : Type} (env : SaveEnv) (win : MainWindow)
    (surface : Surface) (annotations : List α) (filename : List Char) (call : EncoderCall)
    (dispatch : MainWindow × List EncoderCall × Option (List Char))
    (hd : dispatch = save_branch_encode env win call) :
    ({ win := save_report env dispatch.1 filename dispatch.2.2
       drawn :=
        [DrawOp.image_surface_create surface.width surface.height, DrawOp.paint_surface 0 0]
          ++ annotations.map DrawOp.annotation_draw
       encoder_calls := dispatch.2.1 } : SaveOutcome α).encoder_calls = [call] ∧
      (env.gdk_pixbuf_save call = none →
        ({ win := save_report env dispatch.1 filename dispatch.2.2
           drawn :=
            [DrawOp.image_surface_create surface.width surface.height, DrawOp.paint_surface 0 0]
              ++ annotations.map DrawOp.annotation_draw
           encoder_calls := dispatch.2.1 } : SaveOutcome α).win.statusbar =
            win.statusbar ++ ["Image saved successfully".toList] ∧
          ({ win := save_report env dispatch.1 filename dispatch.2.2
             drawn :=
              [DrawOp.image_surface_create surface.width surface.height,
                DrawOp.paint_surface 0 0] ++ annotations.map DrawOp.annotation_draw
             encoder_calls := dispatch.2.1 } : SaveOutcome α).win.screenshot_history =
            screenshot_history_add env.fs win.screenshot_history filename) := by
  subst hd
  refine ⟨rfl, fun hok => ?_⟩
  simp only [save_branch_encode, hok, save_report, gtk_statusbar_push, and_self]

/-- C10: for a path whose extension after the last dot is, ASCII case-insensitively, png, jpg,
jpeg, gif, tif, tiff, webp, bmp or ico, the export makes exactly one encoder call, for this path
and with the type the specification names for the format; when that call sets no error the export
pushes the one message "Image saved successfully" and passes the path to
`screenshot_history_add`, which enters it in the history when the written file is readable. -/
theorem save_supported_format {α : Type} (env : SaveEnv) (win : MainWindow)
    (surface : Surface) (annotations : List α) (base ext : List Char) (hdot : '.' ∉ ext)
    (hpix : env.pixbuf_get_from_surface = true)
    (hext : ext.map g_ascii_tolower ∈
      ["png".toList, "jpg".toList, "jpeg".toList, "gif".toList, "tif".toList, "tiff".toList,
        "webp".toList, "bmp".toList, "ico".toList]) :
    ∃ options : List (List Char × List Char),
      (save_image_with_annotations env win (some surface) annotations
          (some (base ++ '.' :: ext))).encoder_calls =
        [{ filename := base ++ '.' :: ext
           type := spec_encoder_name (ext.map g_ascii_tolower)
           options := options }] ∧
      (env.gdk_pixbuf_save
          { filename := base ++ '.' :: ext
            type := spec_encoder_name (ext.map g_ascii_tolower)
            options := options } = none →
        (save_image_with_annotations env win (some surface) annotations
            (some (base ++ '.' :: ext))).win.statusbar =
            win.statusbar ++ ["Image saved successfully".toList] ∧
          (save_image_with_annotations env win (some surface) annotations
            (some (base ++ '.' :: ext))).win.screenshot_history =
            screenshot_history_add env.fs win.screenshot_history (base ++ '.' :: ext) ∧
          (env.fs.access_R_OK (base ++ '.' :: ext) = true →
            (env.fs.stat_mtime (base ++ '.' :: ext)).isSome = true →
            env.fs.create_thumbnail (base ++ '.' :: ext) = true →
            ∃ e ∈ (save_image_with_annotations env win (some surface) annotations
                (some (base ++ '.' :: ext))).win.screenshot_history.entries,
              e.filepath = base ++ '.' :: ext)) := by
  have key : ∀ (call : EncoderCall),
      save_dispatch env win (base ++ '.' :: ext) ext = save_branch_encode env win call →
      (save_image_with_annotations env win (some surface) annotations
          (some (base ++ '.' :: ext))).encoder_calls = [call] ∧
      (env.gdk_pixbuf_save call = none →
        (save_image_with_annotations env win (some surface) annotations
            (some (base ++ '.' :: ext))).win.statusbar =
            win.statusbar ++ ["Image saved successfully".toList] ∧
          (save_image_with_annotations env win (some surface) annotations
            (some (base ++ '.' :: ext))).win.screenshot_history =
            screenshot_history_add env.fs win.screenshot_history (base ++ '.' :: ext) ∧
          (env.fs.access_R_OK (base ++ '.' :: ext) = true →
            (env.fs.stat_mtime (base ++ '.' :: ext)).isSome = true →
            env.fs.create_thumbnail (base ++ '.' :: ext) = true →
            ∃ e ∈ (save_image_with_annotations env win (some surface) annotations
                (some (base ++ '.' :: ext))).win.screenshot_history.entries,
              e.filepath = base ++ '.' :: ext)) := by
    intro call hd
    rw [save_image_with_annotations_ext env win surface annotations base ext hdot hpix]
    obtain ⟨h1, h2⟩ :=
      save_supported_branch env win surface annotations (base ++ '.' :: ext) call _ hd
    refine ⟨h1, fun hok => ?_⟩
    obtain ⟨h3, h4⟩ := h2 hok
    refine ⟨h3, h4, fun r1 r2 r3 => ?_⟩
    rw [h4]
    exact screenshot_history_add_mem env.fs win.screenshot_history _ r1 r2 r3
  simp only [List.mem_cons, List.mem_singleton, List.not_mem_nil, or_false] at hext
  rcases hext with h | h | h | h | h | h | h | h | h <;> rw [h]
  · exact ⟨[("compression".toList, "9".toList)], key _
      (save_dispatch_of_lower env win _ ext _ h (by decide) (by decide))⟩
  · exact ⟨[("quality".toList, "100".toList)], key _
      (save_dispatch_of_lower env win _ ext _ h (by decide) (by decide))⟩
  · exact ⟨[("quality".toList, "100".toList)], key _
      (save_dispatch_of_lower env win _ ext _ h (by decide) (by decide))⟩
  · exact ⟨[], key _ (save_dispatch_of_lower env win _ ext _ h (by decide) (by decide))⟩
  · exact ⟨[], key _ (save_dispatch_of_lower env win _ ext _ h (by decide) (by decide))⟩
  · exact ⟨[], key _ (save_dispatch_of_lower env win _ ext _ h (by decide) (by decide))⟩
  · exact ⟨[("quality".toList, "100".toList)], key _
      (save_dispatch_of_lower env win _ ext _ h (by decide) (by decide))⟩
  · exact ⟨[], key _ (save_dispatch_of_lower env win _ ext _ h (by decide) (by decide))⟩
  · exact ⟨[], key _ (save_dispatch_of_lower env win _ ext _ h (by decide) (by decide))⟩

theorem save_supported_format_witness :
    ∃ options : List (List Char × List Char),
      (save_image_with_annotations (export_env (images_fs 1700000000)) fresh_window
          (some blank_surface) [()] (some ("shot".toList ++ '.' :: "JPeG".toList))).encoder_calls =
        [{ filename := "shot".toList ++ '.' :: "JPeG".toList
           type := spec_encoder_name ("JPeG".toList.map g_ascii_tolower)
           options := options }] ∧
      ((export_env (images_fs 1700000000)).gdk_pixbuf_save
          { filename := "shot".toList ++ '.' :: "JPeG".toList
            type := spec_encoder_name ("JPeG".toList.map g_ascii_tolower)
            options := options } = none →
        (save_image_with_annotations (export_env (images_fs 1700000000)) fresh_window
            (some blank_surface) [()]
            (some ("shot".toList ++ '.' :: "JPeG".toList))).win.statusbar =
            fresh_window.statusbar ++ ["Image saved successfully".toList] ∧
          (save_image_with_annotations (export_env (images_fs 1700000000)) fresh_window
            (some blank_surface) [()]
            (some ("shot".toList ++ '.' :: "JPeG".toList))).win.screenshot_history =
            screenshot_history_add (export_env (images_fs 1700000000)).fs
              fresh_window.screenshot_history ("shot".toList ++ '.' :: "JPeG".toList) ∧
          ((export_env (images_fs 1700000000)).fs.access_R_OK
              ("shot".toList ++ '.' :: "JPeG".toList) = true →
            ((export_env (images_fs 1700000000)).fs.stat_mtime
              ("shot".toList ++ '.' :: "JPeG".toList)).isSome = true →
            (export_env (images_fs 1700000000)).fs.create_thumbnail
              ("shot".toList ++ '.' :: "JPeG".toList) = true →
            ∃ e ∈ (save_image_with_annotations (export_env (images_fs 1700000000)) fresh_window
                (some blank_surface) [()]
                (some ("shot".toList ++ '.' :: "JPeG".toList))).win.screenshot_history.entries,
              e.filepath = "shot".toList ++ '.' :: "JPeG".toList)) :=
  save_supported_format (export_env (images_fs 1700000000)) fresh_window blank_surface [()]
    "shot".toList "JPeG".toList (by decide) rfl (by decide)

/-! ## Annotations -/

/-- The settings copy of `annotation_create` equals the settings it copies. -/
theorem settings_copy_eq (settings : ToolSettings) :
    ({ settings with font := { settings.font with
        family := settings.font.family.map g_strdup } } : ToolSettings) = settings := by
  obtain ⟨type, color, line_width, fill, ⟨family, size, is_bold, is_italic⟩⟩ := settings
  cases family <;> rfl

/-- C11: undo is strictly last-in first-out.  From the annotation list `l ++ [a]` and the undo
stack `s`, `undo_last_annotation` leaves the list `l` and the stack `s ++ [a]`; from `[a, b, c]`
and an empty stack one undo gives `[a, b]` and `[c]`, a second gives `[a]` and `[c, b]`; on an
empty list nothing changes. -/
theorem undo_last_annotation_lifo (win_data : MainWindowData) (l s : List Annotation)
    (a b c : Annotation) :
    (( undo_last_annotation { win_data with annotations := l ++ [a], undo_stack := s }).annotations
        = l ∧
      ( undo_last_annotation { win_data with annotations := l ++ [a], undo_stack := s }).undo_stack
        = s ++ [a]) ∧
    (( undo_last_annotation
        { win_data with annotations := [a, b, c], undo_stack := [] }).annotations = [a, b] ∧
      ( undo_last_annotation
        { win_data with annotations := [a, b, c], undo_stack := [] }).undo_stack = [c] ∧
      ( undo_last_annotation ( undo_last_annotation
        { win_data with annotations := [a, b, c], undo_stack := [] })).annotations = [a] ∧
      ( undo_last_annotation ( undo_last_annotation
        { win_data with annotations := [a, b, c], undo_stack := [] })).undo_stack = [c, b]) ∧
    undo_last_annotation { win_data with annotations := [] } =
      { win_data with annotations := [] } := by
  refine ⟨?_, ?_, rfl⟩
  · simp only [ undo_last_annotation, List.getLast?_concat, List.dropLast_concat, and_self]
  · exact ⟨rfl, rfl, rfl, rfl⟩

/-- The loop of `find_text_at_coords` is the search for the first Text annotation whose bounding
box contains the point. -/
theorem find_text_in_eq_find (l : List Annotation) (x y : ℚ) :
    find_text_in l x y =
      l.find? (fun a => decide (a.type = ToolType.TOOL_TEXT ∧ in_bounds a x y)) := by
  induction l with
  | nil => rfl
  | cons a rest ih =>
    unfold find_text_in
    rw [List.find?_cons, ih]
    by_cases ht : a.type = ToolType.TOOL_TEXT
    · by_cases hb : in_bounds a x y
      · have hb2 := hb
        unfold in_bounds at hb2
        simp only [ht, hb, ge_iff_le, hb2, and_self, if_true, decide_True]
      · have hb2 := hb
        unfold in_bounds at hb2
        simp only [ht, hb, ge_iff_le, hb2, and_false, if_true, if_false, decide_False]
    · simp only [ht, false_and, if_false, decide_False]

/-- C12: `find_text_at_coords` returns the first annotation in list order that is a Text
annotation and whose bounding box contains `(x, y)`; it returns none exactly when no Text
annotation contains the point; what it returns is a Text annotation, whatever the bounds of the
other annotations. -/
theorem find_text_at_coords_first (win_data : MainWindowData) (x y : ℚ) :
    (find_text_at_coords win_data x y = none ↔
        ∀ a ∈ win_data.annotations, ¬ (a.type = ToolType.TOOL_TEXT ∧ in_bounds a x y)) ∧
      ∀ a : Annotation, find_text_at_coords win_data x y = some a →
        a.type = ToolType.TOOL_TEXT ∧ in_bounds a x y ∧
          ∃ before after : List Annotation,
            win_data.annotations = before ++ a :: after ∧
              ∀ b ∈ before, ¬ (b.type = ToolType.TOOL_TEXT ∧ in_bounds b x y) := by
  unfold find_text_at_coords
  rw [find_text_in_eq_find]
  constructor
  · simp only [List.find?_eq_none, decide_eq_true_eq]
  · intro a h
    rw [List.find?_eq_some] at h
    obtain ⟨hp, before, after, hl, hb⟩ := h
    simp only [decide_eq_true_eq] at hp
    refine ⟨hp.1, hp.2, before, after, hl, ?_⟩
    intro b hbm hcon
    have h1 := hb b hbm
    simp [hcon.1, hcon.2] at h1

/-- C17: `annotation_create` returns none when the settings are absent.  With settings, and
memory from `malloc`, it returns an annotation of the requested type whose settings equal the
given ones, with bounds (0,0)-(0,0), no text, all 1000 path points zero and a point count
of 0. -/
theorem annotation_create_result (malloc_ok : Bool) (type : ToolType) (settings : ToolSettings) :
    annotation_create malloc_ok type none = none ∧
      annotation_create true type (some settings) =
        some
          { type := type
            settings := settings
            bounds := { x1 := 0, y1 := 0, x2 := 0, y2 := 0 }
            text := none
            path :=
              { points := List.replicate 1000 { x1 := 0, y1 := 0, x2 := 0, y2 := 0 }
                point_count := 0 } } := by
  refine ⟨rfl, ?_⟩
  simp only [annotation_create, settings_copy_eq, not_true_eq_false, if_false]

/-- The annotation list after a confirmed, non-empty text entry. -/
theorem show_text_dialog_accept (win_data : MainWindowData) (x y : ℚ) (c : Char)
    (cs : List Char) :
    (show_text_dialog true win_data x y true (some (c :: cs))).annotations =
      win_data.annotations ++
        [{ type := ToolType.TOOL_TEXT
           settings := win_data.current_tool
           bounds := { x1 := double_to_int x, y1 := double_to_int y, x2 := 0, y2 := 0 }
           text := some (c :: cs)
           path :=
            { points := List.replicate 1000 { x1 := 0, y1 := 0, x2 := 0, y2 := 0 }
              point_count := 0 } }] := by
  simp only [show_text_dialog, annotation_create, settings_copy_eq, g_strdup,
    not_true_eq_false, if_false, if_true]

theorem double_to_int_intCast (n : Int) : double_to_int (n : ℚ) = n := by
  simp [double_to_int]

/-- C16 as stated fails at the anchor (10, 20): the Text annotation that the confirmed entry of
`hi` creates has the bounds (10, 20)-(0, 0), so `x2` is 0 and not 10, `y2` is 0 and not 20. -/
theorem show_text_dialog_bounds_not_anchor :
    (show_text_dialog true (fresh_window_data ToolType.TOOL_TEXT) 10 20 true
        (some "hi".toList)).annotations.map (fun a => (a.type, a.bounds)) =
      [(ToolType.TOOL_TEXT, { x1 := 10, y1 := 20, x2 := 0, y2 := 0 })] := by
  rw [show "hi".toList = 'h' :: ['i'] from rfl, show_text_dialog_accept]
  simp only [fresh_window_data, List.nil_append, List.map_cons, List.map_nil]
  rw [show (10 : ℚ) = ((10 : Int) : ℚ) by norm_num, show (20 : ℚ) = ((20 : Int) : ℚ) by norm_num,
    double_to_int_intCast, double_to_int_intCast]

/-- C16, amended: a Text annotation created by confirmed entry of a non-empty text at the anchor
`(x, y)` is appended to the annotation list with, before any render pass, `x1` and `y1` equal to
the anchor coordinates converted to `int`, and `x2 = y2 = 0`; it carries the entered text and
the current tool settings.  The first render pass, which measures the text as `text_width` by
`text_height`, keeps `x1` and `y1` and sets `x2` and `y2` to `x1 + text_width` and
`y1 + text_height`, converted to `int`.  A cancelled dialog or an empty text adds no
annotation. -/
theorem show_text_dialog_bounds (malloc_ok : Bool) (win_data : MainWindowData) (x y : ℚ)
    (c : Char) (cs : List Char) (text : Option (List Char)) :
    (∃ a : Annotation,
      (show_text_dialog true win_data x y true (some (c :: cs))).annotations =
          win_data.annotations ++ [a] ∧
        a.type = ToolType.TOOL_TEXT ∧ a.text = some (c :: cs) ∧
        a.settings = win_data.current_tool ∧
        a.bounds = { x1 := double_to_int x, y1 := double_to_int y, x2 := 0, y2 := 0 } ∧
        ∀ text_width text_height : ℚ,
          (annotation_draw_update a text_width text_height).bounds =
            { x1 := double_to_int x
              y1 := double_to_int y
              x2 := double_to_int ((double_to_int x : ℚ) + text_width)
              y2 := double_to_int ((double_to_int y : ℚ) + text_height) }) ∧
      (show_text_dialog malloc_ok win_data x y false text).annotations = win_data.annotations ∧
      (show_text_dialog malloc_ok win_data x y true (some [])).annotations =
        win_data.annotations := by
  refine ⟨⟨_, show_text_dialog_accept win_data x y c cs, rfl, rfl, rfl, rfl, ?_⟩, ?_, ?_⟩
  · intro text_width text_height
    simp only [annotation_draw_update, if_true]
  · simp [show_text_dialog]
  · simp [show_text_dialog]

/-! ## Arrow head and border -/

/-- C15: the arrow head length that `annotation_draw` computes for an Arrow is `0.15` times the
shaft length, clamped to the range from 12 to 20: it is 15 for a shaft of length 100 and 12 for a
shaft of length 40, for every shaft length it lies between 12 and 20 inclusive, and it is
`0.15` times the length wherever that lies in the range. -/
theorem arrow_head_length_clamp (m : LibM) (bounds : PointPair) (length : ℚ) :
    (arrow_geometry m bounds).arrow_length = arrow_head_length (arrow_geometry m bounds).length ∧
      arrow_head_length 100 = 15 ∧ arrow_head_length 40 = 12 ∧
      12 ≤ arrow_head_length length ∧ arrow_head_length length ≤ 20 ∧
      (12 ≤ length * 0.15 → length * 0.15 ≤ 20 → arrow_head_length length = length * 0.15) := by
  refine ⟨rfl, ?_⟩
  unfold arrow_head_length
  refine ⟨by norm_num, by norm_num, ?_, ?_, ?_⟩
  · exact le_min (by norm_num) (by norm_num)
  · exact le_trans (min_le_right (max (length * 0.15) (12.0 : ℚ)) (20.0 : ℚ)) (by norm_num)
  · intro h1 h2
    have e1 : max (length * 0.15) (12.0 : ℚ) = length * 0.15 :=
      max_eq_left (by norm_num at h1 ⊢; linarith)
    rw [e1]
    exact min_eq_left (by norm_num at h2 ⊢; linarith)

/-- The conversion to `int` of a `double` that holds a whole number gives that number. -/
theorem double_to_int_of_eq_intCast (q : ℚ) (k : Int) (h : q = (k : ℚ)) : double_to_int q = k := by
  rw [h, double_to_int_intCast]

/-- C13: for a `W` by `H` surface and a border width `b` of at least 0, with `W + 2b` and
`H + 2b` whole numbers, `add_border_to_surface` returns a surface of exactly `W + 2b` by
`H + 2b`, on which the original image is painted at offset `(b, b)` and a rectangle at
`(b/2, b/2)` of size `W + b` by `H + b` is stroked at line width `b`; that stroke covers no point
inside the pasted image, and it covers every other point of the new surface. -/
theorem add_border_to_surface_frame (surface : Surface) (border_width r g b : ℚ) (k : Int)
    (_hb : 0 ≤ border_width) (hk : 2 * border_width = (k : ℚ)) :
    ∃ bordered : BorderedSurface,
      add_border_to_surface (some surface) border_width r g b = some bordered ∧
        bordered.width = surface.width + k ∧ bordered.height = surface.height + k ∧
        ((bordered.width : ℚ) = surface.width + 2 * border_width ∧
          (bordered.height : ℚ) = surface.height + 2 * border_width) ∧
        bordered.drawn =
          [CairoOp.set_operator_clear, CairoOp.paint, CairoOp.set_operator_over,
            CairoOp.set_source_surface border_width border_width, CairoOp.paint,
            CairoOp.set_source_rgb r g b, CairoOp.set_line_width border_width,
            CairoOp.rectangle (border_width / 2) (border_width / 2)
              ((surface.width : ℚ) + border_width) ((surface.height : ℚ) + border_width),
            CairoOp.stroke] ∧
        (∀ px py : ℚ,
          border_width < px → px < border_width + surface.width →
          border_width < py → py < border_width + surface.height →
          ¬ rectangle_stroke_covers (border_width / 2) (border_width / 2)
            ((surface.width : ℚ) + border_width) ((surface.height : ℚ) + border_width)
            border_width px py) ∧
        ∀ px py : ℚ,
          0 ≤ px → px ≤ (surface.width : ℚ) + 2 * border_width →
          0 ≤ py → py ≤ (surface.height : ℚ) + 2 * border_width →
          ¬ (border_width < px ∧ px < border_width + surface.width ∧
            border_width < py ∧ py < border_width + surface.height) →
          rectangle_stroke_covers (border_width / 2) (border_width / 2)
            ((surface.width : ℚ) + border_width) ((surface.height : ℚ) + border_width)
            border_width px py := by
  have hw : double_to_int ((surface.width : ℚ) + 2 * border_width) = surface.width + k :=
    double_to_int_of_eq_intCast _ _ (by rw [hk]; push_cast; ring)
  have hh : double_to_int ((surface.height : ℚ) + 2 * border_width) = surface.height + k :=
    double_to_int_of_eq_intCast _ _ (by rw [hk]; push_cast; ring)
  refine ⟨_, rfl, hw, hh, ⟨?_, ?_⟩, rfl, ?_, ?_⟩
  · simp only [hw]; push_cast; rw [hk]
  · simp only [hh]; push_cast; rw [hk]
  · intro px py h1 h2 h3 h4 hc
    apply hc.2
    refine ⟨by linarith, by linarith, by linarith, by linarith⟩
  · intro px py h1 h2 h3 h4 hn
    refine ⟨⟨by linarith, by linarith, by linarith, by linarith⟩, ?_⟩
    intro hin
    apply hn
    refine ⟨by linarith [hin.1], by linarith [hin.2.1], by linarith [hin.2.2.1],
      by linarith [hin.2.2.2]⟩

theorem add_border_to_surface_frame_witness :
    ∃ bordered : BorderedSurface,
      add_border_to_surface (some blank_surface) 3 0 0 0 = some bordered ∧
        bordered.width = blank_surface.width + 6 ∧ bordered.height = blank_surface.height + 6 ∧
        ((bordered.width : ℚ) = blank_surface.width + 2 * 3 ∧
          (bordered.height : ℚ) = blank_surface.height + 2 * 3) ∧
        bordered.drawn =
          [CairoOp.set_operator_clear, CairoOp.paint, CairoOp.set_operator_over,
            CairoOp.set_source_surface 3 3, CairoOp.paint,
            CairoOp.set_source_rgb 0 0 0, CairoOp.set_line_width 3,
            CairoOp.rectangle (3 / 2) (3 / 2)
              ((blank_surface.width : ℚ) + 3) ((blank_surface.height : ℚ) + 3),
            CairoOp.stroke] ∧
        (∀ px py : ℚ,
          3 < px → px < 3 + blank_surface.width →
          3 < py → py < 3 + blank_surface.height →
          ¬ rectangle_stroke_covers (3 / 2) (3 / 2)
            ((blank_surface.width : ℚ) + 3) ((blank_surface.height : ℚ) + 3) 3 px py) ∧
        ∀ px py : ℚ,
          0 ≤ px → px ≤ (blank_surface.width : ℚ) + 2 * 3 →
          0 ≤ py → py ≤ (blank_surface.height : ℚ) + 2 * 3 →
          ¬ (3 < px ∧ px < 3 + blank_surface.width ∧
            3 < py ∧ py < 3 + blank_surface.height) →
          rectangle_stroke_covers (3 / 2) (3 / 2)
            ((blank_surface.width : ℚ) + 3) ((blank_surface.height : ℚ) + 3) 3 px py :=
  add_border_to_surface_frame blank_surface 3 0 0 0 6 (by norm_num) (by norm_num)

/-! ## Clipboard conversion -/

/-- The four `int` indices at an index `s` are `s + 0` to `s + 3` when `s` and `s + 3` are `int`
values. -/
theorem wrap32_index (s k : Int) (hs : isInt32 s) (hs3 : isInt32 (s + 3)) (hk : 0 ≤ k ∧ k < 4) :
    wrap32 (s + k) = s + k :=
  wrap32_of_isInt32 (by unfold isInt32 at hs hs3 ⊢; omega)

theorem clipboard_store_pixel_inside (src rgb : Int → Nat) (s d k : Int) (hk : 0 ≤ k ∧ k < 4)
    (hs : isInt32 s) (hs3 : isInt32 (s + 3)) (hd : isInt32 d) (hd3 : isInt32 (d + 3)) :
    clipboard_store_pixel src rgb s d (d + k) = src (s + clipboard_source_byte k) := by
  have hcases : k = 0 ∨ k = 1 ∨ k = 2 ∨ k = 3 := by omega
  simp only [clipboard_store_pixel, wrap32_index s 0 hs hs3 (by omega),
    wrap32_index s 1 hs hs3 (by omega), wrap32_index s 2 hs hs3 (by omega),
    wrap32_index s 3 hs hs3 (by omega), wrap32_index d 0 hd hd3 (by omega),
    wrap32_index d 1 hd hd3 (by omega), wrap32_index d 2 hd hd3 (by omega),
    wrap32_index d 3 hd hd3 (by omega)]
  rcases hcases with h | h | h | h <;> subst h <;>
    simp [clipboard_source_byte, Function.update_apply]

theorem clipboard_store_pixel_outside (src rgb : Int → Nat) (s d q : Int)
    (hd : isInt32 d) (hd3 : isInt32 (d + 3)) (h : q < d ∨ d + 4 ≤ q) :
    clipboard_store_pixel src rgb s d q = rgb q := by
  simp only [clipboard_store_pixel, wrap32_index d 0 hd hd3 (by omega),
    wrap32_index d 1 hd hd3 (by omega), wrap32_index d 2 hd hd3 (by omega),
    wrap32_index d 3 hd hd3 (by omega), Function.update_apply]
  rw [if_neg (by omega), if_neg (by omega), if_neg (by omega), if_neg (by omega)]

theorem clipboard_convert_row_upto_succ (src : Int → Nat) (stride width : Int)
    (rgb : Int → Nat) (y : Int) (m : Nat) :
    clipboard_convert_row_upto src stride width rgb y (m + 1) =
      clipboard_store_pixel src (clipboard_convert_row_upto src stride width rgb y m)
        (clipboard_src_idx stride y (m : Int)) (clipboard_dst_idx width y (m : Int)) := by
  simp only [clipboard_convert_row_upto, List.range_succ, List.foldl_append, List.foldl_cons,
    List.foldl_nil]

/-- With a row stride of at least `4 * width` bytes and a source of `height * stride` bytes that
an `int` can count, the two indices of the conversion loop are the offsets `y * stride + x * 4`
and `(y * width + x) * 4` for every pixel, and the four bytes at each can be addressed with
`int` indices. -/
theorem clipboard_idx_in_range (stride : Int) (n m : Nat) (hstride : 4 * (n : Int) ≤ stride)
    (hsize : (m : Int) * stride ≤ 2147483647) (x y : Nat) (hx : x < n) (hy : y < m) :
    (clipboard_src_idx stride (y : Int) (x : Int) = (y : Int) * stride + (x : Int) * 4 ∧
        isInt32 ((y : Int) * stride + (x : Int) * 4) ∧
        isInt32 ((y : Int) * stride + (x : Int) * 4 + 3)) ∧
      clipboard_dst_idx (n : Int) (y : Int) (x : Int) = ((y : Int) * (n : Int) + (x : Int)) * 4 ∧
      isInt32 (((y : Int) * (n : Int) + (x : Int)) * 4) ∧
      isInt32 (((y : Int) * (n : Int) + (x : Int)) * 4 + 3) := by
  have hs : 0 ≤ stride := by omega
  have h1 : ((y : Int) + 1) * stride ≤ (m : Int) * stride :=
    Int.mul_le_mul_of_nonneg_right (by omega) hs
  have h2 : 0 ≤ (y : Int) * stride := mul_nonneg (by omega) hs
  have h3 : (y : Int) * (4 * (n : Int)) ≤ (y : Int) * stride :=
    Int.mul_le_mul_of_nonneg_left hstride (by omega)
  have h4 : 0 ≤ (y : Int) * (n : Int) := mul_nonneg (by omega) (by omega)
  have i1 : isInt32 ((y : Int) * stride) := by unfold isInt32; constructor <;> linarith
  have i2 : isInt32 ((x : Int) * 4) := by unfold isInt32; constructor <;> linarith
  have i3 : isInt32 ((y : Int) * stride + (x : Int) * 4) := by
    unfold isInt32; constructor <;> linarith
  have i3b : isInt32 ((y : Int) * stride + (x : Int) * 4 + 3) := by
    unfold isInt32; constructor <;> linarith
  have i4 : isInt32 ((y : Int) * (n : Int)) := by unfold isInt32; constructor <;> linarith
  have i5 : isInt32 ((y : Int) * (n : Int) + (x : Int)) := by
    unfold isInt32; constructor <;> linarith
  have i6 : isInt32 (((y : Int) * (n : Int) + (x : Int)) * 4) := by
    unfold isInt32; constructor <;> linarith
  have i6b : isInt32 (((y : Int) * (n : Int) + (x : Int)) * 4 + 3) := by
    unfold isInt32; constructor <;> linarith
  unfold clipboard_src_idx clipboard_dst_idx
  rw [wrap32_of_isInt32 i1, wrap32_of_isInt32 i2, wrap32_of_isInt32 i3, wrap32_of_isInt32 i4,
    wrap32_of_isInt32 i5, wrap32_of_isInt32 i6]
  exact ⟨⟨rfl, i3, i3b⟩, rfl, i6, i6b⟩

/-- The inner loop leaves every byte outside the pixels it has converted as it was. -/
theorem clipboard_convert_row_upto_outside (src : Int → Nat) (stride width : Int)
    (rgb : Int → Nat) (y : Int) (m : Nat) (q : Int)
    (hdst : ∀ x : Nat, x < m →
      clipboard_dst_idx width y (x : Int) = (y * width + (x : Int)) * 4 ∧
        isInt32 ((y * width + (x : Int)) * 4) ∧ isInt32 ((y * width + (x : Int)) * 4 + 3))
    (h : q < (y * width) * 4 ∨ (y * width + (m : Int)) * 4 ≤ q) :
    clipboard_convert_row_upto src stride width rgb y m q = rgb q := by
  induction m with
  | zero => rfl
  | succ m ih =>
    obtain ⟨e, i1, i2⟩ := hdst m (by omega)
    rw [clipboard_convert_row_upto_succ, e,
      clipboard_store_pixel_outside _ _ _ _ _ i1 i2 (by push_cast at h; omega)]
    exact ih (fun x hx => hdst x (by omega)) (by push_cast at h; omega)

/-- After the inner loop the bytes of destination pixel `x` of the row are the bytes of source
pixel `x`, bytes 0 and 2 exchanged. -/
theorem clipboard_convert_row_upto_inside (src : Int → Nat) (stride width : Int)
    (rgb : Int → Nat) (y : Int) (m x : Nat)
    (hsrc : ∀ x : Nat, x < m →
      clipboard_src_idx stride y (x : Int) = y * stride + (x : Int) * 4 ∧
        isInt32 (y * stride + (x : Int) * 4) ∧ isInt32 (y * stride + (x : Int) * 4 + 3))
    (hdst : ∀ x : Nat, x < m →
      clipboard_dst_idx width y (x : Int) = (y * width + (x : Int)) * 4 ∧
        isInt32 ((y * width + (x : Int)) * 4) ∧ isInt32 ((y * width + (x : Int)) * 4 + 3))
    (hx : x < m) (k : Int) (hk : 0 ≤ k ∧ k < 4) :
    clipboard_convert_row_upto src stride width rgb y m ((y * width + (x : Int)) * 4 + k) =
      src (y * stride + (x : Int) * 4 + clipboard_source_byte k) := by
  induction m with
  | zero => omega
  | succ m ih =>
    obtain ⟨es, s1, s2⟩ := hsrc m (by omega)
    obtain ⟨ed, d1, d2⟩ := hdst m (by omega)
    rw [clipboard_convert_row_upto_succ, es, ed]
    by_cases e : x = m
    · subst e
      exact clipboard_store_pixel_inside _ _ _ _ k hk s1 s2 d1 d2
    · rw [clipboard_store_pixel_outside _ _ _ _ _ d1 d2 (by omega)]
      exact ih (fun x hx => hsrc x (by omega)) (fun x hx => hdst x (by omega)) (by omega)

theorem clipboard_convert_succ (src : Int → Nat) (stride width : Int) (rgb : Int → Nat)
    (m : Nat) :
    clipboard_convert src stride width ((m + 1 : Nat) : Int) rgb =
      clipboard_convert_row src stride width (clipboard_convert src stride width (m : Int) rgb)
        (m : Int) := by
  simp only [clipboard_convert, Int.toNat_ofNat, List.range_succ, List.foldl_append,
    List.foldl_cons, List.foldl_nil]

/-- After both loops the bytes of destination pixel `(x, y)` are the bytes of source pixel
`(x, y)`, bytes 0 and 2 exchanged. -/
theorem clipboard_convert_inside (src : Int → Nat) (stride : Int) (rgb : Int → Nat)
    (n m x y : Nat)
    (hidx : ∀ x y : Nat, x < n → y < m →
      (clipboard_src_idx stride (y : Int) (x : Int) = (y : Int) * stride + (x : Int) * 4 ∧
          isInt32 ((y : Int) * stride + (x : Int) * 4) ∧
          isInt32 ((y : Int) * stride + (x : Int) * 4 + 3)) ∧
        clipboard_dst_idx (n : Int) (y : Int) (x : Int) =
          ((y : Int) * (n : Int) + (x : Int)) * 4 ∧
        isInt32 (((y : Int) * (n : Int) + (x : Int)) * 4) ∧
        isInt32 (((y : Int) * (n : Int) + (x : Int)) * 4 + 3))
    (hx : x < n) (hy : y < m) (k : Int) (hk : 0 ≤ k ∧ k < 4) :
    clipboard_convert src stride (n : Int) (m : Int) rgb
        (((y : Int) * (n : Int) + (x : Int)) * 4 + k) =
      src ((y : Int) * stride + (x : Int) * 4 + clipboard_source_byte k) := by
  induction m with
  | zero => omega
  | succ m ih =>
    rw [clipboard_convert_succ, clipboard_convert_row, Int.toNat_ofNat]
    by_cases e : y = m
    · subst e
      exact clipboard_convert_row_upto_inside src stride _ _ _ n x
        (fun x hx => (hidx x y hx (by omega)).1) (fun x hx => (hidx x y hx (by omega)).2) hx k hk
    · have hym : (y : Int) + 1 ≤ (m : Int) := by omega
      have hmul : ((y : Int) + 1) * (n : Int) ≤ (m : Int) * (n : Int) :=
        Int.mul_le_mul_of_nonneg_right hym (by omega)
      rw [clipboard_convert_row_upto_outside _ _ _ _ _ _ _
        (fun x hx => (hidx x m hx (by omega)).2) (by left; linarith)]
      exact ih (fun x y hx hy => hidx x y hx (by omega)) (by omega)

/-- Every offset below `width * height * 4` is byte `k` of a destination pixel `(x, y)`. -/
theorem clipboard_offset_split (n m : Nat) (o : Int) (ho : 0 ≤ o ∧ o < (n : Int) * (m : Int) * 4) :
    ∃ (x y : Nat) (k : Int), x < n ∧ y < m ∧ (0 ≤ k ∧ k < 4) ∧
      o = ((y : Int) * (n : Int) + (x : Int)) * 4 + k := by
  obtain ⟨a, rfl⟩ := Int.eq_ofNat_of_zero_le ho.1
  have ha : a < n * m * 4 := by exact_mod_cast ho.2
  have hn : 0 < n := by
    rcases Nat.eq_zero_or_pos n with h | h
    · subst h; omega
    · exact h
  have hq : a / 4 < n * m := by omega
  refine ⟨(a / 4) % n, (a / 4) / n, ((a % 4 : Nat) : Int), Nat.mod_lt _ hn,
    Nat.div_lt_of_lt_mul hq, by omega, ?_⟩
  have h1 := Nat.div_add_mod (a / 4) n
  have h2 : (n : Int) * ((a / 4 / n : Nat) : Int) + ((a / 4 % n : Nat) : Int) = ((a / 4 : Nat) : Int) := by
    exact_mod_cast h1
  have h3 : ((a / 4 / n : Nat) : Int) * (n : Int) = (n : Int) * ((a / 4 / n : Nat) : Int) :=
    Int.mul_comm _ _
  rw [h3, h2]
  omega

/-- The image `copy_to_clipboard` sets on the clipboard for a surface with at least one pixel
whose `width * height * 4` bytes an `int` can count. -/
theorem copy_to_clipboard_image {α : Type} (render : List (DrawOp α) → Int × (Int → Nat))
    (malloc_data : Int → Nat) (win : MainWindow) (surface : Surface) (annotations : List α)
    (hw : 0 < surface.width) (hh : 0 < surface.height)
    (hsize : surface.width * surface.height * 4 ≤ 2147483647) :
    (copy_to_clipboard render malloc_data win (some surface) annotations).clipboard =
      some
        { width := surface.width
          height := surface.height
          rowstride := surface.width * 4
          pixels :=
            clipboard_convert
              (render (copy_to_clipboard render malloc_data win (some surface) annotations).drawn).2
              (render (copy_to_clipboard render malloc_data win (some surface) annotations).drawn).1
              surface.width surface.height malloc_data } := by
  have hpos : 0 < surface.width * surface.height := Int.mul_pos hw hh
  have h1 : surface.width * 1 ≤ surface.width * surface.height :=
    Int.mul_le_mul_of_nonneg_left (by omega) (by omega)
  have e1 : wrap32 (surface.width * surface.height) = surface.width * surface.height :=
    wrap32_of_isInt32 (by unfold isInt32; constructor <;> linarith)
  have e2 : wrap32 (surface.width * surface.height * 4) = surface.width * surface.height * 4 :=
    wrap32_of_isInt32 (by unfold isInt32; constructor <;> linarith)
  have e3 : wrap32 (surface.width * 4) = surface.width * 4 :=
    wrap32_of_isInt32 (by unfold isInt32; constructor <;> linarith)
  have hne : surface.width * surface.height * 4 ≠ 0 := by linarith
  have hnn : ¬ surface.width * surface.height * 4 < 0 := by linarith
  simp only [copy_to_clipboard, e1, e2, e3, hne, hnn, if_false]

/-- The drawing steps of `copy_to_clipboard` do not depend on the renderer or the buffer. -/
theorem copy_to_clipboard_drawn {α : Type} (render render2 : List (DrawOp α) → Int × (Int → Nat))
    (malloc_data malloc_data2 : Int → Nat) (win : MainWindow) (surface : Surface)
    (annotations : List α) :
    (copy_to_clipboard render2 malloc_data2 win (some surface) annotations).drawn =
      (copy_to_clipboard render malloc_data win (some surface) annotations).drawn := by
  simp only [copy_to_clipboard]
  split_ifs <;> rfl

/-- C14: the clipboard conversion of `copy_to_clipboard` is a byte permutation per pixel, for a
combined surface whose stride is at least `4 * width` and whose `height * stride` bytes an `int`
can count.  For every pixel `(x, y)` of the surface the four destination bytes at
`(y*width + x)*4` are the source bytes at `y*stride + x*4` in the order 2, 1, 0, 3, so the alpha
byte 3 is kept.  Every destination byte below `width*height*4` is written and none depends on
the source's padding: a second run from another fresh buffer and from source bytes that agree on
the pixels gives the same destination bytes. -/
theorem copy_to_clipboard_permutes {α : Type} (render : List (DrawOp α) → Int × (Int → Nat))
    (malloc_data : Int → Nat) (win : MainWindow) (surface : Surface) (annotations : List α)
    (x y : Int) (hx : 0 ≤ x ∧ x < surface.width) (hy : 0 ≤ y ∧ y < surface.height)
    (hstride : 4 * surface.width ≤
      (render (copy_to_clipboard render malloc_data win (some surface) annotations).drawn).1)
    (hsize : surface.height *
      (render (copy_to_clipboard render malloc_data win (some surface) annotations).drawn).1 ≤
        2147483647) :
    ∃ image : ClipboardImage,
      (copy_to_clipboard render malloc_data win (some surface) annotations).clipboard =
          some image ∧
        (image.width = surface.width ∧ image.height = surface.height ∧
          image.rowstride = surface.width * 4) ∧
        (image.pixels ((y * surface.width + x) * 4 + 0) =
            (render (copy_to_clipboard render malloc_data win (some surface) annotations).drawn).2
              (y * (render
                (copy_to_clipboard render malloc_data win (some surface) annotations).drawn).1
                + x * 4 + 2) ∧
          image.pixels ((y * surface.width + x) * 4 + 1) =
            (render (copy_to_clipboard render malloc_data win (some surface) annotations).drawn).2
              (y * (render
                (copy_to_clipboard render malloc_data win (some surface) annotations).drawn).1
                + x * 4 + 1) ∧
          image.pixels ((y * surface.width + x) * 4 + 2) =
            (render (copy_to_clipboard render malloc_data win (some surface) annotations).drawn).2
              (y * (render
                (copy_to_clipboard render malloc_data win (some surface) annotations).drawn).1
                + x * 4 + 0) ∧
          image.pixels ((y * surface.width + x) * 4 + 3) =
            (render (copy_to_clipboard render malloc_data win (some surface) annotations).drawn).2
              (y * (render
                (copy_to_clipboard render malloc_data win (some surface) annotations).drawn).1
                + x * 4 + 3)) ∧
        ∀ (render2 : List (DrawOp α) → Int × (Int → Nat)) (malloc_data2 : Int → Nat)
          (image2 : ClipboardImage),
          (copy_to_clipboard render2 malloc_data2 win (some surface) annotations).clipboard =
            some image2 →
          (render2 (copy_to_clipboard render malloc_data win (some surface) annotations).drawn).1 =
            (render (copy_to_clipboard render malloc_data win (some surface) annotations).drawn).1 →
          (∀ px py k : Int, 0 ≤ px ∧ px < surface.width → 0 ≤ py ∧ py < surface.height →
            0 ≤ k ∧ k < 4 →
            (render2
                (copy_to_clipboard render malloc_data win (some surface) annotations).drawn).2
              (py * (render
                (copy_to_clipboard render malloc_data win (some surface) annotations).drawn).1
                + px * 4 + k) =
            (render (copy_to_clipboard render malloc_data win (some surface) annotations).drawn).2
              (py * (render
                (copy_to_clipboard render malloc_data win (some surface) annotations).drawn).1
                + px * 4 + k)) →
          ∀ o : Int, 0 ≤ o ∧ o < surface.width * surface.height * 4 →
            image2.pixels o = image.pixels o := by
  obtain ⟨n, hn⟩ := Int.eq_ofNat_of_zero_le (show 0 ≤ surface.width by omega)
  obtain ⟨m, hm⟩ := Int.eq_ofNat_of_zero_le (show 0 ≤ surface.height by omega)
  obtain ⟨a, rfl⟩ := Int.eq_ofNat_of_zero_le hx.1
  obtain ⟨c, rfl⟩ := Int.eq_ofNat_of_zero_le hy.1
  have ha : a < n := by omega
  have hc : c < m := by omega
  generalize hD : (copy_to_clipboard render malloc_data win (some surface) annotations).drawn = D
    at hstride hsize ⊢
  generalize hS : (render D).1 = S at hstride hsize ⊢
  rw [hn] at hstride
  rw [hm] at hsize
  have hbytes : surface.width * surface.height * 4 ≤ 2147483647 := by
    have h1 : (m : Int) * (4 * (n : Int)) ≤ (m : Int) * S :=
      Int.mul_le_mul_of_nonneg_left hstride (by omega)
    rw [hn, hm]
    linarith
  have himg := copy_to_clipboard_image render malloc_data win surface annotations (by omega)
    (by omega) hbytes
  rw [hD, hS] at himg
  have hidx := fun x y hx hy => clipboard_idx_in_range S n m hstride hsize x y hx hy
  have key : ∀ (src rgb : Int → Nat) (k : Int), 0 ≤ k ∧ k < 4 →
      clipboard_convert src S surface.width surface.height rgb
          (((c : Int) * surface.width + (a : Int)) * 4 + k) =
        src ((c : Int) * S + (a : Int) * 4 + clipboard_source_byte k) := by
    intro src rgb k hk
    rw [hn, hm]
    exact clipboard_convert_inside src S rgb n m a c hidx ha hc k hk
  refine ⟨_, himg, ⟨rfl, rfl, rfl⟩, ⟨?_, ?_, ?_, ?_⟩, ?_⟩
  · exact key _ _ 0 (by omega)
  · exact key _ _ 1 (by omega)
  · exact key _ _ 2 (by omega)
  · exact key _ _ 3 (by omega)
  · intro render2 malloc_data2 image2 h2 hstride2 hagree o ho
    have himg2 := copy_to_clipboard_image render2 malloc_data2 win surface annotations
      (by omega) (by omega) hbytes
    rw [copy_to_clipboard_drawn render render2 malloc_data malloc_data2, hD, h2, hstride2]
      at himg2
    have e2 := Option.some.inj himg2
    rw [e2]
    dsimp only
    rw [hn, hm] at ho ⊢
    obtain ⟨px, py, k, hpx, hpy, hk, rfl⟩ := clipboard_offset_split n m o ho
    rw [clipboard_convert_inside _ _ _ n m px py hidx hpx hpy k hk,
      clipboard_convert_inside _ _ _ n m px py hidx hpx hpy k hk]
    have hk2 : 0 ≤ clipboard_source_byte k ∧ clipboard_source_byte k < 4 := by
      unfold clipboard_source_byte
      split_ifs <;> omega
    exact hagree (px : Int) (py : Int) (clipboard_source_byte k) (by rw [hn]; omega)
      (by rw [hm]; omega) hk2

theorem copy_to_clipboard_permutes_witness :
    ∃ image : ClipboardImage,
      (copy_to_clipboard sample_render (fun _ => 0) fresh_window (some blank_surface) [()]).clipboard =
          some image ∧
        (image.width = blank_surface.width ∧ image.height = blank_surface.height ∧
          image.rowstride = blank_surface.width * 4) ∧
        (image.pixels ((1 * blank_surface.width + 1) * 4 + 0) =
            (sample_render (copy_to_clipboard sample_render (fun _ => 0) fresh_window (some blank_surface) [()]).drawn).2
              (1 * (sample_render
                (copy_to_clipboard sample_render (fun _ => 0) fresh_window (some blank_surface) [()]).drawn).1
                + 1 * 4 + 2) ∧
          image.pixels ((1 * blank_surface.width + 1) * 4 + 1) =
            (sample_render (copy_to_clipboard sample_render (fun _ => 0) fresh_window (some blank_surface) [()]).drawn).2
              (1 * (sample_render
                (copy_to_clipboard sample_render (fun _ => 0) fresh_window (some blank_surface) [()]).drawn).1
                + 1 * 4 + 1) ∧
          image.pixels ((1 * blank_surface.width + 1) * 4 + 2) =
            (sample_render (copy_to_clipboard sample_render (fun _ => 0) fresh_window (some blank_surface) [()]).drawn).2
              (1 * (sample_render
                (copy_to_clipboard sample_render (fun _ => 0) fresh_window (some blank_surface) [()]).drawn).1
                + 1 * 4 + 0) ∧
          image.pixels ((1 * blank_surface.width + 1) * 4 + 3) =
            (sample_render (copy_to_clipboard sample_render (fun _ => 0) fresh_window (some blank_surface) [()]).drawn).2
              (1 * (sample_render
                (copy_to_clipboard sample_render (fun _ => 0) fresh_window (some blank_surface) [()]).drawn).1
                + 1 * 4 + 3)) ∧
        ∀ (render2 : List (DrawOp Unit) → Int × (Int → Nat)) (malloc_data2 : Int → Nat)
          (image2 : ClipboardImage),
          (copy_to_clipboard render2 malloc_data2 fresh_window (some blank_surface) [()]).clipboard =
            some image2 →
          (render2 (copy_to_clipboard sample_render (fun _ => 0) fresh_window (some blank_surface) [()]).drawn).1 =
            (sample_render (copy_to_clipboard sample_render (fun _ => 0) fresh_window (some blank_surface) [()]).drawn).1 →
          (∀ px py k : Int, 0 ≤ px ∧ px < blank_surface.width → 0 ≤ py ∧ py < blank_surface.height →
            0 ≤ k ∧ k < 4 →
            (render2
                (copy_to_clipboard sample_render (fun _ => 0) fresh_window (some blank_surface) [()]).drawn).2
              (py * (sample_render
                (copy_to_clipboard sample_render (fun _ => 0) fresh_window (some blank_surface) [()]).drawn).1
                + px * 4 + k) =
            (sample_render (copy_to_clipboard sample_render (fun _ => 0) fresh_window (some blank_surface) [()]).drawn).2
              (py * (sample_render
                (copy_to_clipboard sample_render (fun _ => 0) fresh_window (some blank_surface) [()]).drawn).1
                + px * 4 + k)) →
          ∀ o : Int, 0 ≤ o ∧ o < blank_surface.width * blank_surface.height * 4 →
            image2.pixels o = image.pixels o :=
  copy_to_clipboard_permutes sample_render (fun _ => 0) fresh_window blank_surface [()] 1 1
    (by decide) (by decide) (by decide) (by decide)

/-! ## The display connection -/

/-- C20: `capture_cleanup` is safe when capture was never initialised.  At program start, and in
every state with no display connection in `display`, it changes nothing; calling it twice in a
row leaves the same state as calling it once. -/
theorem capture_cleanup_idempotent (st : CaptureState) :
    capture_cleanup capture_start = capture_start ∧
      capture_cleanup { st with display := none } = { st with display := none } ∧
      capture_cleanup (capture_cleanup st) = capture_cleanup st := by
  refine ⟨rfl, rfl, ?_⟩
  obtain ⟨display, root, connections, opened⟩ := st
  cases display <;> rfl

/-- Once `capture_overlay_init` has succeeded, the connection it opened is still open when
`on_capture_button_clicked` returns, at every return point. -/
theorem on_capture_button_clicked_keeps_connection (env : CaptureFlowEnv) (st : CaptureState)
    (h : (on_capture_button_clicked env st).1 ≠ CaptureExit.overlay_init_failed) :
    st.opened ∈ (on_capture_button_clicked env st).2.connections := by
  revert h
  unfold on_capture_button_clicked capture_overlay_init
  cases h1 : env.overlay_xopen with
  | none => simp [capture_init]
  | some r =>
    simp only [capture_init]
    by_cases h2 : env.gdk_display_ok = true
    · by_cases h3 : env.primary_monitor_ok = true
      · cases h4 : capture_screen env.capture CaptureMode.CAPTURE_FULLSCREEN none with
        | none => simp [h2, h3]
        | some bg =>
          simp only [h2, h3, not_true_eq_false, if_false]
          intro _
          by_cases hsel :
              (capture_overlay_get_selection
                  (overlay_main capture_overlay_init_state env.events)).width = 0 ∨
                (capture_overlay_get_selection
                  (overlay_main capture_overlay_init_state env.events)).height = 0
          · rw [if_pos hsel]
            simp
          · rw [if_neg hsel]
            cases h5 : env.capture_xopen with
            | none => simp
            | some r2 =>
              dsimp only
              have hmem : st.opened ∈
                  (capture_cleanup
                    { display := some (st.opened + 1)
                      root := r2
                      connections := st.connections ++ [st.opened] ++ [st.opened + 1]
                      opened := st.opened + 1 + 1 }).connections := by
                simp only [capture_cleanup]
                exact (List.mem_erase_of_ne (by omega)).mpr (by simp)
              cases h6 : capture_screen env.capture CaptureMode.CAPTURE_AREA
                  (some (capture_overlay_get_selection
                    (overlay_main capture_overlay_init_state env.events))) with
              | none => exact hmem
              | some surface =>
                simp only [add_border_to_surface]
                split_ifs <;> exact hmem
      · simp [h2, h3]
    · simp [h2]

/-- C18: two runs of `on_capture_button_clicked` from program start in which every outside call
succeeds.  When the user presses Escape the handler returns at "Capture cancelled" with the
connection opened by `capture_overlay_init` still open and still in `display`.  When the user
drags from (10, 10) to (60, 50) the screenshot is saved, two connections have been opened, and
the first is still open at the return. -/
theorem on_capture_button_clicked_leaks_connection :
    on_capture_button_clicked (working_flow [OverlayEvent.key_press GDK_KEY_Escape])
        capture_start =
      (CaptureExit.cancelled,
        { display := some 0, root := 1, connections := [0], opened := 1 }) ∧
    on_capture_button_clicked
        (working_flow
          [OverlayEvent.button_press 1 10 10, OverlayEvent.motion 60 50,
            OverlayEvent.button_release 1 60 50])
        capture_start =
      (CaptureExit.saved, { display := none, root := 1, connections := [0], opened := 2 }) := by
  constructor <;> decide

/-! ## File names -/

theorem digitChar_isDigit (d : Nat) (h : d < 10) : (Nat.digitChar d).isDigit = true := by
  interval_cases d <;> decide

theorem digitChar_value (d : Nat) (h : d < 10) : (Nat.digitChar d).toNat - '0'.toNat = d := by
  interval_cases d <;> decide

theorem digitChar_injective (a b : Nat) (ha : a < 10) (hb : b < 10)
    (h : Nat.digitChar a = Nat.digitChar b) : a = b := by
  rw [← digitChar_value a ha, ← digitChar_value b hb, h]

/-- A number below `10 ^ k` has at most `k` decimal digits. -/
theorem decimal_digits_length_le (fuel : Nat) :
    ∀ n k : Nat, 0 < k → n < 10 ^ k → (decimal_digits fuel n).length ≤ k := by
  induction fuel with
  | zero => intro n k _ _; simp [decimal_digits]
  | succ fuel ih =>
    intro n k hk hn
    unfold decimal_digits
    split_ifs with h10
    · simpa using hk
    · obtain ⟨j, rfl⟩ : ∃ j, k = j + 1 := ⟨k - 1, by omega⟩
      have hj : 0 < j := by
        rcases Nat.eq_zero_or_pos j with h | h
        · subst h; simp at hn; omega
        · exact h
      have hdiv : n / 10 < 10 ^ j := by
        rw [pow_succ] at hn
        omega
      have := ih (n / 10) j hj hdiv
      simp only [List.length_append, List.length_singleton]
      omega

theorem decimal_digits_isDigit (fuel : Nat) :
    ∀ n : Nat, ∀ c ∈ decimal_digits fuel n, c.isDigit = true := by
  induction fuel with
  | zero => intro n c hc; simp [decimal_digits] at hc
  | succ fuel ih =>
    intro n c hc
    unfold decimal_digits at hc
    split_ifs at hc with h10
    · rw [List.mem_singleton] at hc
      rw [hc]
      exact digitChar_isDigit n h10
    · rw [List.mem_append, List.mem_singleton] at hc
      rcases hc with hc | hc
      · exact ih _ c hc
      · rw [hc]
        exact digitChar_isDigit _ (Nat.mod_lt _ (by omega))

theorem decimal_value_append (ds : List Char) (c : Char) :
    decimal_value (ds ++ [c]) = 10 * decimal_value ds + (c.toNat - '0'.toNat) := by
  simp [decimal_value, List.foldl_append]

theorem decimal_value_zeros (k : Nat) (ds : List Char) :
    decimal_value (List.replicate k '0' ++ ds) = decimal_value ds := by
  unfold decimal_value
  rw [List.foldl_append]
  congr 1
  induction k with
  | zero => rfl
  | succ k ih => rw [List.replicate_succ, List.foldl_cons]; simpa using ih

/-- With enough fuel the decimal digits stand for the number. -/
theorem decimal_value_digits (fuel : Nat) :
    ∀ n : Nat, n < fuel → decimal_value (decimal_digits fuel n) = n := by
  induction fuel with
  | zero => intro n h; omega
  | succ fuel ih =>
    intro n h
    unfold decimal_digits
    split_ifs with h10
    · have := decimal_value_append [] (Nat.digitChar n)
      simp only [List.nil_append] at this
      rw [this, digitChar_value n h10]
      simp [decimal_value]
    · rw [decimal_value_append, ih (n / 10) (by omega), digitChar_value _ (Nat.mod_lt _ (by omega))]
      omega

/-- The last decimal digit is the number modulo 10. -/
theorem decimal_digits_last (fuel n : Nat) :
    ∃ front : List Char, decimal_digits (fuel + 1) n = front ++ [Nat.digitChar (n % 10)] := by
  unfold decimal_digits
  split_ifs with h10
  · exact ⟨[], by rw [Nat.mod_eq_of_lt h10]; rfl⟩
  · exact ⟨_, rfl⟩

theorem printf_04d_last (n : Int) :
    ∃ front : List Char, printf_04d n = front ++ [Nat.digitChar (n.natAbs % 10)] := by
  obtain ⟨front, hf⟩ := decimal_digits_last n.natAbs n.natAbs
  unfold printf_04d
  simp only [hf]
  split_ifs
  · exact ⟨'-' :: (List.replicate (3 - (front ++ [Nat.digitChar (n.natAbs % 10)]).length) '0'
      ++ front), by simp⟩
  · exact ⟨List.replicate (4 - (front ++ [Nat.digitChar (n.natAbs % 10)]).length) '0' ++ front,
      by simp⟩

/-- For a number from 1 to 9999 the conversion `%04d` gives exactly four decimal digits that
stand for the number. -/
theorem printf_04d_four_digits (n : Int) (h : 1 ≤ n ∧ n ≤ 9999) :
    (printf_04d n).length = 4 ∧ (∀ c ∈ printf_04d n, c.isDigit = true) ∧
      (decimal_value (printf_04d n) : Int) = n := by
  obtain ⟨k, rfl⟩ := Int.eq_ofNat_of_zero_le (show 0 ≤ n by omega)
  have hk : k ≤ 9999 := by omega
  have hlen := decimal_digits_length_le (k + 1) k 4 (by omega) (by omega)
  unfold printf_04d
  simp only [Int.natAbs_ofNat]
  rw [if_neg (by omega)]
  refine ⟨?_, ?_, ?_⟩
  · simp only [List.length_append, List.length_replicate]
    omega
  · intro c hc
    rw [List.mem_append] at hc
    rcases hc with hc | hc
    · rw [(List.mem_replicate.mp hc).2]
      decide
    · exact decimal_digits_isDigit _ _ c hc
  · rw [decimal_value_zeros, decimal_value_digits (k + 1) k (by omega)]

/-- Two names that end in different last digits before `.png` are different. -/
theorem numbered_names_ne (a b fa fb : List Char) (da db : Char) (h : da ≠ db) :
    a ++ (fa ++ [da]) ++ ".png".toList ≠ b ++ (fb ++ [db]) ++ ".png".toList := by
  intro e
  have e1 := List.append_inj_left' e rfl
  rw [← List.append_assoc, ← List.append_assoc] at e1
  have e2 := List.append_inj_right' e1 rfl
  exact h (List.singleton_inj.mp e2)

/-- The counter after a numbered name and the counter before it end in different digits. -/
theorem successor_last_digit_ne (n : Int) :
    Nat.digitChar (n.natAbs % 10) ≠ Nat.digitChar ((wrap32 (n + 1)).natAbs % 10) := by
  intro e
  have e2 := digitChar_injective _ _ (Nat.mod_lt _ (by omega)) (Nat.mod_lt _ (by omega)) e
  unfold wrap32 at e2
  omega

/-- The name and the next counter value for the two numbered formats. -/
theorem generate_screenshot_filename_of_numbered (timestamp : List Char) (settings : Settings)
    (number : Int)
    (hfmt : settings.filename_format = FilenameFormat.FILENAME_LINSHOT_NUMBER ∨
      settings.filename_format = FilenameFormat.FILENAME_SCREENSHOT_NUMBER) :
    generate_screenshot_filename timestamp settings number =
      (settings.screenshot_path ++
          (if settings.filename_format = FilenameFormat.FILENAME_LINSHOT_NUMBER then
            "/LinShot_".toList
          else "/Screenshot_".toList) ++
          printf_04d number ++ ".png".toList,
        wrap32 (number + 1)) := by
  rcases hfmt with h | h <;> simp [generate_screenshot_filename, h]

/-- C19: for the two numbered file name formats `generate_screenshot_filename` returns the
screenshot path, `/LinShot_` or `/Screenshot_`, the counter and `.png`; for a counter from 1 to
9999 the counter is written as exactly four decimal digits that stand for it; and the next
numbered name, generated from the counter value the first call leaves, is a different name. -/
theorem generate_screenshot_filename_numbered (timestamp timestamp2 : List Char)
    (settings settings2 : Settings) (number : Int)
    (hfmt : settings.filename_format = FilenameFormat.FILENAME_LINSHOT_NUMBER ∨
      settings.filename_format = FilenameFormat.FILENAME_SCREENSHOT_NUMBER)
    (hfmt2 : settings2.filename_format = FilenameFormat.FILENAME_LINSHOT_NUMBER ∨
      settings2.filename_format = FilenameFormat.FILENAME_SCREENSHOT_NUMBER) :
    (1 ≤ number ∧ number ≤ 9999 →
      ∃ digits : List Char,
        digits.length = 4 ∧ (∀ c ∈ digits, c.isDigit = true) ∧
          (decimal_value digits : Int) = number ∧
          (generate_screenshot_filename timestamp settings number).1 =
            settings.screenshot_path ++
              (if settings.filename_format = FilenameFormat.FILENAME_LINSHOT_NUMBER then
                "/LinShot_".toList
              else "/Screenshot_".toList) ++
              digits ++ ".png".toList) ∧
      (generate_screenshot_filename timestamp2 settings2
          (generate_screenshot_filename timestamp settings number).2).1 ≠
        (generate_screenshot_filename timestamp settings number).1 := by
  rw [generate_screenshot_filename_of_numbered timestamp settings number hfmt,
    generate_screenshot_filename_of_numbered timestamp2 settings2 _ hfmt2]
  constructor
  · intro hn
    obtain ⟨h1, h2, h3⟩ := printf_04d_four_digits number hn
    exact ⟨printf_04d number, h1, h2, h3, rfl⟩
  · dsimp only
    obtain ⟨f1, hf1⟩ := printf_04d_last number
    obtain ⟨f2, hf2⟩ := printf_04d_last (wrap32 (number + 1))
    rw [hf1, hf2]
    exact numbered_names_ne _ _ _ _ _ _ (successor_last_digit_ne number).symm

theorem generate_screenshot_filename_numbered_witness :
    (1 ≤ (41 : Int) ∧ (41 : Int) ≤ 9999 →
      ∃ digits : List Char,
        digits.length = 4 ∧ (∀ c ∈ digits, c.isDigit = true) ∧
          (decimal_value digits : Int) = 41 ∧
          (generate_screenshot_filename "20240101_120000".toList
              { screenshot_path := "/home/u/Pictures".toList
                filename_format := FilenameFormat.FILENAME_LINSHOT_NUMBER
                auto_number := 1
                start_with_os := false
                shortcut_key := ShortcutKey.SHORTCUT_PRINTSCREEN } 41).1 =
            "/home/u/Pictures".toList ++
              (if FilenameFormat.FILENAME_LINSHOT_NUMBER =
                  FilenameFormat.FILENAME_LINSHOT_NUMBER then
                "/LinShot_".toList
              else "/Screenshot_".toList) ++
              digits ++ ".png".toList) ∧
      (generate_screenshot_filename "20240101_120001".toList
          { screenshot_path := "/home/u/Pictures".toList
            filename_format := FilenameFormat.FILENAME_SCREENSHOT_NUMBER
            auto_number := 1
            start_with_os := false
            shortcut_key := ShortcutKey.SHORTCUT_PRINTSCREEN }
          (generate_screenshot_filename "20240101_120000".toList
            { screenshot_path := "/home/u/Pictures".toList
              filename_format := FilenameFormat.FILENAME_LINSHOT_NUMBER
              auto_number := 1
              start_with_os := false
              shortcut_key := ShortcutKey.SHORTCUT_PRINTSCREEN } 41).2).1 ≠
        (generate_screenshot_filename "20240101_120000".toList
          { screenshot_path := "/home/u/Pictures".toList
            filename_format := FilenameFormat.FILENAME_LINSHOT_NUMBER
            auto_number := 1
            start_with_os := false
            shortcut_key := ShortcutKey.SHORTCUT_PRINTSCREEN } 41).1 :=
  generate_screenshot_filename_numbered "20240101_120000".toList "20240101_120001".toList
    { screenshot_path := "/home/u/Pictures".toList
      filename_format := FilenameFormat.FILENAME_LINSHOT_NUMBER
      auto_number := 1
      start_with_os := false
      shortcut_key := ShortcutKey.SHORTCUT_PRINTSCREEN }
    { screenshot_path := "/home/u/Pictures".toList
      filename_format := FilenameFormat.FILENAME_SCREENSHOT_NUMBER
      auto_number := 1
      start_with_os := false
      shortcut_key := ShortcutKey.SHORTCUT_PRINTSCREEN }
    41 (Or.inl rfl) (Or.inr rfl)

/-- The numbered name for the counter value 41 under the path `/home/u/Pictures`. -/
theorem generate_screenshot_filename_example :
    generate_screenshot_filename "20240101_120000".toList
        { screenshot_path := "/home/u/Pictures".toList
          filename_format := FilenameFormat.FILENAME_LINSHOT_NUMBER
          auto_number := 1
          start_with_os := false
          shortcut_key := ShortcutKey.SHORTCUT_PRINTSCREEN } 41 =
      ("/home/u/Pictures/LinShot_0041.png".toList, 42) := by
  decide

/-! ## The arrow head -/

/-- A committing step appends its annotation to the list and leaves the undo stack as it was. -/
theorem edit_step_commit (win_data : MainWindowData) (op : EditOp) (a : Annotation)
    (h : committed_by op = some a) :
    (edit_step win_data op).annotations = win_data.annotations ++ [a] ∧
      (edit_step win_data op).undo_stack = win_data.undo_stack := by
  cases op with
  | commit_shape tool start_point =>
    simp only [committed_by, Option.some.injEq] at h
    subst h
    simp only [edit_step, Editor.on_button_release, annotation_create, settings_copy_eq,
      Option.isSome_none, not_true_eq_false, if_false, if_true, Bool.false_eq_true, and_self]
  | commit_text tool x y c cs =>
    simp only [committed_by, Option.some.injEq] at h
    subst h
    simp only [edit_step, show_text_dialog, annotation_create, settings_copy_eq, g_strdup,
      not_true_eq_false, if_false, if_true, and_self]
  | undo => simp [committed_by] at h

/-- An undo moves the last annotation to the end of the undo stack: the two sequences together
hold the same annotations as before. -/
theorem undo_last_annotation_perm (win_data : MainWindowData) :
    List.Perm (( undo_last_annotation win_data).annotations ++
        ( undo_last_annotation win_data).undo_stack)
      (win_data.annotations ++ win_data.undo_stack) := by
  unfold undo_last_annotation
  rcases List.eq_nil_or_concat win_data.annotations with h | ⟨l, a, h⟩
  · simp [h]
  · simp only [h, List.concat_eq_append, List.getLast?_concat, List.dropLast_concat]
    rw [List.append_assoc]
    exact List.Perm.append_left l List.perm_append_comm

/-- After a sequence of editing steps the annotation list and the undo stack together hold what
they held before and the annotations committed by the steps. -/
theorem edit_run_perm (ops : List EditOp) :
    ∀ win_data : MainWindowData,
      List.Perm ((edit_run win_data ops).annotations ++ (edit_run win_data ops).undo_stack)
        (win_data.annotations ++ win_data.undo_stack ++ ops.filterMap committed_by) := by
  induction ops with
  | nil => intro win_data; simp [edit_run]
  | cons op ops ih =>
    intro win_data
    have step := ih (edit_step win_data op)
    simp only [edit_run, List.foldl_cons] at step ⊢
    refine step.trans ?_
    cases hc : committed_by op with
    | some a =>
      obtain ⟨h1, h2⟩ := edit_step_commit win_data op a hc
      rw [h1, h2, List.filterMap_cons_some hc]
      simp only [List.append_assoc, List.singleton_append]
      exact List.Perm.append_left _ List.perm_middle.symm
    | none =>
      rw [List.filterMap_cons_none hc]
      cases op with
      | undo => exact List.Perm.append_right _ ( undo_last_annotation_perm win_data)
      | commit_shape tool start_point => cases hc
      | commit_text tool x y c cs => cases hc

/-- C22: start from an empty annotation list and an empty undo stack and run any sequence of
commits and undos.  The annotation list followed by the undo stack is then a rearrangement of
the sequence of committed annotations, each commit counted once: an annotation occurs in the two
sequences together as often as it was committed, so one committed once is in exactly one of
them.  A committing step leaves the undo stack unchanged. -/
theorem edit_run_partition (win_data : MainWindowData) (ops : List EditOp) :
    List.Perm
        ((edit_run { win_data with annotations := [], undo_stack := [] } ops).annotations ++
          (edit_run { win_data with annotations := [], undo_stack := [] } ops).undo_stack)
        (ops.filterMap committed_by) ∧
      (∀ a : Annotation,
        (edit_run { win_data with annotations := [], undo_stack := [] } ops).annotations.count a +
            (edit_run { win_data with annotations := [], undo_stack := [] } ops).undo_stack.count a =
          (ops.filterMap committed_by).count a) ∧
      (∀ a : Annotation, (ops.filterMap committed_by).count a = 1 →
        (a ∈ (edit_run { win_data with annotations := [], undo_stack := [] } ops).annotations ∧
            a ∉ (edit_run { win_data with annotations := [], undo_stack := [] } ops).undo_stack) ∨
          (a ∉ (edit_run { win_data with annotations := [], undo_stack := [] } ops).annotations ∧
            a ∈ (edit_run { win_data with annotations := [], undo_stack := [] } ops).undo_stack)) ∧
      (∀ (state : MainWindowData) (op : EditOp), (committed_by op).isSome = true →
        (edit_step state op).undo_stack = state.undo_stack ∧
          ∃ a, committed_by op = some a ∧
            (edit_step state op).annotations = state.annotations ++ [a]) := by
  have hperm := edit_run_perm ops { win_data with annotations := [], undo_stack := [] }
  simp only [List.nil_append] at hperm
  have hcount : ∀ a : Annotation,
      (edit_run { win_data with annotations := [], undo_stack := [] } ops).annotations.count a +
          (edit_run { win_data with annotations := [], undo_stack := [] } ops).undo_stack.count a =
        (ops.filterMap committed_by).count a := by
    intro a
    rw [← List.count_append]
    exact hperm.count_eq a
  refine ⟨hperm, hcount, ?_, ?_⟩
  · intro a h1
    have hc := hcount a
    rw [h1] at hc
    by_cases hm : a ∈ (edit_run { win_data with annotations := [], undo_stack := [] } ops).annotations
    · left
      refine ⟨hm, ?_⟩
      intro hu
      have p1 := List.count_pos_iff.mpr hm
      have p2 := List.count_pos_iff.mpr hu
      omega
    · right
      refine ⟨hm, ?_⟩
      have z := List.count_eq_zero_of_not_mem hm
      rw [z] at hc
      exact List.count_pos_iff.mp (by omega)
  · intro state op hs
    obtain ⟨a, ha⟩ := Option.isSome_iff_exists.mp hs
    obtain ⟨h1, h2⟩ := edit_step_commit state op a ha
    exact ⟨h2, a, ha, h1⟩

/-! ## Flattening -/

/-- The drawing steps of `save_image_with_annotations` for a surface and a file name. -/
theorem save_image_with_annotations_drawn {α : Type} (env : SaveEnv) (win : MainWindow)
    (surface : Surface) (annotations : List α) (filename : List Char) :
    (save_image_with_annotations env win (some surface) annotations (some filename)).drawn =
      [DrawOp.image_surface_create surface.width surface.height, DrawOp.paint_surface 0 0]
        ++ annotations.map DrawOp.annotation_draw := by
  simp only [save_image_with_annotations]
  split
  · rfl
  · split_ifs <;> rfl

/-- The drawing steps of `copy_to_clipboard` for a surface. -/
theorem copy_to_clipboard_steps {α : Type} (render : List (DrawOp α) → Int × (Int → Nat))
    (malloc_data : Int → Nat) (win : MainWindow) (surface : Surface) (annotations : List α) :
    (copy_to_clipboard render malloc_data win (some surface) annotations).drawn =
      [DrawOp.image_surface_create surface.width surface.height, DrawOp.paint_surface 0 0]
        ++ annotations.map DrawOp.annotation_draw := by
  simp only [copy_to_clipboard]
  split_ifs <;> rfl

/-- C23: the flattening of `on_draw` creates a surface of the base image's width and height,
paints the base at the origin and then draws every annotation of the list in list order.  With
no drag in progress these are all the steps, and they are the steps of `copy_to_clipboard` and of
`save_image_with_annotations` for the same image and list.  With a drag in progress one more
step follows last: the drawing of a new annotation of the current tool whose bounds are the
drag's start and current point. -/
theorem on_draw_flatten_order (render : List (DrawOp Annotation) → Int × (Int → Nat))
    (malloc_data : Int → Nat) (env : SaveEnv) (win : MainWindow) (filename : List Char)
    (malloc_ok : Bool) (win_data : MainWindowData) (image : Surface) :
    Editor.on_draw malloc_ok { win_data with current_image := some image, drawing := false } =
        [DrawOp.image_surface_create image.width image.height, DrawOp.paint_surface 0 0]
          ++ win_data.annotations.map DrawOp.annotation_draw ∧
      Editor.on_draw malloc_ok { win_data with current_image := some image, drawing := false } =
        (copy_to_clipboard render malloc_data win (some image) win_data.annotations).drawn ∧
      Editor.on_draw malloc_ok { win_data with current_image := some image, drawing := false } =
        (save_image_with_annotations env win (some image) win_data.annotations
          (some filename)).drawn ∧
      Editor.on_draw true { win_data with current_image := some image, drawing := true } =
        [DrawOp.image_surface_create image.width image.height, DrawOp.paint_surface 0 0]
          ++ win_data.annotations.map DrawOp.annotation_draw
          ++ [DrawOp.annotation_draw
                { type := win_data.current_tool.type
                  settings := win_data.current_tool
                  bounds := win_data.start_point
                  text := none
                  path :=
                    { points := List.replicate 1000 { x1 := 0, y1 := 0, x2 := 0, y2 := 0 }
                      point_count := 0 } }] := by
  have h0 :
      Editor.on_draw malloc_ok { win_data with current_image := some image, drawing := false } =
        [DrawOp.image_surface_create image.width image.height, DrawOp.paint_surface 0 0]
          ++ win_data.annotations.map DrawOp.annotation_draw := by
    simp only [Editor.on_draw, Bool.false_eq_true, if_false]
  refine ⟨h0, ?_, ?_, ?_⟩
  · rw [h0, copy_to_clipboard_steps]
  · rw [h0, save_image_with_annotations_drawn]
  · simp only [Editor.on_draw, annotation_create, settings_copy_eq, not_true_eq_false, if_false,
      if_true]

/-! ## Drags on the canvas -/

/-- Pointer moves during a drag with a shape tool change nothing but the current point of the
drag. -/
theorem editor_moves_invariant (moves : List (ℚ × ℚ)) :
    ∀ w : MainWindowData, w.drawing = true → w.selected_text = none →
      (moves.foldl (fun w m => Editor.on_motion_notify w m.1 m.2) w).drawing = true ∧
        (moves.foldl (fun w m => Editor.on_motion_notify w m.1 m.2) w).selected_text = none ∧
        (moves.foldl (fun w m => Editor.on_motion_notify w m.1 m.2) w).annotations =
          w.annotations ∧
        (moves.foldl (fun w m => Editor.on_motion_notify w m.1 m.2) w).current_tool =
          w.current_tool ∧
        (moves.foldl (fun w m => Editor.on_motion_notify w m.1 m.2) w).start_point.x1 =
          w.start_point.x1 ∧
        (moves.foldl (fun w m => Editor.on_motion_notify w m.1 m.2) w).start_point.y1 =
          w.start_point.y1 ∧
        (moves = [] →
          (moves.foldl (fun w m => Editor.on_motion_notify w m.1 m.2) w).start_point =
            w.start_point) := by
  induction moves with
  | nil => intro w hd hs; simp [hd, hs]
  | cons m ms ih =>
    intro w hd hs
    have e : Editor.on_motion_notify w m.1 m.2 =
        { w with
          start_point :=
            { w.start_point with x2 := double_to_int m.1, y2 := double_to_int m.2 } } := by
      simp only [Editor.on_motion_notify, hs, hd, if_true]
    obtain ⟨h1, h2, h3, h4, h5, h6, _⟩ := ih (Editor.on_motion_notify w m.1 m.2)
      (by rw [e]; exact hd) (by rw [e]; exact hs)
    simp only [List.foldl_cons]
    refine ⟨h1, h2, ?_, ?_, ?_, ?_, by simp⟩
    · rw [h3, e]
    · rw [h4, e]
    · rw [h5, e]
    · rw [h6, e]

/-- A drag with a shape tool on a session without annotations commits one annotation of the
tool, with the path that `annotation_create` zeroed. -/
theorem editor_drag_commits (tool : ToolType) (ht : tool ≠ ToolType.TOOL_TEXT)
    (hn : tool ≠ ToolType.TOOL_NONE) (x y : ℚ) (moves : List (ℚ × ℚ)) :
    ∃ bounds : PointPair,
      (Editor.drag true (fresh_window_data tool) x y moves).annotations =
          [{ type := tool
             settings := default_settings tool
             bounds := bounds
             text := none
             path :=
              { points := List.replicate 1000 { x1 := 0, y1 := 0, x2 := 0, y2 := 0 }
                point_count := 0 } }] ∧
        bounds.x1 = double_to_int x ∧ bounds.y1 = double_to_int y ∧
        (moves = [] → bounds.x2 = double_to_int x ∧ bounds.y2 = double_to_int y) := by
  have hp : Editor.on_button_press true (fresh_window_data tool) 1 x y false none =
      { fresh_window_data tool with
        selected_text := none
        drawing := true
        start_point :=
          { x1 := double_to_int x, y1 := double_to_int y
            x2 := double_to_int x, y2 := double_to_int y } } := by
    simp only [Editor.on_button_press, find_text_at_coords, fresh_window_data, find_text_in,
      default_settings, if_true, if_neg ht, ne_eq, hn, not_false_eq_true]
  obtain ⟨h1, h2, h3, h4, h5, h6, h7⟩ := editor_moves_invariant moves
    (Editor.on_button_press true (fresh_window_data tool) 1 x y false none)
    (by rw [hp]) (by rw [hp])
  refine ⟨(moves.foldl (fun w m => Editor.on_motion_notify w m.1 m.2)
      (Editor.on_button_press true (fresh_window_data tool) 1 x y false none)).start_point,
    ?_, ?_, ?_, ?_⟩
  · simp only [Editor.drag, Editor.on_button_release, h1, h2, h3, h4, annotation_create,
      settings_copy_eq, Option.isSome_none, not_true_eq_false, if_false, if_true,
      Bool.false_eq_true]
    rw [hp]
    simp only [fresh_window_data, List.nil_append, default_settings]
  · rw [h5, hp]
  · rw [h6, hp]
  · intro hm
    rw [h7 hm, hp]
    exact ⟨rfl, rfl⟩

/-- C27 fails in the code: a click without a drag while the Ellipse tool is active, at any
point, such as (50, 50), commits an Ellipse annotation whose two bound points coincide, and for
these bounds both scale factors that `annotation_draw` passes to `cairo_scale` are 0. -/
theorem ellipse_click_scale_zero (x y : ℚ) :
    ∃ a : Annotation,
      (Editor.drag true (fresh_window_data ToolType.TOOL_ELLIPSE) x y []).annotations = [a] ∧
        a.type = ToolType.TOOL_ELLIPSE ∧
        a.bounds =
          { x1 := double_to_int x, y1 := double_to_int y
            x2 := double_to_int x, y2 := double_to_int y } ∧
        (ellipse_geometry a.bounds).scale_x = 0 ∧ (ellipse_geometry a.bounds).scale_y = 0 := by
  obtain ⟨bounds, h, h1, h2, h3⟩ := editor_drag_commits ToolType.TOOL_ELLIPSE (by decide)
    (by decide) x y []
  obtain ⟨h4, h5⟩ := h3 rfl
  refine ⟨_, h, rfl, ?_, ?_, ?_⟩
  · cases bounds
    simp only at h1 h2 h4 h5 ⊢
    rw [h1, h2, h4, h5]
  · simp only [ellipse_geometry, h1, h4, sub_self, wrap32, abs_int]
    norm_num
  · simp only [ellipse_geometry, h2, h5, sub_self, wrap32, abs_int]
    norm_num

/-! ## The bytes the copy loop writes -/

/-- Both loops leave a byte as it was when it lies outside the pixel bytes of every row. -/
theorem copy_rows_outside (img : XImage) (rs gs bs : Nat) (stride : Int) (data : Int → Nat)
    (n m : Nat) (q : Int) (hn : 4 * (n : Int) ≤ 2147483647)
    (hrows : ∀ j : Nat, j < m → isInt32 ((j : Int) * stride))
    (h : ∀ j : Nat, j < m → q < (j : Int) * stride ∨ (j : Int) * stride + 4 * (n : Int) ≤ q) :
    copy_rows img rs gs bs stride (n : Int) (m : Int) data q = data q := by
  induction m with
  | zero => simp [copy_rows]
  | succ m ih =>
    rw [copy_rows_succ,
      copy_row_outside _ _ _ _ _ _ _ _ _ (hrows m (by omega)) hn (h m (by omega))]
    exact ih (fun j hj => hrows j (by omega)) (fun j hj => h j (by omega))

/-- An offset in the pixel bytes of a row is of the form `j * stride + 4 * i + k`. -/
theorem row_offset_split (base q : Int) (n : Nat) (h1 : base ≤ q) (h2 : q < base + 4 * (n : Int)) :
    ∃ i k : Int, 0 ≤ i ∧ i < (n : Int) ∧ 0 ≤ k ∧ k < 4 ∧ q = base + 4 * i + k :=
  ⟨(q - base) / 4, (q - base) % 4, by omega, by omega, by omega, by omega, by omega⟩

/-- C25: for a width and a height of at least 0, a row stride of at least `4 * width` and a
destination buffer whose `height * stride` bytes an `int` can count, the copy loop of
`capture_screen` writes exactly the bytes at the offsets `j*stride + 4*i + k` with
`0 <= j < height`, `0 <= i < width`, `0 <= k < 4`.  Each of them gets the byte of the source
pixel `(i, j)`, whatever the buffer held, and lies inside the `height*stride` bytes of the
buffer; every byte at another offset is left as it was, among them the padding bytes
`j*stride + p` with `4*width <= p < stride` of each row. -/
theorem copy_rows_writes_exactly (img : XImage) (rs gs bs : Nat) (stride width height : Int)
    (data : Int → Nat) (hw : 0 ≤ width) (hh : 0 ≤ height) (hs : 4 * width ≤ stride)
    (hsize : height * stride ≤ 2147483647) :
    (∀ j i k : Int, 0 ≤ j → j < height → 0 ≤ i → i < width → 0 ≤ k → k < 4 →
      copy_rows img rs gs bs stride width height data (j * stride + 4 * i + k) =
          store_pixel img rs gs bs (fun _ => 0) (j * stride + i * 4) (img.get_pixel i j)
            (j * stride + 4 * i + k) ∧
        0 ≤ j * stride + 4 * i + k ∧ j * stride + 4 * i + k < height * stride) ∧
      (∀ q : Int,
        (¬ ∃ j i k : Int, 0 ≤ j ∧ j < height ∧ 0 ≤ i ∧ i < width ∧ 0 ≤ k ∧ k < 4 ∧
          q = j * stride + 4 * i + k) →
        copy_rows img rs gs bs stride width height data q = data q) ∧
      (∀ j p : Int, 0 ≤ j → j < height → 4 * width ≤ p → p < stride →
        copy_rows img rs gs bs stride width height data (j * stride + p) =
          data (j * stride + p)) := by
  obtain ⟨n, rfl⟩ := Int.eq_ofNat_of_zero_le hw
  obtain ⟨m, rfl⟩ := Int.eq_ofNat_of_zero_le hh
  have hs0 : 0 ≤ stride := by omega
  rcases Nat.eq_zero_or_pos m with hm | hm
  · subst hm
    refine ⟨fun j i k hj0 hjm => absurd hjm (by omega), fun q _ => ?_, fun j p hj0 hjm =>
      absurd hjm (by omega)⟩
    simp [copy_rows]
  obtain ⟨hn, hrows⟩ := rows_in_range stride n m hs hsize hm
  refine ⟨?_, ?_, ?_⟩
  · intro j i k hj0 hjm hi0 hin hk0 hk4
    obtain ⟨j, rfl⟩ := Int.eq_ofNat_of_zero_le hj0
    obtain ⟨i, rfl⟩ := Int.eq_ofNat_of_zero_le hi0
    have e : (j : Int) * stride + 4 * (i : Int) + k = (j : Int) * stride + (i : Int) * 4 + k := by
      ring
    have hj1 : (j : Int) + 1 ≤ (m : Int) := by omega
    have hmul : ((j : Int) + 1) * stride ≤ (m : Int) * stride :=
      Int.mul_le_mul_of_nonneg_right hj1 hs0
    have hjs : 0 ≤ (j : Int) * stride := mul_nonneg hj0 hs0
    refine ⟨?_, by linarith, by linarith⟩
    rw [e]
    exact copy_rows_inside img rs gs bs stride data n m i j hs hn hrows (by omega) (by omega) k
      ⟨hk0, hk4⟩
  · intro q hq
    apply copy_rows_outside _ _ _ _ _ _ _ _ _ hn hrows
    intro j hj
    by_contra hcon
    push_neg at hcon
    obtain ⟨i, k, hi0, hin, hk0, hk4, e⟩ := row_offset_split ((j : Int) * stride) q n hcon.1 hcon.2
    exact hq ⟨(j : Int), i, k, by omega, by omega, hi0, hin, hk0, hk4, e⟩
  · intro j p hj0 hjm hp1 hp2
    apply copy_rows_outside _ _ _ _ _ _ _ _ _ hn hrows
    intro j2 hj2
    rcases lt_trichotomy (j2 : Int) j with hlt | heq | hgt
    · right
      have h1 : ((j2 : Int) + 1) * stride ≤ j * stride :=
        Int.mul_le_mul_of_nonneg_right (by omega) hs0
      linarith
    · right
      rw [heq]
      linarith
    · left
      have h1 : (j + 1) * stride ≤ (j2 : Int) * stride :=
        Int.mul_le_mul_of_nonneg_right (by omega) hs0
      linarith

theorem copy_rows_writes_exactly_witness :
    (∀ j i k : Int, 0 ≤ j → j < 2 → 0 ≤ i → i < 2 → 0 ≤ k → k < 4 →
      copy_rows uniform_image 16 8 0 12 2 2 (fun _ => 7) (j * 12 + 4 * i + k) =
          store_pixel uniform_image 16 8 0 (fun _ => 0) (j * 12 + i * 4)
            (uniform_image.get_pixel i j) (j * 12 + 4 * i + k) ∧
        0 ≤ j * 12 + 4 * i + k ∧ j * 12 + 4 * i + k < 2 * 12) ∧
      (∀ q : Int,
        (¬ ∃ j i k : Int, 0 ≤ j ∧ j < 2 ∧ 0 ≤ i ∧ i < 2 ∧ 0 ≤ k ∧ k < 4 ∧
          q = j * 12 + 4 * i + k) →
        copy_rows uniform_image 16 8 0 12 2 2 (fun _ => 7) q = (fun _ => 7) q) ∧
      (∀ j p : Int, 0 ≤ j → j < 2 → 4 * 2 ≤ p → p < 12 →
        copy_rows uniform_image 16 8 0 12 2 2 (fun _ => 7) (j * 12 + p) =
          (fun _ => 7) (j * 12 + p)) :=
  copy_rows_writes_exactly uniform_image 16 8 0 12 2 2 (fun _ => 7) (by decide) (by decide)
    (by decide) (by decide)

/-! ## The painted selection and the finalised one -/

/-- The rectangle the overlay paints during a drag from `(ox, oy)` whose last pointer position is
`(cx, cy)`, for `int` positions and extents. -/
theorem on_draw_selection_drag (overlay : CaptureOverlay) (ox oy cx cy : Int)
    (moves : List (Int × Int))
    (hcx : isInt32 cx) (hcy : isInt32 cy)
    (hw : 5 ≤ |cx - ox|) (hh : 5 ≤ |cy - oy|)
    (hwr : isInt32 |cx - ox|) (hhr : isInt32 |cy - oy|) :
    on_draw_selection (drag overlay ox oy (moves ++ [(cx, cy)])) =
      some { x := min ox cx, y := min oy cy, width := |cx - ox|, height := |cy - oy| } := by
  obtain ⟨h1, h2, h3, h4, h5⟩ := drag_invariant overlay ox oy moves
  obtain ⟨g1, g2, g3, _, _⟩ := drag_invariant overlay ox oy (moves ++ [(cx, cy)])
  obtain ⟨xw, _, _⟩ := normalize_axis ox cx hcx hw hwr
  obtain ⟨yw, _, _⟩ := normalize_axis oy cy hcy hh hhr
  have ew : (drag overlay ox oy (moves ++ [(cx, cy)])).selection.width = cx - ox := by
    rw [drag_snoc]
    simp only [on_motion_notify, h1, h2, if_true, xw]
  have eh : (drag overlay ox oy (moves ++ [(cx, cy)])).selection.height = cy - oy := by
    rw [drag_snoc]
    simp only [on_motion_notify, h1, h3, if_true, yw]
  simp only [on_draw_selection, g1, g2, g3, ew, eh, if_true, abs_int]
  rw [show ox + (cx - ox) = cx by ring, show oy + (cy - oy) = cy by ring,
    wrap32_of_isInt32 hcx, wrap32_of_isInt32 hcy, wrap32_of_isInt32 hwr,
    wrap32_of_isInt32 hhr]

/-- C26: for a drag from `(ox, oy)` whose last pointer position is `(cx, cy)`, with an extent of
at least 5 in absolute value on both axes, the rectangle the overlay's `on_draw` paints during
the drag, `(min(origin, origin + extent), |extent|)`, is the `CaptureArea` that
`on_button_release` leaves for the same drag.  The pointer position and the two extents are
`int` values. -/
theorem on_draw_selection_eq_release (overlay : CaptureOverlay) (ox oy cx cy : Int)
    (moves : List (Int × Int))
    (hcx : isInt32 cx) (hcy : isInt32 cy)
    (hw : 5 ≤ |cx - ox|) (hh : 5 ≤ |cy - oy|)
    (hwr : isInt32 |cx - ox|) (hhr : isInt32 |cy - oy|) :
    on_draw_selection (drag overlay ox oy (moves ++ [(cx, cy)])) =
        some (capture_overlay_get_selection
          (on_button_release (drag overlay ox oy (moves ++ [(cx, cy)])) 1)) ∧
      on_draw_selection (drag overlay ox oy (moves ++ [(cx, cy)])) =
        some
          { x := min ox (ox + (cx - ox)), y := min oy (oy + (cy - oy))
            width := |cx - ox|, height := |cy - oy| } := by
  rw [on_draw_selection_drag overlay ox oy cx cy moves hcx hcy hw hh hwr hhr]
  rw [show ox + (cx - ox) = cx by ring, show oy + (cy - oy) = cy by ring]
  refine ⟨?_, rfl⟩
  congr 1
  obtain ⟨h1, h2, h3, h4, h5⟩ := drag_invariant overlay ox oy moves
  obtain ⟨xw, xx, xn⟩ := normalize_axis ox cx hcx hw hwr
  obtain ⟨yw, yx, yn⟩ := normalize_axis oy cy hcy hh hhr
  simp only [capture_overlay_get_selection, on_button_release, if_true, drag_snoc,
    on_motion_notify, h1, h2, h3, h4, h5, xw, yw, normalize_selection]
  by_cases hx : cx - ox < 0 <;> by_cases hy : cy - oy < 0 <;>
    simp only [hx, hy, if_true, if_false] at xx xn yx yn ⊢ <;>
    rw [if_neg (by omega)] <;>
    simp only [CaptureArea.mk.injEq] <;>
    exact ⟨xx.symm, yx.symm, xn.symm, yn.symm⟩

theorem on_draw_selection_eq_release_witness :
    on_draw_selection (drag capture_overlay_init_state 300 200 ([(250, 220)] ++ [(120, 40)])) =
        some (capture_overlay_get_selection
          (on_button_release
            (drag capture_overlay_init_state 300 200 ([(250, 220)] ++ [(120, 40)])) 1)) ∧
      on_draw_selection (drag capture_overlay_init_state 300 200 ([(250, 220)] ++ [(120, 40)])) =
        some
          { x := min 300 (300 + (120 - 300)), y := min 200 (200 + (40 - 200))
            width := |120 - 300|, height := |40 - 200| } :=
  on_draw_selection_eq_release capture_overlay_init_state 300 200 120 40 [(250, 220)]
    (by decide) (by decide) (by decide) (by decide) (by decide) (by decide)

/-! ## The settings page -/

/-- C28 fails in the code at index 0: the first filename-format radio button stores
`GINT_TO_POINTER(0)`, the null pointer, so `on_settings_changed` takes the stored format for
absent and leaves `filename_format` as it was, for instance at `FILENAME_LINSHOT_TIMESTAMP`
instead of format 0; the first shortcut radio button leaves `shortcut_key` as it was in the same
way.  This holds whatever GTK's check-button test answers for the radio button; where that test
holds, no radio button changes the format, and where it does not, the buttons 1 to 3 set the
format to their index. -/
theorem on_settings_changed_first_radio_ignored (settings : Settings) (is_check_button : Bool) :
    (on_settings_changed settings (format_radio is_check_button true 0)).1.filename_format =
        settings.filename_format ∧
      (on_settings_changed settings (shortcut_radio is_check_button true 0)).1.shortcut_key =
        settings.shortcut_key ∧
      (on_settings_changed
          { settings with filename_format := FilenameFormat.FILENAME_LINSHOT_TIMESTAMP }
          (format_radio is_check_button true 0)).1.filename_format.to_int = 2 ∧
      (∀ i : Int,
        (on_settings_changed settings (format_radio true true i)).1.filename_format =
          settings.filename_format) ∧
      (∀ i : Int, 1 ≤ i → i ≤ 3 →
        (on_settings_changed settings (format_radio false true i)).1.filename_format.to_int =
          i) := by
  refine ⟨?_, ?_, ?_, ?_, ?_⟩
  · cases is_check_button <;> simp [on_settings_changed, format_radio, GINT_TO_POINTER]
  · cases is_check_button <;> simp [on_settings_changed, shortcut_radio, GINT_TO_POINTER]
  · cases is_check_button <;>
      simp [on_settings_changed, format_radio, GINT_TO_POINTER, FilenameFormat.to_int]
  · intro i
    simp [on_settings_changed, format_radio]
  · intro i h1 h3
    have hi : i = 1 ∨ i = 2 ∨ i = 3 := by omega
    rcases hi with rfl | rfl | rfl <;>
      simp [on_settings_changed, format_radio, GINT_TO_POINTER, GPOINTER_TO_INT, wrap32,
        FilenameFormat.of_int, FilenameFormat.to_int]

/-! ## The global shortcut -/

/-- C30 fails in the code: add to an empty history the file modified at second 2147483648 and
then the file modified at second 0.  The comparison returns the difference 2147483648 as the
`int` -2147483648, so the older file is put first, and the list returned by
`screenshot_history_get_sorted` has the timestamps 0, 2147483648: the earlier entry's timestamp
is smaller than the later one's. -/
theorem screenshot_history_order_broken :
    (screenshot_history_get_sorted
        (screenshot_history_add epoch_fs
          (screenshot_history_add epoch_fs { entries := [], screenshot_path := "/p".toList }
            "/p/new.png".toList)
          "/p/old.png".toList)).map (fun e => (e.filepath, e.timestamp)) =
      [("/p/old.png".toList, 0), ("/p/new.png".toList, 2147483648)] := by
  decide

/-- Where the timestamps lie less than 2147483648 apart, the comparison has the sign of the
difference, and the insertion of `screenshot_history_add` keeps a list most recent first. -/
theorem g_list_insert_sorted_recent_first (lo : Int) (data : ScreenshotEntry)
    (hd : lo ≤ data.timestamp ∧ data.timestamp < lo + 2147483648) :
    ∀ list : List ScreenshotEntry,
      (∀ e ∈ list, lo ≤ e.timestamp ∧ e.timestamp < lo + 2147483648) →
      list.Pairwise (fun a b => a.timestamp ≥ b.timestamp) →
      (g_list_insert_sorted list data compare_entries_by_time).Pairwise
          (fun a b => a.timestamp ≥ b.timestamp) ∧
        ∀ x ∈ g_list_insert_sorted list data compare_entries_by_time, x = data ∨ x ∈ list := by
  intro list
  induction list with
  | nil =>
    intro _ _
    simp [g_list_insert_sorted]
  | cons e rest ih =>
    intro hwin hs
    have he := hwin e (List.mem_cons_self e rest)
    have hcmp : compare_entries_by_time data e = e.timestamp - data.timestamp := by
      unfold compare_entries_by_time wrap32
      omega
    obtain ⟨hhead, htail⟩ := List.pairwise_cons.mp hs
    obtain ⟨ih1, ih2⟩ := ih (fun x hx => hwin x (List.mem_cons_of_mem e hx)) htail
    unfold g_list_insert_sorted
    rw [hcmp]
    split_ifs with hgt
    · refine ⟨List.pairwise_cons.mpr ⟨?_, ih1⟩, ?_⟩
      · intro x hx
        rcases ih2 x hx with rfl | hx
        · omega
        · exact hhead x hx
      · intro x hx
        rcases List.mem_cons.mp hx with rfl | hx
        · exact Or.inr (List.mem_cons_self _ _)
        · rcases ih2 x hx with rfl | hx
          · exact Or.inl rfl
          · exact Or.inr (List.mem_cons_of_mem _ hx)
    · refine ⟨List.pairwise_cons.mpr ⟨?_, hs⟩, ?_⟩
      · intro x hx
        rcases List.mem_cons.mp hx with rfl | hx
        · omega
        · have := hhead x hx
          omega
      · intro x hx
        rcases List.mem_cons.mp hx with rfl | hx
        · exact Or.inl rfl
        · exact Or.inr hx

end LinShot
